import Mathlib

/-!
# Event dispatch core of the mercury bridge

A shallow embedding of `bridge/core/event/event_target.cc`: listener
registration and removal, the mutation-safe firing loop with its firing
iterators, the public `dispatchEvent` entry point and the command buffer that
mirrors listener bookkeeping to the host.

Conventions of the embedding.

* C++ objects mutated in place become values threaded through the functions:
  `State` carries the event target together with the executing context it
  lives in, `Event` is the event object handed around by reference.
* `size_t` counters are `Nat`.  The source decrements `end` and `iterator`
  only under a guard that makes them positive and increments `i` only below
  `size`, so no wrap-around modulo `2^64` can occur.
* `std::shared_ptr<EventListener>` may be null: a listener argument is an
  `Option EventListener`.
* What a script callback does when it is invoked belongs to the script engine.
  It is an input of the model: a `Script` maps each listener to the list of
  `Action`s its callback performs.
* Parts of the repository that the functions use but that are declared in
  other files (`Event`, `RegisteredEventListener`, `EventListenerMap`) are
  modelled from the specification and marked as such.
-/

namespace mercury

/-! ## Data model -/

/-- Event type names; `AtomicString`s are compared by value. -/
abbrev AtomicString := String

/-- A script callback, known by its identity.  `is_event_handler` is the answer
of `EventListener::IsEventHandler()`. -/
structure EventListener where
  id : Nat
  is_event_handler : Bool
deriving DecidableEq, Repr

/-- The dictionary `EventListenerOptions`: `capture` is `none` when
`hasCapture()` is false. -/
structure EventListenerOptions where
  capture : Option Bool
deriving DecidableEq, Repr

/-- The dictionary `AddEventListenerOptions`; a member is `none` when its
`has...()` accessor is false. -/
structure AddEventListenerOptions where
  capture : Option Bool
  passive : Option Bool
  once : Option Bool
deriving DecidableEq, Repr

/-- Source `AddEventListenerOptions::Create()`: no member set. -/
def AddEventListenerOptions.Create : AddEventListenerOptions :=
  { capture := none, passive := none, once := none }

/-- Source `EventListenerOptions::Create()`: no member set. -/
def EventListenerOptions.Create : EventListenerOptions :=
  { capture := none }

/-- Source `setCapture` on the removal options. -/
def EventListenerOptions.setCapture (_o : EventListenerOptions) (value : Bool) : EventListenerOptions :=
  { capture := some value }

/-- Source `setCapture` on the registration options. -/
def AddEventListenerOptions.setCapture (o : AddEventListenerOptions) (value : Bool) :
    AddEventListenerOptions :=
  { o with capture := some value }

/-- The union `boolean or AddEventListenerOptions` accepted by `addEventListener`. -/
inductive QJSUnionAddEventListenerOptionsBoolean where
  | boolean (b : Bool)
  | options (o : AddEventListenerOptions)
deriving DecidableEq, Repr

/-- Source `Event::PassiveMode`, the values used by the dispatcher. -/
inductive PassiveMode where
  | kNotPassive
  | kNotPassiveDefault
  | kPassiveDefault
deriving DecidableEq, Repr

/-- Source `DispatchEventResult`. -/
inductive DispatchEventResult where
  | kNotCanceled
  | kCanceledByEventHandler
  | kCanceledByDefaultEventHandler
deriving DecidableEq, Repr

/-- Error kinds.  `InternalError` is the kind the source passes to
`ThrowException` (`ErrorType::InternalError`); `InvalidStateError` is the kind
the specification names for a rejected dispatch. -/
inductive ErrorType where
  | InternalError
  | InvalidStateError
deriving DecidableEq, Repr

/-- A pending exception recorded by `ExceptionState::ThrowException`. -/
structure Exception where
  type : ErrorType
  message : String
deriving DecidableEq, Repr

/-- What an `ExceptionState` holds when it has an exception: the error
`ThrowException(ctx, type, message)` made, or the error value the callback of a
listener raised, known by that callback. -/
inductive PendingException where
  | thrown (exception : Exception)
  | raisedBy (listener : EventListener)
deriving DecidableEq, Repr

/-- Source `Event::kNone` (the value `SetEventPhase(0)` stores). -/
def Event.kNone : Nat := 0

/-- Source `Event::kCapturingPhase`. -/
def Event.kCapturingPhase : Nat := 1

/-- Source `Event::kAtTarget`. -/
def Event.kAtTarget : Nat := 2

/-- Source `Event::kBubblingPhase`. -/
def Event.kBubblingPhase : Nat := 3

/-- Modelled from the spec: the class `Event` (core/event/event.h is not among
the sources).  Section 3 lists its fields: type, target, current target, phase,
the cancelable, default-prevented, propagation-stopped,
immediate-propagation-stopped and trusted flags and the passive-handling mode;
`default_handled` is the flag native default handling sets.  Targets are
referred to by their binding object. -/
structure Event where
  type : AtomicString
  was_initialized : Bool
  event_phase : Nat
  cancelable : Bool
  default_prevented : Bool
  default_handled : Bool
  propagation_stopped : Bool
  immediate_propagation_stopped : Bool
  is_trusted : Bool
  handling_passive : PassiveMode
  target : Option Nat
  current_target : Option Nat
deriving DecidableEq, Repr

/-- Modelled from the spec: a registered listener, section 3: callback
reference, capture flag, passive flag, once flag (the event type is the key of
the registry that holds it). -/
structure RegisteredEventListener where
  callback : EventListener
  use_capture : Bool
  passive : Bool
  once : Bool
deriving DecidableEq, Repr

/-- The sequence of listeners registered for one event type. -/
abbrev EventListenerVector := List RegisteredEventListener

/-- Modelled from the spec: a listener registry, section 3: a mapping from
event type to an ordered sequence of registered listeners. -/
structure EventListenerMap where
  entries : List (AtomicString × EventListenerVector)
deriving DecidableEq, Repr

/-- A firing iterator.  Its `iterator` and `end` are references to the locals
`i` and `size` of the `FireEventListeners` call that pushed it:
`RemoveEventListenerInternal` decrements them through a const reference to the
iterator, and `FireEventListeners` relies on `i` and `size` being "updated with
the firing event iterator".  The embedding keeps the two counters in the
iterator and lets the loop read them there. -/
structure FiringEventIterator where
  event_type : AtomicString
  iterator : Nat
  end_ : Nat
deriving DecidableEq, Repr

/-- Source `EventTargetData`: the two registries and the firing iterators
(`firing_event_iterators` is a null pointer until the first pass). -/
structure EventTargetData where
  event_listener_map : EventListenerMap
  event_capture_listener_map : EventListenerMap
  firing_event_iterators : Option (List FiringEventIterator)
deriving DecidableEq, Repr

/-- Source `EventTargetData::EventTargetData()`. -/
def EventTargetData.empty : EventTargetData :=
  { event_listener_map := { entries := [] }
    event_capture_listener_map := { entries := [] }
    firing_event_iterators := none }

/-- Command kinds written by the event target. -/
inductive IsolateCommand where
  | kCreateEventTarget
  | kAddEvent
  | kRemoveEvent
deriving DecidableEq, Repr

/-- Source `DartAddEventListenerOptions`, the payload of an add-listener command. -/
structure DartAddEventListenerOptions where
  capture : Bool
  passive : Bool
  once : Bool
deriving DecidableEq, Repr

/-- The last argument of `addCommand`: a null pointer, the options of an
add-listener command, or the marker `(void*)0x01` of a capturing removal. -/
inductive CommandPayload where
  | null
  | addOptions (o : DartAddEventListenerOptions)
  | one
deriving DecidableEq, Repr

/-- One entry of the command buffer. -/
structure IsolateCommandItem where
  type : IsolateCommand
  args : AtomicString
  target : Nat
  payload : CommandPayload
deriving DecidableEq, Repr

/-- What a pass leaves in the observation log: a callback invocation, or a
registration accepted by `AddEventListenerInternal`. -/
inductive TraceItem where
  | invoke (listener : RegisteredEventListener)
  | add (event_type : AtomicString) (listener : RegisteredEventListener)
deriving DecidableEq, Repr

/-- An event target together with the executing context it lives in.

* `context_alive`: `GetExecutingContext()` is not null;
* `commands`: the context's `isolateCommandBuffer()`, oldest entry first;
* `reported_errors`: the context's error channel, holding the errors handed to
  `ReportError`, oldest first;
* `data`: `GetEventTargetData()`, `none` while no data has been created;
* `binding_object`: the target's `bindingObject()`;
* `exception_state`: the `ExceptionState` that the entry point in progress
  (`dispatchEvent`, `HandleDispatchEventFromDart`) hands down to
  `FireEventListeners` and from there to every `Invoke`; `none` while it has no
  exception;
* `trace`, `out_of_fuel`, `out_of_range`: observation only, see `fireLoop`;
* `null_context_used`: observation only, see `State.sendCommand`. -/
structure State where
  context_alive : Bool
  commands : List IsolateCommandItem
  reported_errors : List PendingException
  data : Option EventTargetData
  binding_object : Nat
  exception_state : Option PendingException
  trace : List TraceItem
  out_of_fuel : Bool
  out_of_range : Bool
  null_context_used : Bool
deriving DecidableEq, Repr

/-- What the callback of a listener does, step by step.  `dispatchEvent e`
dispatches a fresh event object at the same target, `dispatchCurrent` hands the
event being handled to `dispatchEvent` again, `raiseError` raises a script
error and abandons the rest of the callback. -/
inductive Action where
  | addEventListener (event_type : AtomicString) (listener : EventListener)
      (options : AddEventListenerOptions)
  | removeEventListener (event_type : AtomicString) (listener : EventListener)
      (use_capture : Bool)
  | stopPropagation
  | stopImmediatePropagation
  | preventDefault
  | dispatchEvent (event : Event)
  | dispatchCurrent
  | raiseError
deriving DecidableEq, Repr

/-- The behaviour of the script callbacks. -/
abbrev Script := EventListener → List Action

/-- What a `dispatchEvent` call hands back: its return value, the target and
the event as it leaves them, and what the `ExceptionState` of the call holds
when it returns. -/
structure DispatchOutcome where
  result : Bool
  state : State
  event : Event
  exception : Option PendingException

/-! ## Event accessors -/

/-- Modelled from the spec: `Event::WasInitialized()`. -/
def Event.WasInitialized (e : Event) : Bool := e.was_initialized

/-- Modelled from the spec: `Event::IsBeingDispatched()`.  The "being
dispatched" flag of section 3 is true from the moment the dispatcher stores a
phase until it resets the phase to none; the dispatcher writes nothing else. -/
def Event.IsBeingDispatched (e : Event) : Bool := e.event_phase != Event.kNone

/-- Modelled from the spec: `Event::defaultPrevented()`. -/
def Event.defaultPrevented (e : Event) : Bool := e.default_prevented

/-- Modelled from the spec: `Event::DefaultHandled()`. -/
def Event.DefaultHandled (e : Event) : Bool := e.default_handled

/-- Modelled from the spec: `Event::ImmediatePropagationStopped()`. -/
def Event.ImmediatePropagationStopped (e : Event) : Bool := e.immediate_propagation_stopped

/-- Modelled from the spec: `Event::propagationStopped()`. -/
def Event.propagationStopped (e : Event) : Bool := e.propagation_stopped

/-- Modelled from the spec: `Event::SetTrusted`. -/
def Event.SetTrusted (e : Event) (v : Bool) : Event := { e with is_trusted := v }

/-- Modelled from the spec: `Event::SetTarget`. -/
def Event.SetTarget (e : Event) (t : Nat) : Event := { e with target := some t }

/-- Modelled from the spec: `Event::SetCurrentTarget`. -/
def Event.SetCurrentTarget (e : Event) (t : Nat) : Event := { e with current_target := some t }

/-- Modelled from the spec: `Event::SetEventPhase`. -/
def Event.SetEventPhase (e : Event) (p : Nat) : Event := { e with event_phase := p }

/-- Modelled from the spec: `Event::SetHandlingPassive`. -/
def Event.SetHandlingPassive (e : Event) (m : PassiveMode) : Event :=
  { e with handling_passive := m }

/-- Modelled from the spec: `Event::DoneDispatchingEventAtCurrentTarget()`, a
notification hook; the specification gives it no effect on the event. -/
def Event.DoneDispatchingEventAtCurrentTarget (e : Event) : Event := e

/-- Modelled from the spec: `stopPropagation()` called by a script. -/
def Event.stopPropagation (e : Event) : Event := { e with propagation_stopped := true }

/-- Modelled from the spec: `stopImmediatePropagation()` called by a script. -/
def Event.stopImmediatePropagation (e : Event) : Event :=
  { e with propagation_stopped := true, immediate_propagation_stopped := true }

/-- Modelled from the spec: `preventDefault()` called by a script; section 4.2:
"script called prevent-default on a cancelable event". -/
def Event.preventDefault (e : Event) : Event :=
  if e.cancelable then { e with default_prevented := true } else e

/-- A freshly constructed, initialized event of the given type. -/
def Event.Create (type : AtomicString) (cancelable : Bool) : Event :=
  { type := type, was_initialized := true, event_phase := Event.kNone, cancelable := cancelable
    default_prevented := false, default_handled := false, propagation_stopped := false
    immediate_propagation_stopped := false, is_trusted := false
    handling_passive := PassiveMode.kNotPassive, target := none, current_target := none }

/-! ## Registered listeners and the registry -/

/-- Modelled from the spec: the registered listener built by `Add` from a
callback and its registration options; an unset option counts as false. -/
def RegisteredEventListener.Create (listener : EventListener) (options : AddEventListenerOptions) :
    RegisteredEventListener :=
  { callback := listener
    use_capture := options.capture.getD false
    passive := options.passive.getD false
    once := options.once.getD false }

/-- Modelled from the spec: the exact-match test of `Add` and `Remove`, on the
callback identity and the capture flag (section 3, uniqueness invariant). -/
def RegisteredEventListener.Matches (r : RegisteredEventListener) (listener : EventListener)
    (capture : Bool) : Bool :=
  decide (r.callback = listener) && decide (r.use_capture = capture)

/-- Modelled from the spec: `RegisteredEventListener::ShouldFire`, the
phase-applicability test of section 4.2 step 2b: a capturing listener does not
fire in the bubbling phase, a non-capturing one does not fire in the capturing
phase; at the target every listener applies. -/
def RegisteredEventListener.ShouldFire (r : RegisteredEventListener) (event : Event) : Bool :=
  if event.event_phase = Event.kCapturingPhase then r.use_capture
  else if event.event_phase = Event.kBubblingPhase then !r.use_capture
  else true

/-- Source `EventPassiveMode` of event_target.cc. -/
def EventPassiveMode (event_listener : RegisteredEventListener) : PassiveMode :=
  if !event_listener.passive then PassiveMode.kNotPassiveDefault
  else PassiveMode.kPassiveDefault

/-- Lookup in the entries of a registry. -/
def findVector : List (AtomicString × EventListenerVector) → AtomicString →
    Option EventListenerVector
  | [], _ => none
  | (k, v) :: rest, t => if k = t then some v else findVector rest t

/-- Replace (or create) the sequence stored for an event type. -/
def setVector : List (AtomicString × EventListenerVector) → AtomicString →
    EventListenerVector → List (AtomicString × EventListenerVector)
  | [], t, v => [(t, v)]
  | (k, v0) :: rest, t, v => if k = t then (k, v) :: rest else (k, v0) :: setVector rest t v

/-- Index of the first listener of a sequence matching a callback and capture
flag. -/
def indexOfMatch : EventListenerVector → EventListener → Bool → Option Nat
  | [], _, _ => none
  | r :: rest, listener, capture =>
    if r.Matches listener capture then some 0
    else (indexOfMatch rest listener capture).map Nat.succ

/-- Modelled from the spec: `EventListenerMap::Find`, section 4.1:
`Find(type) -> sequence or absent`. -/
def EventListenerMap.Find (m : EventListenerMap) (event_type : AtomicString) :
    Option EventListenerVector :=
  findVector m.entries event_type

/-- The sequence for an event type, empty when absent. -/
def EventListenerMap.vectorOf (m : EventListenerMap) (event_type : AtomicString) :
    EventListenerVector :=
  (m.Find event_type).getD []

/-- Modelled from the spec: `EventListenerMap::Add`, section 4.1: fails softly
if an identical (type, callback, capture) triple already exists; otherwise
appends and returns the new count of listeners for that type.  The result is
`(added, registered_listener, listener_count, map)`. -/
def EventListenerMap.Add (m : EventListenerMap) (event_type : AtomicString)
    (listener : EventListener) (options : AddEventListenerOptions) :
    Bool × RegisteredEventListener × Nat × EventListenerMap :=
  let registered_listener := RegisteredEventListener.Create listener options
  let vector := m.vectorOf event_type
  match indexOfMatch vector listener registered_listener.use_capture with
  | some _ => (false, registered_listener, vector.length, m)
  | none =>
    (true, registered_listener, vector.length + 1,
      { entries := setVector m.entries event_type (vector ++ [registered_listener]) })

/-- Modelled from the spec: `EventListenerMap::Remove`, section 4.1: removes
the first exact match and returns the index it occupied and the resulting
count; `none` stands for the return value false.  The match is erased from the
sequence, which is what the index arithmetic of `RemoveEventListenerInternal`
on the firing iterators accounts for.  The result is
`(index_of_removed_listener, registered_listener, listener_count, map)`. -/
def EventListenerMap.Remove (m : EventListenerMap) (event_type : AtomicString)
    (listener : EventListener) (options : EventListenerOptions) :
    Option (Nat × RegisteredEventListener × Nat × EventListenerMap) :=
  match m.Find event_type with
  | none => none
  | some vector =>
    match indexOfMatch vector listener (options.capture.getD false) with
    | none => none
    | some index =>
      match vector.get? index with
      | none => none
      | some registered_listener =>
        some (index, registered_listener, vector.length - 1,
          { entries := setVector m.entries event_type (vector.eraseIdx index) })

/-! ## The event target -/

/-- Modelled from the spec: `addCommand` on the command buffer of the executing
context (the buffer is not among the sources), section 4.3: "never blocks and
never fails; it only appends". -/
def State.addCommand (s : State) (type : IsolateCommand) (args : AtomicString)
    (payload : CommandPayload) : State :=
  { s with commands := s.commands ++
      [{ type := type, args := args, target := s.binding_object, payload := payload }] }

/-- Source `GetExecutingContext()->isolateCommandBuffer()->addCommand(type, args,
bindingObject(), payload)`, as `AddEventListenerInternal` and
`RemoveEventListenerInternal` write it, without a test of
`GetExecutingContext()`.  With an executing context the command is appended to
its buffer.  Without one the call goes through the null pointer:
`null_context_used` records it, and nothing is appended. -/
def State.sendCommand (s : State) (type : IsolateCommand) (args : AtomicString)
    (payload : CommandPayload) : State :=
  if s.context_alive then s.addCommand type args payload
  else { s with null_context_used := true }

/-- Modelled from the spec: `EnsureEventTargetData()`, section 3: the data is
created lazily on first listener registration. -/
def State.EnsureEventTargetData (s : State) : EventTargetData :=
  s.data.getD EventTargetData.empty

/-- The firing iterators of the target, oldest first (none while the vector has
not been allocated or the target has no data). -/
def State.iterators (s : State) : List FiringEventIterator :=
  match s.data with
  | none => []
  | some d => d.firing_event_iterators.getD []

/-- The sequence a pass iterates: the one stored for the event type in the
capturing or in the non-capturing registry. -/
def State.entry (s : State) (isCapture : Bool) (event_type : AtomicString) : EventListenerVector :=
  match s.data with
  | none => []
  | some d =>
    if isCapture then d.event_capture_listener_map.vectorOf event_type
    else d.event_listener_map.vectorOf event_type

/-- Source `EventTarget::AddEventListenerInternal`. -/
def AddEventListenerInternal (s : State) (event_type : AtomicString)
    (listener : Option EventListener) (options : AddEventListenerOptions) : Bool × State :=
  match listener with
  | none => (false, s)
  | some l =>
    let d := s.EnsureEventTargetData
    let useCaptureMap := decide (options.capture = some true)
    let r :=
      if useCaptureMap then d.event_capture_listener_map.Add event_type l options
      else d.event_listener_map.Add event_type l options
    let added := r.1
    let registered_listener := r.2.1
    let listener_count := r.2.2.1
    let d1 : EventTargetData :=
      if useCaptureMap then { d with event_capture_listener_map := r.2.2.2 }
      else { d with event_listener_map := r.2.2.2 }
    let s1 : State :=
      { s with
        data := some d1
        trace := if added then s.trace ++ [TraceItem.add event_type registered_listener]
                 else s.trace }
    if added && listener_count == 1 then
      let listener_options : DartAddEventListenerOptions :=
        { once := options.once.getD false
          capture := options.capture.getD false
          passive := options.passive.getD false }
      (added, s1.sendCommand IsolateCommand.kAddEvent event_type
        (CommandPayload.addOptions listener_options))
    else (added, s1)

/-- The adjustment `RemoveEventListenerInternal` applies to one firing iterator
after the listener at `index_of_removed_listener` has been removed. -/
def adjustIterator (event_type : AtomicString) (index_of_removed_listener : Nat)
    (firing_iterator : FiringEventIterator) : FiringEventIterator :=
  if event_type ≠ firing_iterator.event_type then firing_iterator
  else if index_of_removed_listener ≥ firing_iterator.end_ then firing_iterator
  else
    { firing_iterator with
      end_ := firing_iterator.end_ - 1
      iterator :=
        if index_of_removed_listener < firing_iterator.iterator then firing_iterator.iterator - 1
        else firing_iterator.iterator }

/-- Source `EventTarget::RemoveEventListenerInternal`. -/
def RemoveEventListenerInternal (s : State) (event_type : AtomicString)
    (listener : Option EventListener) (options : EventListenerOptions) : Bool × State :=
  match listener with
  | none => (false, s)
  | some l =>
    match s.data with
    | none => (false, s)
    | some d =>
      match d.event_listener_map.Remove event_type l options with
      | none => (false, s)
      | some (index_of_removed_listener, _registered_listener, listener_count, map1) =>
        let d1 : EventTargetData :=
          { d with
            event_listener_map := map1
            firing_event_iterators :=
              d.firing_event_iterators.map
                (List.map (adjustIterator event_type index_of_removed_listener)) }
        let s1 : State := { s with data := some d1 }
        if listener_count == 0 then
          let has_capture := decide (options.capture = some true)
          (true, s1.sendCommand IsolateCommand.kRemoveEvent event_type
            (if has_capture then CommandPayload.one else CommandPayload.null))
        else (true, s1)

/-- Source `EventTarget::addEventListener(event_type, event_listener, options, exception_state)`. -/
def addEventListenerWithOptions (s : State) (event_type : AtomicString)
    (event_listener : Option EventListener)
    (options : Option QJSUnionAddEventListenerOptionsBoolean) : Bool × State :=
  let event_listener_options : AddEventListenerOptions :=
    match options with
    | none => AddEventListenerOptions.Create
    | some (QJSUnionAddEventListenerOptionsBoolean.boolean b) =>
      AddEventListenerOptions.Create.setCapture b
    | some (QJSUnionAddEventListenerOptionsBoolean.options o) => o
  AddEventListenerInternal s event_type event_listener event_listener_options

/-- Source `EventTarget::addEventListener(event_type, event_listener, exception_state)`. -/
def addEventListener (s : State) (event_type : AtomicString)
    (event_listener : Option EventListener) : Bool × State :=
  AddEventListenerInternal s event_type event_listener AddEventListenerOptions.Create

/-- Source `EventTarget::removeEventListener(event_type, event_listener, exception_state)`. -/
def removeEventListener (s : State) (event_type : AtomicString)
    (event_listener : Option EventListener) : Bool × State :=
  RemoveEventListenerInternal s event_type event_listener EventListenerOptions.Create

/-- Source `EventTarget::removeEventListener(event_type, event_listener, use_capture, exception_state)`. -/
def removeEventListenerCapture (s : State) (event_type : AtomicString)
    (event_listener : Option EventListener) (use_capture : Bool) : Bool × State :=
  RemoveEventListenerInternal s event_type event_listener
    (EventListenerOptions.Create.setCapture use_capture)

/-- Source `EventTarget::GetDispatchEventResult`. -/
def GetDispatchEventResult (event : Event) : DispatchEventResult :=
  if event.defaultPrevented then DispatchEventResult.kCanceledByEventHandler
  else if event.DefaultHandled then DispatchEventResult.kCanceledByDefaultEventHandler
  else DispatchEventResult.kNotCanceled

/-! ## Invoking callbacks -/

/-- Run the steps of a callback.  `nested` is the `dispatchEvent` a callback
reaches when it dispatches from inside a pass.  The last component tells
whether the callback ended with an uncaught script error: its own
`raiseError`, or the exception thrown by a `dispatchEvent` it called. -/
def runActions (nested : State → Event → DispatchOutcome) :
    List Action → State → Event → State × Event × Bool
  | [], s, event => (s, event, false)
  | Action.addEventListener t l o :: rest, s, event =>
    runActions nested rest
      (addEventListenerWithOptions s t (some l)
        (some (QJSUnionAddEventListenerOptionsBoolean.options o))).2 event
  | Action.removeEventListener t l c :: rest, s, event =>
    runActions nested rest (removeEventListenerCapture s t (some l) c).2 event
  | Action.stopPropagation :: rest, s, event =>
    runActions nested rest s event.stopPropagation
  | Action.stopImmediatePropagation :: rest, s, event =>
    runActions nested rest s event.stopImmediatePropagation
  | Action.preventDefault :: rest, s, event =>
    runActions nested rest s event.preventDefault
  | Action.dispatchEvent e :: rest, s, event =>
    let r := nested s e
    if r.exception.isSome then (r.state, event, true)
    else runActions nested rest r.state event
  | Action.dispatchCurrent :: rest, s, event =>
    let r := nested s event
    if r.exception.isSome then (r.state, r.event, true)
    else runActions nested rest r.state r.event
  | Action.raiseError :: _, s, event => (s, event, true)

/-- Modelled from the spec: `EventListener::Invoke(context, event,
exception_state)` (the listener classes are not among the sources).  Section 9
gives a listener the capability `Invoke(context, event) -> result-or-error`, and
section 7 keeps an error raised by a callback from unwinding into the dispatch
loop: the callback runs, and an error it raises is stored in the exception
state handed in, which is where `HandleDispatchEventFromDart` looks for it
after the pass.  An error stored there before is replaced. -/
def Invoke (script : Script) (nested : State → Event → DispatchOutcome)
    (listener : EventListener) (s : State) (event : Event) : State × Event :=
  let r := runActions nested (script listener) s event
  if r.2.2 then
    ({ r.1 with exception_state := some (PendingException.raisedBy listener) }, r.2.1)
  else (r.1, r.2.1)

/-! ## Firing listeners -/

/-- Store the cursor of the pass whose iterator sits at position `pos`. -/
def State.setIterator (s : State) (pos : Nat) (i : Nat) : State :=
  match s.data with
  | none => s
  | some d =>
    let d1 : EventTargetData :=
      { d with
        firing_event_iterators :=
          d.firing_event_iterators.map
            (fun l => l.modify (fun it => { it with iterator := i }) pos) }
    { s with data := some d1 }

/-- Source `push_back` of a firing iterator (allocating the vector when null). -/
def State.pushIterator (s : State) (it : FiringEventIterator) : State :=
  match s.data with
  | none => s
  | some d =>
    let d1 : EventTargetData :=
      { d with firing_event_iterators := some (d.firing_event_iterators.getD [] ++ [it]) }
    { s with data := some d1 }

/-- Source `pop_back` of the firing iterators. -/
def State.popIterator (s : State) : State :=
  match s.data with
  | none => s
  | some d =>
    let d1 : EventTargetData :=
      { d with firing_event_iterators := d.firing_event_iterators.map List.dropLast }
    { s with data := some d1 }

/-- Append a callback invocation to the observation log. -/
def State.logInvoke (s : State) (registered_listener : RegisteredEventListener) : State :=
  { s with trace := s.trace ++ [TraceItem.invoke registered_listener] }

/-- The part of a round of the firing loop that deals with a listener that
should fire, from `registered_listener.Callback()` to the reset of the
passive-handling mode: remove a once listener, set the passive mode, invoke the
callback, reset the mode.  `s1` is the state after `++i`. -/
def fireOne (script : Script) (nested : State → Event → DispatchOutcome) (s1 : State)
    (event : Event) (registered_listener : RegisteredEventListener) : State × Event :=
  let listener := registered_listener.callback
  let s2 :=
    if registered_listener.once then
      (removeEventListenerCapture s1 event.type (some listener) registered_listener.use_capture).2
    else s1
  let event1 := event.SetHandlingPassive (EventPassiveMode registered_listener)
  let r := Invoke script nested listener (s2.logInvoke registered_listener) event1
  (r.1, r.2.SetHandlingPassive PassiveMode.kNotPassive)

/-- The `while (i < size)` loop of `FireEventListeners(event, d, entry,
exception_state)`.

The locals `i` and `size` are the `iterator` and `end` of the firing iterator
this call pushed, found at position `pos`; a removal made by a callback changes
them there.  `entry` is a reference into the registry, so it is read afresh
from the state: it is the sequence for `event.type()` in the registry selected
by `isCapture`.

The first argument bounds the number of rounds.  `size - i` drops by one in
every round and no removal raises it, so the value `size` handed in by the
caller is enough; should the bound be used up while the loop condition still
holds, `out_of_fuel` is set.  A read of `entry[i]` past the end of the sequence
sets `out_of_range` and ends the loop. -/
def fireLoop (script : Script) (nested : State → Event → DispatchOutcome) (isCapture : Bool)
    (pos : Nat) : Nat → State → Event → Bool → State × Event × Bool
  | 0, s, event, fired_listener =>
    match s.iterators.get? pos with
    | none => (s, event, fired_listener)
    | some it =>
      if it.iterator < it.end_ && !event.ImmediatePropagationStopped then
        ({ s with out_of_fuel := true }, event, fired_listener)
      else (s, event, fired_listener)
  | k + 1, s, event, fired_listener =>
    match s.iterators.get? pos with
    | none => (s, event, fired_listener)
    | some it =>
      if it.iterator < it.end_ then
        if event.ImmediatePropagationStopped then (s, event, fired_listener)
        else
          match (s.entry isCapture event.type).get? it.iterator with
          | none => ({ s with out_of_range := true }, event, fired_listener)
          | some registered_listener =>
            let s1 := s.setIterator pos (it.iterator + 1)
            if !registered_listener.ShouldFire event then
              fireLoop script nested isCapture pos k s1 event fired_listener
            else
              let r := fireOne script nested s1 event registered_listener
              fireLoop script nested isCapture pos k r.1 r.2 true
      else (s, event, fired_listener)

/-- Source `EventTarget::FireEventListeners(event, d, entry, exception_state)`, for the
`entry` of `event.type()` in the registry selected by `isCapture`. -/
def FireEventListenersEntry (script : Script) (nested : State → Event → DispatchOutcome)
    (s : State) (event : Event) (isCapture : Bool) : State × Event × Bool :=
  if !s.context_alive then (s, event, false)
  else
    let size := (s.entry isCapture event.type).length
    let pos := s.iterators.length
    let s1 := s.pushIterator { event_type := event.type, iterator := 0, end_ := size }
    let r := fireLoop script nested isCapture pos size s1 event false
    (r.1.popIterator, r.2.1, r.2.2)

/-- Source `EventTarget::FireEventListeners(event, isCapture, exception_state)`.  The
source asserts `event.WasInitialized()` on entry. -/
def FireEventListeners (script : Script) (nested : State → Event → DispatchOutcome)
    (s : State) (event : Event) (isCapture : Bool) : DispatchEventResult × State × Event :=
  match s.data with
  | none => (DispatchEventResult.kNotCanceled, s, event)
  | some d =>
    let listeners_vector :=
      if !isCapture then d.event_listener_map.Find event.type
      else d.event_capture_listener_map.Find event.type
    let r : State × Event × Bool :=
      match listeners_vector with
      | some _ => FireEventListenersEntry script nested s event isCapture
      | none => (s, event, false)
    let event1 := if r.2.2 then r.2.1.DoneDispatchingEventAtCurrentTarget else r.2.1
    (GetDispatchEventResult event1, r.1, event1)

/-- Source `EventTarget::FireEventListeners(event, exception_state)`: the pass over the
non-capturing registry. -/
def FireEventListenersBubble (script : Script) (nested : State → Event → DispatchOutcome)
    (s : State) (event : Event) : DispatchEventResult × State × Event :=
  match s.data with
  | none => (DispatchEventResult.kNotCanceled, s, event)
  | some d =>
    let listeners_vector := d.event_listener_map.Find event.type
    let r : State × Event × Bool :=
      match listeners_vector with
      | some _ => FireEventListenersEntry script nested s event false
      | none => (s, event, false)
    let event1 := if r.2.2 then r.2.1.DoneDispatchingEventAtCurrentTarget else r.2.1
    (GetDispatchEventResult event1, r.1, event1)

/-- Source `EventTarget::DispatchEventInternal`. -/
def DispatchEventInternal (script : Script) (nested : State → Event → DispatchOutcome)
    (s : State) (event : Event) : DispatchEventResult × State × Event :=
  let event1 := event.SetTarget s.binding_object
  let event2 := event1.SetCurrentTarget s.binding_object
  let event3 := event2.SetEventPhase Event.kAtTarget
  let r := FireEventListenersBubble script nested s event3
  (r.1, r.2.1, r.2.2.SetEventPhase 0)

/-- Source `EventTarget::dispatchEvent`.  Script reaches it through the binding,
which hands in an `ExceptionState` of its own, without exception at entry.
`exception` of the outcome is that exception state when the call returns: the
error `ThrowException` stored on a rejection, or what the listeners left in it
during the pass; the source stores nothing else in it and never clears it.  In
the state handed back `exception_state` is again the exception state of the
pass, if any, from inside which the call was made. -/
def dispatchEvent (script : Script) (nested : State → Event → DispatchOutcome)
    (s : State) (event : Event) : DispatchOutcome :=
  if !event.WasInitialized then
    { result := false, state := s, event := event
      exception := some (PendingException.thrown
        { type := ErrorType.InternalError, message := "The event provided is uninitialized." }) }
  else if event.IsBeingDispatched then
    { result := false, state := s, event := event
      exception := some (PendingException.thrown
        { type := ErrorType.InternalError
          message := "The event is already being dispatched." }) }
  else if !s.context_alive then
    { result := false, state := s, event := event, exception := none }
  else
    let event1 := event.SetTrusted false
    let r := DispatchEventInternal script nested { s with exception_state := none } event1
    { result := r.1 != DispatchEventResult.kCanceledByEventHandler
      state := { r.2.1 with exception_state := s.exception_state }, event := r.2.2
      exception := r.2.1.exception_state }

/-- The `dispatchEvent` reached from inside callbacks, for dispatches nested at
most `depth` deep.  A callback that would nest deeper is cut off and
`out_of_fuel` is set. -/
def nestedDispatch (script : Script) : Nat → State → Event → DispatchOutcome
  | 0 => fun s event =>
    { result := false, state := { s with out_of_fuel := true }, event := event, exception := none }
  | depth + 1 => fun s event => dispatchEvent script (nestedDispatch script depth) s event

/-! ## Observations and sample inputs -/

/-- The callbacks invoked, in order, according to an observation log. -/
def invoked : List TraceItem → List EventListener
  | [] => []
  | TraceItem.invoke r :: rest => r.callback :: invoked rest
  | TraceItem.add _ _ :: rest => invoked rest

/-- The callbacks invoked between two states of a run. -/
def State.invokedSince (before after : State) : List EventListener :=
  invoked (after.trace.drop before.trace.length)

/-- The callbacks registered for an event type in the capturing or the
non-capturing registry, in firing order. -/
def State.registered (s : State) (isCapture : Bool) (event_type : AtomicString) :
    List EventListener :=
  (s.entry isCapture event_type).map RegisteredEventListener.callback

/-- A target with a live executing context, no listener data yet and an empty
command buffer. -/
def Sample.target : State :=
  { context_alive := true, commands := [], reported_errors := [], data := none
    binding_object := 7, exception_state := none, trace := [], out_of_fuel := false
    out_of_range := false, null_context_used := false }

/-- Sample callback A. -/
def Sample.listenerA : EventListener := { id := 1, is_event_handler := false }

/-- Sample callback B. -/
def Sample.listenerB : EventListener := { id := 2, is_event_handler := false }

/-- Sample callback C. -/
def Sample.listenerC : EventListener := { id := 3, is_event_handler := false }

/-- Callbacks that do nothing. -/
def Sample.quiet : Script := fun _ => []

/-- Callback A removes the capturing registration of B for "x"; the other
callbacks do nothing. -/
def Sample.removesCapturingSibling : Script := fun l =>
  if l = Sample.listenerA then [Action.removeEventListener "x" Sample.listenerB true] else []

/-- An event of the given type as `HandleDispatchEventFromDart` hands it to
`FireEventListeners`: built for this target, untrusted, phase at-target. -/
def Sample.hostEvent (event_type : AtomicString) : Event :=
  ((((Event.Create event_type false).SetTarget Sample.target.binding_object).SetCurrentTarget
    Sample.target.binding_object).SetTrusted false).SetEventPhase Event.kAtTarget

/-- The sample target after `addEventListener("x", A, capture and once set)`. -/
def Sample.onceCapturing : State :=
  (addEventListenerWithOptions Sample.target "x" (some Sample.listenerA)
    (some (QJSUnionAddEventListenerOptionsBoolean.options
      { capture := some true, passive := none, once := some true }))).2

/-- The sample target after `addEventListener("x", A, true)`. -/
def Sample.oneCapturing : State :=
  (addEventListenerWithOptions Sample.target "x" (some Sample.listenerA)
    (some (QJSUnionAddEventListenerOptionsBoolean.boolean true))).2

/-- The sample target after `addEventListener("x", A, true)` and
`addEventListener("x", B, true)`. -/
def Sample.twoCapturing : State :=
  (addEventListenerWithOptions Sample.oneCapturing "x" (some Sample.listenerB)
    (some (QJSUnionAddEventListenerOptionsBoolean.boolean true))).2

/-- The sample target after A, B (once set) and C have been added for "x", in
that order, all non-capturing. -/
def Sample.threeListeners : State :=
  (addEventListener
    (addEventListenerWithOptions (addEventListener Sample.target "x" (some Sample.listenerA)).2 "x"
      (some Sample.listenerB)
      (some (QJSUnionAddEventListenerOptionsBoolean.options
        { capture := none, passive := none, once := some true }))).2
    "x" (some Sample.listenerC)).2

/-- The first script dispatch of "x" at the target with A, B (once), C. -/
def Sample.firstDispatch : DispatchOutcome :=
  dispatchEvent Sample.quiet (nestedDispatch Sample.quiet 0) Sample.threeListeners
    (Event.Create "x" false)

/-- The second script dispatch of "x", with a fresh event, at the same target. -/
def Sample.secondDispatch : DispatchOutcome :=
  dispatchEvent Sample.quiet (nestedDispatch Sample.quiet 0) Sample.firstDispatch.state
    (Event.Create "x" false)

/-- An event object that has not been initialized. -/
def Sample.uninitializedEvent : Event :=
  { Event.Create "x" false with was_initialized := false }

/-- The sample target once its executing context is gone. -/
def Sample.detached : State := { Sample.target with context_alive := false }

/-- Callback A calls `preventDefault()`, the other callbacks do nothing. -/
def Sample.preventsDefault : Script := fun l =>
  if l = Sample.listenerA then [Action.preventDefault] else []

/-- The state `AddEventListenerInternal` leaves when the registration is
accepted into the registry selected by `c`. -/
def State.withListener (s : State) (c : Bool) (t : AtomicString) (rl : RegisteredEventListener) :
    State :=
  { s with
    data := some
      (if c then
        { s.EnsureEventTargetData with
          event_capture_listener_map :=
            { entries := setVector s.EnsureEventTargetData.event_capture_listener_map.entries t
                (s.entry c t ++ [rl]) } }
      else
        { s.EnsureEventTargetData with
          event_listener_map :=
            { entries := setVector s.EnsureEventTargetData.event_listener_map.entries t
                (s.entry c t ++ [rl]) } })
    trace := s.trace ++ [TraceItem.add t rl] }

/-- The sample target after A and B have been added for "x", in that order,
both non-capturing. -/
def Sample.twoListeners : State :=
  (addEventListener (addEventListener Sample.target "x" (some Sample.listenerA)).2 "x"
    (some Sample.listenerB)).2

/-- Callback A removes the non-capturing listener B for "x" and then adds the
non-capturing listener C for "x"; the other callbacks do nothing. -/
def Sample.removesThenAdds : Script := fun l =>
  if l = Sample.listenerA then
    [Action.removeEventListener "x" Sample.listenerB false,
     Action.addEventListener "x" Sample.listenerC AddEventListenerOptions.Create]
  else []

/-- The state `AddEventListenerInternal` leaves when the registration is
rejected: the listener data exists, nothing else has changed. -/
def State.ensured (s : State) : State :=
  { s with data := some s.EnsureEventTargetData }

/-- The state `RemoveEventListenerInternal` leaves, before any command is
written, when it has removed the listener at position `index` of the
non-capturing sequence for `t`. -/
def State.withoutListener (s : State) (t : AtomicString) (index : Nat) : State :=
  match s.data with
  | none => s
  | some d =>
    let d1 : EventTargetData :=
      { d with
        event_listener_map :=
          { entries := setVector d.event_listener_map.entries t
              ((s.entry false t).eraseIdx index) }
        firing_event_iterators :=
          d.firing_event_iterators.map (List.map (adjustIterator t index)) }
    { s with data := some d1 }

/-- Whether a step of a callback dispatches an event. -/
def Action.isDispatch : Action → Bool
  | Action.dispatchEvent _ => true
  | Action.dispatchCurrent => true
  | _ => false

/-- Two registrations are the same listener of an event type when they agree on
the callback and on the capture flag. -/
def sameRegistration (a b : RegisteredEventListener) : Prop :=
  a.callback = b.callback ∧ a.use_capture = b.use_capture

/-- In an observation log, no invocation follows the registration of the same
listener for the event type `t`. -/
def noInvocationAfterAdd (t : AtomicString) (tr : List TraceItem) : Prop :=
  ∀ (i j : Nat) (added fired : RegisteredEventListener), i < j →
    tr.get? i = some (TraceItem.add t added) → tr.get? j = some (TraceItem.invoke fired) →
    ¬ sameRegistration fired added

/-- The invariant of a pass, on what the pass sees: its firing iterator `it`,
the sequence `V` it iterates and the log `tr` written since it started.  `V0`
is the sequence at the start of the pass and `m` bounds the rounds left. -/
def PassInv (t : AtomicString) (V0 : EventListenerVector) (m : Nat) (it : FiringEventIterator)
    (V : EventListenerVector) (tr : List TraceItem) : Prop :=
  it.event_type = t ∧ it.end_ ≤ V.length ∧ it.end_ - it.iterator ≤ m ∧
  (∀ (j : Nat) (x : RegisteredEventListener), j < it.end_ → V.get? j = some x →
    x ∈ V0 ∧ ∀ a, TraceItem.add t a ∈ tr → ¬ sameRegistration x a) ∧
  (∀ f, TraceItem.invoke f ∈ tr → f ∈ V0) ∧
  noInvocationAfterAdd t tr

/-- The invariant of a pass on the state: the pass iterates the sequence for `t`
in the registry selected by `c`, its iterator sits at position `pos`, the log
had `n0` entries when it started. -/
def StateInv (c : Bool) (t : AtomicString) (pos n0 : Nat) (V0 : EventListenerVector)
    (fuel0 range0 : Bool) (m : Nat) (s : State) : Prop :=
  ∃ it, s.iterators.get? pos = some it ∧ n0 ≤ s.trace.length ∧
    PassInv t V0 m it (s.entry c t) (s.trace.drop n0) ∧
    s.out_of_fuel = fuel0 ∧ s.out_of_range = range0

/-- What a pass leaves in the log and in the observation flags, for callbacks
that do not dispatch. -/
def PassResult (s : State) (event : Event) (isCapture : Bool) (s1 : State) : Prop :=
  noInvocationAfterAdd event.type (s1.trace.drop s.trace.length) ∧
  (∀ fired, TraceItem.invoke fired ∈ s1.trace.drop s.trace.length →
    fired ∈ s.entry isCapture event.type) ∧
  s1.out_of_fuel = s.out_of_fuel ∧ s1.out_of_range = s.out_of_range

/-- Each registry holds listeners of its own capture flag only. -/
def State.consistent (s : State) : Prop :=
  ∀ (c : Bool) (t : AtomicString), ∀ x ∈ s.entry c t, x.use_capture = c

/-- The state `State.sendCommand` leaves, written as one update of the state:
the command appended if there is an executing context, the use of a null
context recorded if there is none. -/
def State.sent (s : State) (type : IsolateCommand) (args : AtomicString)
    (payload : CommandPayload) : State :=
  { s with
    commands :=
      if s.context_alive then
        s.commands ++
          [{ type := type, args := args, target := s.binding_object, payload := payload }]
      else s.commands
    null_context_used := if s.context_alive then s.null_context_used else true }

/-! ## Timers (`bridge/core/module/timer/timer.cc`) -/

/-- Source `Timer::TimerKind`. -/
inductive TimerKind where
  | kOnce
  | kMultiple
deriving DecidableEq, Repr

/-- Source `Timer::TimerStatus`. -/
inductive TimerStatus where
  | kPending
  | kExecuting
  | kFinished
  | kCanceled
  | kTerminated
deriving DecidableEq, Repr

/-- A script function bound to a timer, known by its identity.  What the script
engine answers for it is an input of the model: `is_function` is the answer of
`IsFunction(ctx)`, `raises` tells whether `Invoke` returns an exception
value. -/
structure QJSFunction where
  id : Nat
  is_function : Bool
  raises : Bool
deriving DecidableEq, Repr

/-- The class `Timer`: kind, identifier, status and the callback reference
(`none` is the null pointer). -/
structure Timer where
  kind_ : TimerKind
  timer_id_ : Int
  status_ : TimerStatus
  callback_ : Option QJSFunction
deriving DecidableEq, Repr

/-- What a timer does to its owning executing context: the callbacks it
invoked, oldest first, the callbacks whose exception was handed to
`HandleException`, and whether `Fire` went through a null callback pointer. -/
structure TimerContext where
  invoked : List QJSFunction
  handled_exceptions : List QJSFunction
  null_callback_used : Bool
deriving DecidableEq, Repr

/-- Source `Timer::Timer` (as used by `Timer::create`): a pending timer without
identifier. -/
def Timer.create (callback : Option QJSFunction) (timer_kind : TimerKind) : Timer :=
  { kind_ := timer_kind, timer_id_ := -1, status_ := TimerStatus.kPending, callback_ := callback }

/-- Source `Timer::Fire`.  The result is the timer, which `Fire` never writes
to, and the executing context it leaves. -/
def Timer.Fire (t : Timer) (ctx : TimerContext) : Timer × TimerContext :=
  if t.status_ = TimerStatus.kTerminated then (t, ctx)
  else
    match t.callback_ with
    | none => (t, { ctx with null_callback_used := true })
    | some callback =>
      if !callback.is_function then (t, ctx)
      else
        let ctx1 : TimerContext := { ctx with invoked := ctx.invoked ++ [callback] }
        if callback.raises then
          (t, { ctx1 with handled_exceptions := ctx1.handled_exceptions ++ [callback] })
        else (t, ctx1)

/-- Source `Timer::Terminate`. -/
def Timer.Terminate (t : Timer) : Timer :=
  { t with callback_ := none, status_ := TimerStatus.kTerminated }

/-- Source `Timer::setTimerId`. -/
def Timer.setTimerId (t : Timer) (timerId : Int) : Timer :=
  { t with timer_id_ := timerId }

/-- Source `Timer::SetStatus`. -/
def Timer.SetStatus (t : Timer) (status : TimerStatus) : Timer :=
  { t with status_ := status }

/-- A context in which no timer has fired yet. -/
def Sample.timerContext : TimerContext :=
  { invoked := [], handled_exceptions := [], null_callback_used := false }

/-- A script function that returns normally. -/
def Sample.callback : QJSFunction := { id := 1, is_function := true, raises := false }

/-- A script function that raises an error. -/
def Sample.raisingCallback : QJSFunction := { id := 2, is_function := true, raises := true }

/-- A bound value that is not a function. -/
def Sample.notAFunction : QJSFunction := { id := 3, is_function := false, raises := false }

/-- A repeating timer whose status is finished. -/
def Sample.finishedTimer : Timer :=
  (Timer.create (some Sample.callback) TimerKind.kMultiple).SetStatus TimerStatus.kFinished

/-- A pending timer bound to a value that is not a function. -/
def Sample.pendingTimerWithoutFunction : Timer :=
  Timer.create (some Sample.notAFunction) TimerKind.kOnce

/-- A pending timer bound to a function that raises an error. -/
def Sample.pendingRaisingTimer : Timer :=
  Timer.create (some Sample.raisingCallback) TimerKind.kOnce

/-! ## The host-originated dispatch (`HandleDispatchEventFromDart`) -/

/-- Source `EventDispatchResult`, the result reported to the host. -/
structure EventDispatchResult where
  canceled : Bool
  propagationStopped : Bool
deriving DecidableEq, Repr

/-- Modelled from the spec: the raw event descriptor the host hands in
(`RawEvent` is declared outside the sources).  Section 4.2: the dispatcher
constructs an event object from the descriptor; the descriptor carries what is
not fixed by the dispatcher: whether the event is cancelable and the binding
objects of its target and current target. -/
structure RawEvent where
  cancelable : Bool
  target : Nat
  current_target : Nat
deriving DecidableEq, Repr

/-- Modelled from the spec: a value crossing the host boundary, section 6: a
tagged value, here null, a boolean, a string, a pointer to a raw event
descriptor or a pointer to a dispatch result. -/
inductive NativeValue where
  | null
  | bool (b : Bool)
  | string (s : AtomicString)
  | rawEvent (p : RawEvent)
  | eventDispatchResult (p : EventDispatchResult)
deriving DecidableEq, Repr

/-- Modelled from the spec: `EventFactory::Create`, section 4.2: the event
object constructed from the descriptor: initialized, of the requested type, with
the target and current target of the descriptor (the source asserts both are
set) and no flag raised. -/
def EventFactory.Create (event_type : AtomicString) (raw_event : RawEvent) : Event :=
  { Event.Create event_type raw_event.cancelable with
    target := some raw_event.target
    current_target := some raw_event.current_target }

/-- Source `DartWireContext`: the wire keeps the event object alive for the host. -/
structure DartWireContext where
  jsObject : Event
deriving DecidableEq, Repr

/-- The ways a call from the host can go wrong before it dispatches: the
assertion on the argument count fails, an argument is read past the end of the
argument array, or an argument does not carry the tag it is converted from. -/
inductive HostCallFault where
  | assertion
  | out_of_bounds
  | conversion
deriving DecidableEq, Repr

/-- What `HandleDispatchEventFromDart` produces: the value returned to the
host, the target as the pass leaves it, and the wire that is watched and
attached to the host object together with its finalizer. -/
structure HostDispatchOutcome where
  value : NativeValue
  state : State
  wire : DartWireContext
deriving DecidableEq, Repr

/-- The event `HandleDispatchEventFromDart` hands to `FireEventListeners`: built
from the descriptor, marked untrusted, phase at-target. -/
def hostEvent (event_type : AtomicString) (raw_event : RawEvent) : Event :=
  ((EventFactory.Create event_type raw_event).SetTrusted false).SetEventPhase Event.kAtTarget

/-- The branch `if (exception_state.HasException()) { ... ReportError(error) ... }`
that follows the pass in `HandleDispatchEventFromDart`: an error pending in the
exception state is handed to `ReportError` of the executing context. -/
def State.reportPending (s : State) : State :=
  match s.exception_state with
  | some error => { s with reported_errors := s.reported_errors ++ [error] }
  | none => s

/-- Source `EventTarget::HandleDispatchEventFromDart`.  The argument array is the
list `argv` and `argc` is its length.  The source asserts `argc >= 2` and then
reads `argv[0]`, `argv[2]` and `argv[1]`.  The pass runs with the local
`ExceptionState exception_state`, which has no exception at first; if it has
one after the pass, the pending error is handed to `ReportError` of the
executing context, once.  The local exception state ends with the call: in the
state handed back `exception_state` is what it was before the call. -/
def HandleDispatchEventFromDart (script : Script) (nested : State → Event → DispatchOutcome)
    (s : State) (argv : List NativeValue) : Except HostCallFault HostDispatchOutcome :=
  if argv.length < 2 then Except.error HostCallFault.assertion
  else
    match argv.get? 0, argv.get? 2, argv.get? 1 with
    | some native_event_type, some native_is_capture, some native_raw_event =>
      match native_is_capture, native_event_type, native_raw_event with
      | NativeValue.bool isCapture, NativeValue.string event_type,
          NativeValue.rawEvent raw_event =>
        let event := hostEvent event_type raw_event
        let r := FireEventListeners script nested { s with exception_state := none } event
          isCapture
        let event1 := r.2.2.SetEventPhase 0
        let s1 := r.2.1.reportPending
        Except.ok
          { value := NativeValue.eventDispatchResult
              { canceled := r.1 == DispatchEventResult.kCanceledByEventHandler
                propagationStopped := event1.propagationStopped }
            state := { s1 with exception_state := s.exception_state }
            wire := { jsObject := event1 } }
      | _, _, _ => Except.error HostCallFault.conversion
    | _, _, _ => Except.error HostCallFault.out_of_bounds

/-- Callback A calls `stopPropagation()` and `preventDefault()`; the other
callbacks do nothing. -/
def Sample.stopsAndPrevents : Script := fun l =>
  if l = Sample.listenerA then [Action.stopPropagation, Action.preventDefault] else []

/-- The firing iterators at the positions below `n` are kept from `s` to `s1`:
the list has the same length, and each of those iterators has the same event
type, while its end and its cursor have not been raised. -/
def IteratorsKeptBelow (n : Nat) (s s1 : State) : Prop :=
  s1.iterators.length = s.iterators.length ∧
  ∀ (i : Nat) (it : FiringEventIterator), i < n → s.iterators.get? i = some it →
    ∃ it1, s1.iterators.get? i = some it1 ∧ it1.event_type = it.event_type ∧
      it1.end_ ≤ it.end_ ∧ it1.iterator ≤ it.iterator

/-- All firing iterators are kept from `s` to `s1`. -/
def IteratorsKept (s s1 : State) : Prop :=
  ∀ n, IteratorsKeptBelow n s s1

/-- The sample target with non-capturing listeners A, B for "x" and C for "y",
in the middle of a pass for "x": the pass has invoked A, its iterator has the
cursor 1 and the end 2. -/
def Sample.insidePass : State :=
  ((addEventListener Sample.twoListeners "y" (some Sample.listenerC)).2.pushIterator
    { event_type := "x", iterator := 1, end_ := 2 })

/-- Callback C removes the non-capturing listener B for "x"; the other callbacks
do nothing. -/
def Sample.removesFromEnclosingPass : Script := fun l =>
  if l = Sample.listenerC then [Action.removeEventListener "x" Sample.listenerB false] else []

/-- Whether a step of a callback touches the event only: it stops propagation,
prevents the default or raises an error, and neither adds nor removes a
listener nor dispatches. -/
def Action.touchesEventOnly : Action → Bool
  | Action.stopPropagation => true
  | Action.stopImmediatePropagation => true
  | Action.preventDefault => true
  | Action.raiseError => true
  | _ => false

/-- The sample target with the capturing listener A and the non-capturing
listener B for "x". -/
def Sample.oneOfEach : State :=
  (addEventListener Sample.oneCapturing "x" (some Sample.listenerB)).2

/-! ## The loop of section 4.2 over a fixed sequence

The firing loop reads its cursor, its end and the sequence from the state in
every round.  For callbacks that touch the event only it is compared with the
loop of the specification, written as a recursion over the listeners the pass
has in front of it. -/

/-- What a callback whose steps touch the event only does to the event, and
whether it ends with an uncaught script error.  This follows `runActions`; the
steps that add, remove or dispatch, which need the target, are passed over. -/
def Spec.runCallback : List Action → Event → Event × Bool
  | [], event => (event, false)
  | Action.addEventListener _ _ _ :: rest, event => Spec.runCallback rest event
  | Action.removeEventListener _ _ _ :: rest, event => Spec.runCallback rest event
  | Action.stopPropagation :: rest, event => Spec.runCallback rest event.stopPropagation
  | Action.stopImmediatePropagation :: rest, event =>
    Spec.runCallback rest event.stopImmediatePropagation
  | Action.preventDefault :: rest, event => Spec.runCallback rest event.preventDefault
  | Action.dispatchEvent _ :: rest, event => Spec.runCallback rest event
  | Action.dispatchCurrent :: rest, event => Spec.runCallback rest event
  | Action.raiseError :: _, event => (event, true)

/-- The event after the callback of a registered listener has been invoked on
it: step 2d of section 4.2, "set the event's passive-handling mode from the
listener's passive flag for the duration of the call, invoke the callback, then
reset the mode". -/
def Spec.invokeListener (script : Script) (registered_listener : RegisteredEventListener)
    (event : Event) : Event :=
  ((Spec.runCallback (script registered_listener.callback)
    (event.SetHandlingPassive (EventPassiveMode registered_listener))).1).SetHandlingPassive
      PassiveMode.kNotPassive

/-- The loop of section 4.2, step 2, over the listeners from the cursor to the
end: "loop while cursor < end and !event.immediatePropagationStopped", skip the
listeners whose phase-applicability test fails, invoke the others.  The result
is the listeners invoked, in order, and the event as the loop leaves it.  An
error raised by a callback has no part in it. -/
def Spec.FireListeners (script : Script) :
    List RegisteredEventListener → Event → List RegisteredEventListener × Event
  | [], event => ([], event)
  | registered_listener :: rest, event =>
    if event.ImmediatePropagationStopped then ([], event)
    else if !registered_listener.ShouldFire event then Spec.FireListeners script rest event
    else
      let r := Spec.FireListeners script rest (Spec.invokeListener script registered_listener event)
      (registered_listener :: r.1, r.2)

/-- Whether the callback raises a script error on its way: one of its steps is
`raiseError`. -/
def raises (script : Script) (listener : EventListener) : Bool :=
  (script listener).contains Action.raiseError

/-- Whether the callback stops immediate propagation: it reaches a
`stopImmediatePropagation` step before it raises an error. -/
def stopsImmediately (script : Script) (listener : EventListener) : Bool :=
  ((script listener).takeWhile (fun a => a != Action.raiseError)).contains
    Action.stopImmediatePropagation

/-- The listeners of a sequence up to and including the first one whose
callback stops immediate propagation. -/
def throughFirstStop (script : Script) :
    List RegisteredEventListener → List RegisteredEventListener
  | [] => []
  | registered_listener :: rest =>
    if stopsImmediately script registered_listener.callback then [registered_listener]
    else registered_listener :: throughFirstStop script rest

/-- The pass sees a window of the sequence: the firing iterator at position
`pos` belongs to the event type `t`, its cursor and end lie within the sequence
of the registry selected by `c`, and the listeners from the cursor to the end
are `W`. -/
def Window (c : Bool) (t : AtomicString) (pos : Nat) (W : List RegisteredEventListener)
    (s : State) : Prop :=
  ∃ it, s.iterators.get? pos = some it ∧ it.event_type = t ∧ it.iterator ≤ it.end_ ∧
    it.end_ ≤ (s.entry c t).length ∧ ((s.entry c t).take it.end_).drop it.iterator = W

/-- Both registries hold, for the event type `t`, listeners of their own capture
flag only. -/
def Registered (t : AtomicString) (s : State) : Prop :=
  ∀ (c : Bool), ∀ x ∈ s.entry c t, x.use_capture = c

/-- What two states show to an observer of a pass besides the log, the
exception state and the reported errors: the observation flags and the liveness
of the context. -/
def SameFlags (s s1 : State) : Prop :=
  s1.out_of_fuel = s.out_of_fuel ∧ s1.out_of_range = s.out_of_range ∧
  s1.context_alive = s.context_alive

/-- Callback B raises a script error; the other callbacks do nothing. -/
def Sample.secondRaises : Script := fun l =>
  if l = Sample.listenerB then [Action.raiseError] else []

/-- Callback B stops immediate propagation and then prevents the default; callback A
stops propagation; callback C does nothing. -/
def Sample.secondStops : Script := fun l =>
  if l = Sample.listenerB then [Action.stopImmediatePropagation, Action.preventDefault]
  else if l = Sample.listenerA then [Action.stopPropagation]
  else []

/-- The exception state after the callbacks of the listeners `invoked` have run
in that order, starting from the exception state `x`: each callback that raises
stores its error there. -/
def exceptionAfter (script : Script) (x : Option PendingException) :
    List RegisteredEventListener → Option PendingException
  | [] => x
  | registered_listener :: rest =>
    exceptionAfter script
      (if raises script registered_listener.callback then
        some (PendingException.raisedBy registered_listener.callback)
       else x)
      rest

/-- The outcome `r` of a run of the firing loop that started in the state `s`
with the event `e`, the flag `f` and the listeners `W` in front of it, agrees
with the loop of the specification: the log has grown by the invocations of the
listeners that loop invokes, the exception state holds what the callbacks of
those listeners leave in it, nothing has been reported to the error channel,
the event is the one that loop leaves, the flag tells whether a listener has
run, and the observation flags are as before. -/
def QuietResult (script : Script) (W : List RegisteredEventListener) (e : Event) (f : Bool)
    (s : State) (r : State × Event × Bool) : Prop :=
  r.1.trace = s.trace ++ (Spec.FireListeners script W e).1.map TraceItem.invoke ∧
  (r.1.exception_state =
      exceptionAfter script s.exception_state (Spec.FireListeners script W e).1 ∧
    r.1.reported_errors = s.reported_errors) ∧
  r.2.1 = (Spec.FireListeners script W e).2 ∧
  r.2.2 = (f || !(Spec.FireListeners script W e).1.isEmpty) ∧
  SameFlags s r.1

/-- A cancelable event of the given type as `HandleDispatchEventFromDart` hands
it to `FireEventListeners`. -/
def Sample.cancelableHostEvent (event_type : AtomicString) : Event :=
  ((((Event.Create event_type true).SetTarget Sample.target.binding_object).SetCurrentTarget
    Sample.target.binding_object).SetTrusted false).SetEventPhase Event.kAtTarget

/-! ## Further sample inputs -/

/-- The sample target with the capturing listeners A and B and the non-capturing
listener C for "x". -/
def Sample.crossRegistry : State :=
  (addEventListener Sample.twoCapturing "x" (some Sample.listenerC)).2

/-- Callback A removes the non-capturing listener C for "x"; the other callbacks
do nothing. -/
def Sample.removesOtherRegistry : Script := fun l =>
  if l = Sample.listenerA then [Action.removeEventListener "x" Sample.listenerC false] else []

/-- A raw event descriptor for the sample target. -/
def Sample.rawEvent : RawEvent :=
  { cancelable := false, target := Sample.target.binding_object
    current_target := Sample.target.binding_object }

/-- An argument array of two entries: the event type and the raw event. -/
def Sample.twoArguments : List NativeValue :=
  [NativeValue.string "x", NativeValue.rawEvent Sample.rawEvent]

/-- A repeating timer that was terminated while its callback ran and whose
status was then set to finished, as the code that runs a timer does after
`Fire` returns. -/
def Sample.terminatedThenFinished : Timer :=
  ((Timer.create (some Sample.callback) TimerKind.kMultiple).Terminate).SetStatus
    TimerStatus.kFinished

/-! ## The wire table (`WatchDartWire`, `IsDartWireAlive`, `DeleteDartWire`) -/

/-- Modelled from the spec: the wire table of section 4.4.  The three functions
are declared in dart_isolate_context.h; their bodies and the table they work on
are not among the sources.  A wire entry is known by its address.  `alive`
holds the entries that are watched and not deleted, `released` lists, oldest
first, the entries whose native resources have been released. -/
structure WireTable where
  alive : List Nat
  released : List Nat
deriving DecidableEq, Repr

/-- Modelled from the spec: `WatchDartWire`, section 4.4: "registers a live
entry; idempotent if already watched". -/
def WatchDartWire (table : WireTable) (wire : Nat) : WireTable :=
  if wire ∈ table.alive then table else { table with alive := wire :: table.alive }

/-- Modelled from the spec: `IsDartWireAlive`, section 4.4: `IsAlive(entry)`. -/
def IsDartWireAlive (table : WireTable) (wire : Nat) : Bool :=
  decide (wire ∈ table.alive)

/-- Modelled from the spec: `DeleteDartWire`, section 4.4: "marks dead and
releases associated native resources"; "whichever occurs first wins, the second
is a no-op". -/
def DeleteDartWire (table : WireTable) (wire : Nat) : WireTable :=
  if wire ∈ table.alive then
    { alive := table.alive.filter (fun w => w != wire), released := table.released ++ [wire] }
  else table

/-- Source `dart_object_finalize_callback`, the finalizer
`HandleDispatchEventFromDart` attaches to the host object: it deletes the wire
handed to it as `peer` if the wire is still alive. -/
def dart_object_finalize_callback (table : WireTable) (peer : Nat) : WireTable :=
  if IsDartWireAlive table peer then DeleteDartWire table peer else table

/-- The two sides that let go of a wire: the finalizer the host runs for its
object, and the teardown of the script engine, which deletes the wire
itself. -/
inductive WireRelease where
  | finalizer (wire : Nat)
  | teardown (wire : Nat)
deriving DecidableEq, Repr

/-- Run releases, in order, on a wire table. -/
def WireTable.run : WireTable → List WireRelease → WireTable
  | table, [] => table
  | table, WireRelease.finalizer wire :: rest =>
    (dart_object_finalize_callback table wire).run rest
  | table, WireRelease.teardown wire :: rest => (DeleteDartWire table wire).run rest

/-- How often the native resources of a wire have been released. -/
def WireTable.releases (table : WireTable) (wire : Nat) : Nat :=
  table.released.count wire

/-! ## Attribute listeners (`SetAttributeEventListener`, `GetAttributeEventListener`) -/

/-- Source `EventTarget::GetEventListeners`: the non-capturing sequence of the
event type, if the target has data and the registry an entry for the type. -/
def GetEventListeners (s : State) (event_type : AtomicString) : Option EventListenerVector :=
  match s.data with
  | none => none
  | some data => data.event_listener_map.Find event_type

/-- The loop of `GetAttributeRegisteredEventListener` over the sequence: the
position of the first listener whose callback is an event handler, looked for
while the executing context is there. -/
def firstEventHandler (context_alive : Bool) : EventListenerVector → Option Nat
  | [] => none
  | event_listener :: rest =>
    if context_alive && event_listener.callback.is_event_handler then some 0
    else (firstEventHandler context_alive rest).map Nat.succ

/-- Source `EventTarget::GetAttributeRegisteredEventListener`.  The pointer into
the sequence that the source returns is the position of the listener together
with the listener found there. -/
def GetAttributeRegisteredEventListener (s : State) (event_type : AtomicString) :
    Option (Nat × RegisteredEventListener) :=
  match GetEventListeners s event_type with
  | none => none
  | some listener_vector =>
    match firstEventHandler s.context_alive listener_vector with
    | none => none
    | some index => (listener_vector.get? index).map (fun event_listener => (index, event_listener))

/-- Modelled from the spec: `RegisteredEventListener::SetCallback`, on the
listener at position `index` of the non-capturing sequence for `event_type`: the
callback reference of section 3 is replaced, the flags and the position stay. -/
def State.SetCallback (s : State) (event_type : AtomicString) (index : Nat)
    (listener : EventListener) : State :=
  match s.data with
  | none => s
  | some d =>
    let d1 : EventTargetData :=
      { d with
        event_listener_map :=
          { entries := setVector d.event_listener_map.entries event_type
              ((s.entry false event_type).modify
                (fun registered_listener => { registered_listener with callback := listener })
                index) } }
    { s with data := some d1 }

/-- Source `EventTarget::SetAttributeEventListener`. -/
def SetAttributeEventListener (s : State) (event_type : AtomicString)
    (listener : Option EventListener) : Bool × State :=
  let registered_listener := GetAttributeRegisteredEventListener s event_type
  match listener with
  | none =>
    match registered_listener with
    | some found => (false, (removeEventListener s event_type (some found.2.callback)).2)
    | none => (false, s)
  | some l =>
    match registered_listener with
    | some found => (true, s.SetCallback event_type found.1 l)
    | none => addEventListener s event_type (some l)

/-- Source `EventTarget::GetAttributeEventListener`. -/
def GetAttributeEventListener (s : State) (event_type : AtomicString) : Option EventListener :=
  (GetAttributeRegisteredEventListener s event_type).map (fun found => found.2.callback)

/-- The event-handler listeners in the non-capturing sequence of an event
type. -/
def State.eventHandlers (s : State) (event_type : AtomicString) : EventListenerVector :=
  (s.entry false event_type).filter (fun x => x.callback.is_event_handler)

/-- Sample event handler H. -/
def Sample.handlerH : EventListener := { id := 11, is_event_handler := true }

/-- Sample event handler K. -/
def Sample.handlerK : EventListener := { id := 12, is_event_handler := true }

/-- Sample event handler L. -/
def Sample.handlerL : EventListener := { id := 13, is_event_handler := true }

/-- The sample target after `addEventListener("x", H)` and
`addEventListener("x", K)`: two event handlers registered as plain
listeners. -/
def Sample.twoHandlers : State :=
  (addEventListener (addEventListener Sample.target "x" (some Sample.handlerH)).2 "x"
    (some Sample.handlerK)).2

/-- The sample target with the listeners A and B for "x" once its executing
context is gone. -/
def Sample.twoListenersDetached : State := { Sample.twoListeners with context_alive := false }

/-- The sample target after A, the attribute listener H and B have been
registered for "x", in that order. -/
def Sample.withAttributeListener : State :=
  (addEventListener
    (SetAttributeEventListener (addEventListener Sample.target "x" (some Sample.listenerA)).2 "x"
      (some Sample.handlerH)).2
    "x" (some Sample.listenerB)).2

/-! ## Construction of a target and calls on it -/

/-- Source `EventTarget::Create`, by which script makes a target: it makes an
`EventTargetWithInlineData`, whose listener data is a member of the object, so
`GetEventTargetData()` is not null for it and its registries are empty; the
constructor `EventTarget::EventTarget(context, constructor_name)` appends the
create-target command for the new binding object to the command buffer of the
context handed in, which holds `commands` so far. -/
def EventTarget.Create (commands : List IsolateCommandItem) (constructor_name : AtomicString)
    (bindingObject : Nat) : State :=
  State.addCommand
    { context_alive := true, commands := commands, reported_errors := []
      data := some EventTargetData.empty, binding_object := bindingObject
      exception_state := none, trace := [], out_of_fuel := false, out_of_range := false
      null_context_used := false }
    IsolateCommand.kCreateEventTarget constructor_name CommandPayload.null

/-- A call on the target made from outside a pass: by script, or by the host
through `HandleDispatchEventFromDart`. -/
inductive TargetCall where
  | addEventListener (event_type : AtomicString) (listener : Option EventListener)
      (options : Option QJSUnionAddEventListenerOptionsBoolean)
  | removeEventListener (event_type : AtomicString) (listener : Option EventListener)
      (use_capture : Bool)
  | setAttributeEventListener (event_type : AtomicString) (listener : Option EventListener)
  | dispatchEvent (event : Event)
  | handleDispatchEventFromDart (argv : List NativeValue)

/-- The target after a call; callbacks may nest dispatches `depth` deep. -/
def State.call (script : Script) (depth : Nat) (s : State) : TargetCall → State
  | TargetCall.addEventListener event_type listener options =>
    (addEventListenerWithOptions s event_type listener options).2
  | TargetCall.removeEventListener event_type listener use_capture =>
    (removeEventListenerCapture s event_type listener use_capture).2
  | TargetCall.setAttributeEventListener event_type listener =>
    (SetAttributeEventListener s event_type listener).2
  | TargetCall.dispatchEvent event =>
    (mercury.dispatchEvent script (nestedDispatch script depth) s event).state
  | TargetCall.handleDispatchEventFromDart argv =>
    match HandleDispatchEventFromDart script (nestedDispatch script depth) s argv with
    | Except.ok outcome => outcome.state
    | Except.error _ => s

/-- The target after a sequence of calls. -/
def State.calls (script : Script) (depth : Nat) : State → List TargetCall → State
  | s, [] => s
  | s, call :: rest => (s.call script depth call).calls script depth rest

/-- The command buffer of `s1` is the one of `s` with commands appended, each an
add-listener or a remove-listener command for the binding object of the
target, which is the same in both states. -/
def CommandsAppended (s s1 : State) : Prop :=
  s1.binding_object = s.binding_object ∧
  ∃ more, s1.commands = s.commands ++ more ∧
    ∀ c ∈ more, (c.type = IsolateCommand.kAddEvent ∨ c.type = IsolateCommand.kRemoveEvent) ∧
      c.target = s.binding_object

/-- Callback A adds a capturing listener B for "x" and a listener C for "y",
dispatches "y" and removes the listener B for "x"; callback C removes itself;
the other callbacks do nothing. -/
def Sample.busy : Script := fun l =>
  if l = Sample.listenerA then
    [Action.addEventListener "x" Sample.listenerB (AddEventListenerOptions.Create.setCapture true),
     Action.addEventListener "y" Sample.listenerC AddEventListenerOptions.Create,
     Action.dispatchEvent (Event.Create "y" false),
     Action.removeEventListener "x" Sample.listenerB true]
  else if l = Sample.listenerC then [Action.removeEventListener "y" Sample.listenerC false]
  else []

/-- Calls on a target made by script: register A for "x", dispatch "x", remove
A. -/
def Sample.someCalls : List TargetCall :=
  [TargetCall.addEventListener "x" (some Sample.listenerA) none,
   TargetCall.dispatchEvent (Event.Create "x" false),
   TargetCall.removeEventListener "x" (some Sample.listenerA) false]

/-- A command buffer that holds the create-target command of another target. -/
def Sample.earlierCommands : List IsolateCommandItem :=
  [{ type := IsolateCommand.kCreateEventTarget, args := "other", target := 3
     payload := CommandPayload.null }]

/-! ## Cursor and end of the passes in progress -/

/-- Every pass in progress has its cursor at or before its end, and its end
within the sequence it walks.  The firing iterators do not record the registry
their pass walks; `cs` tells it, oldest pass first: true for the capturing
registry. -/
def AllWithin (cs : List Bool) (s : State) : Prop :=
  s.iterators.length = cs.length ∧
  ∀ (p : Nat) (it : FiringEventIterator) (c : Bool),
    s.iterators.get? p = some it → cs.get? p = some c →
    it.iterator ≤ it.end_ ∧ it.end_ ≤ (s.entry c it.event_type).length

/-- The invariant of the passes in progress together with the observation that
no read of a sequence has gone past its end: the flag `out_of_range` still has
the value `r0`. -/
def Safe (cs : List Bool) (r0 : Bool) (s : State) : Prop :=
  AllWithin cs s ∧ s.out_of_range = r0

/-! ## The exception state of a pass -/

/-- C1, on the capturing registry: a listener registered for "x" with capture
and once set is invoked by the first capturing pass for "x", is still in the
capturing registry when that pass is over, and is invoked again by the next
capturing pass.  The removal made for a once listener searches the
non-capturing registry only. -/
theorem once_capturing_listener_fires_again :
    Sample.onceCapturing.registered true "x" = [Sample.listenerA] ∧
    Sample.onceCapturing.invokedSince
      (FireEventListeners Sample.quiet (nestedDispatch Sample.quiet 0) Sample.onceCapturing
        (Sample.hostEvent "x") true).2.1 = [Sample.listenerA] ∧
    (FireEventListeners Sample.quiet (nestedDispatch Sample.quiet 0) Sample.onceCapturing
        (Sample.hostEvent "x") true).2.1.registered true "x" = [Sample.listenerA] ∧
    (FireEventListeners Sample.quiet (nestedDispatch Sample.quiet 0) Sample.onceCapturing
        (Sample.hostEvent "x") true).2.1.invokedSince
      (FireEventListeners Sample.quiet (nestedDispatch Sample.quiet 0)
        (FireEventListeners Sample.quiet (nestedDispatch Sample.quiet 0) Sample.onceCapturing
          (Sample.hostEvent "x") true).2.1
        (Sample.hostEvent "x") true).2.1 = [Sample.listenerA] ∧
    (FireEventListeners Sample.quiet (nestedDispatch Sample.quiet 0) Sample.onceCapturing
        (Sample.hostEvent "x") true).2.1.out_of_fuel = false ∧
    (FireEventListeners Sample.quiet (nestedDispatch Sample.quiet 0) Sample.onceCapturing
        (Sample.hostEvent "x") true).2.1.out_of_range = false := by
  decide

/-- C2, for capture = true: after `addEventListener("x", A, true)` the call
`removeEventListener("x", A, true)` returns false, A is still in the capturing
registry, and a later capturing pass for "x" invokes A. -/
theorem remove_capturing_listener_fails :
    (removeEventListenerCapture Sample.oneCapturing "x" (some Sample.listenerA) true).1 = false ∧
    (removeEventListenerCapture Sample.oneCapturing "x" (some Sample.listenerA) true).2.registered
      true "x" = [Sample.listenerA] ∧
    Sample.oneCapturing.invokedSince
      (FireEventListeners Sample.quiet (nestedDispatch Sample.quiet 0)
        (removeEventListenerCapture Sample.oneCapturing "x" (some Sample.listenerA) true).2
        (Sample.hostEvent "x") true).2.1 = [Sample.listenerA] := by
  decide

/-- C4, for capture = true: A is the only capturing listener for "x", yet
`removeEventListener("x", A, true)` appends nothing to the command buffer, which
still holds the add-listener command alone. -/
theorem remove_last_capturing_listener_emits_no_command :
    Sample.oneCapturing.registered true "x" = [Sample.listenerA] ∧
    (removeEventListenerCapture Sample.oneCapturing "x" (some Sample.listenerA) true).2.commands =
      Sample.oneCapturing.commands ∧
    Sample.oneCapturing.commands =
      [{ type := IsolateCommand.kAddEvent, args := "x", target := 7
         payload := CommandPayload.addOptions { capture := true, passive := false, once := false } }] := by
  decide

/-- C5, on the capturing registry: A and B are capturing listeners for "x" and
the callback of A removes B with capture = true before the pass has visited B;
the pass still invokes B after A, and B stays registered. -/
theorem removed_capturing_sibling_still_fires :
    Sample.twoCapturing.registered true "x" = [Sample.listenerA, Sample.listenerB] ∧
    Sample.twoCapturing.invokedSince
      (FireEventListeners Sample.removesCapturingSibling
        (nestedDispatch Sample.removesCapturingSibling 0) Sample.twoCapturing
        (Sample.hostEvent "x") true).2.1 = [Sample.listenerA, Sample.listenerB] ∧
    (FireEventListeners Sample.removesCapturingSibling
        (nestedDispatch Sample.removesCapturingSibling 0) Sample.twoCapturing
        (Sample.hostEvent "x") true).2.1.registered true "x" =
      [Sample.listenerA, Sample.listenerB] ∧
    (FireEventListeners Sample.removesCapturingSibling
        (nestedDispatch Sample.removesCapturingSibling 0) Sample.twoCapturing
        (Sample.hostEvent "x") true).2.1.out_of_fuel = false ∧
    (FireEventListeners Sample.removesCapturingSibling
        (nestedDispatch Sample.removesCapturingSibling 0) Sample.twoCapturing
        (Sample.hostEvent "x") true).2.1.out_of_range = false := by
  decide

/-- C7, the end-to-end scenario: with A, B (once) and C added in that order as
non-capturing listeners for "x", the first dispatch of "x" invokes A, B, C in
that order and throws nothing, B is no longer registered afterwards, and a
second dispatch of "x" with a fresh event invokes exactly A then C. -/
theorem end_to_end_once_scenario :
    Sample.threeListeners.registered false "x" =
      [Sample.listenerA, Sample.listenerB, Sample.listenerC] ∧
    Sample.firstDispatch.exception = none ∧
    Sample.threeListeners.invokedSince Sample.firstDispatch.state =
      [Sample.listenerA, Sample.listenerB, Sample.listenerC] ∧
    Sample.firstDispatch.state.registered false "x" = [Sample.listenerA, Sample.listenerC] ∧
    Sample.firstDispatch.state.registered true "x" = [] ∧
    Sample.secondDispatch.exception = none ∧
    Sample.firstDispatch.state.invokedSince Sample.secondDispatch.state =
      [Sample.listenerA, Sample.listenerC] ∧
    Sample.secondDispatch.state.out_of_fuel = false ∧
    Sample.secondDispatch.state.out_of_range = false := by
  decide

/-! ### Properties kept by the firing loop

A property of the state and the event that survives every step of a round
survives the loop; the initialized flag of the event is such a property. -/

theorem fireLoop_preserves (script : Script) (nested : State → Event → DispatchOutcome)
    (isCapture : Bool) (pos : Nat) (P : State → Event → Prop)
    (h_fuel : ∀ s e, P s e → P { s with out_of_fuel := true } e)
    (h_range : ∀ s e, P s e → P { s with out_of_range := true } e)
    (h_next : ∀ s e i, P s e → P (s.setIterator pos i) e)
    (h_fire : ∀ s e rl, P s e → P (fireOne script nested s e rl).1 (fireOne script nested s e rl).2) :
    ∀ (k : Nat) (s : State) (e : Event) (f : Bool), P s e →
      P (fireLoop script nested isCapture pos k s e f).1
        (fireLoop script nested isCapture pos k s e f).2.1 := by
  intro k
  induction k with
  | zero =>
    intro s e f hP
    rw [fireLoop]
    cases s.iterators.get? pos with
    | none => exact hP
    | some it =>
      dsimp only
      split
      · exact h_fuel s e hP
      · exact hP
  | succ k ih =>
    intro s e f hP
    rw [fireLoop]
    cases s.iterators.get? pos with
    | none => exact hP
    | some it =>
      dsimp only
      by_cases h1 : it.iterator < it.end_
      · rw [if_pos h1]
        by_cases h2 : e.ImmediatePropagationStopped = true
        · rw [if_pos h2]; exact hP
        · rw [if_neg h2]
          cases (s.entry isCapture e.type).get? it.iterator with
          | none => exact h_range s e hP
          | some rl =>
            dsimp only
            by_cases h3 : (!rl.ShouldFire e) = true
            · rw [if_pos h3]; exact ih _ _ _ (h_next s e _ hP)
            · rw [if_neg h3]; exact ih _ _ _ (h_fire _ e rl (h_next s e _ hP))
      · rw [if_neg h1]; exact hP


theorem Invoke_event (script : Script) (nested : State → Event → DispatchOutcome)
    (l : EventListener) (s : State) (e : Event) :
    (Invoke script nested l s e).2 = (runActions nested (script l) s e).2.1 := by
  unfold Invoke
  dsimp only
  split <;> rfl

theorem findVector_setVector_same (entries : List (AtomicString × EventListenerVector))
    (t : AtomicString) (v : EventListenerVector) :
    findVector (setVector entries t v) t = some v := by
  induction entries with
  | nil => simp [setVector, findVector]
  | cons p rest ih =>
    obtain ⟨k, v0⟩ := p
    by_cases h : k = t
    · simp [setVector, findVector, h]
    · simp [setVector, findVector, h, ih]

theorem findVector_setVector_ne (entries : List (AtomicString × EventListenerVector))
    (t t1 : AtomicString) (v : EventListenerVector) (hne : t1 ≠ t) :
    findVector (setVector entries t v) t1 = findVector entries t1 := by
  induction entries with
  | nil =>
    have h : ¬ t = t1 := fun h => hne h.symm
    simp [setVector, findVector, h]
  | cons p rest ih =>
    obtain ⟨k, v0⟩ := p
    by_cases h : k = t
    · have h1 : ¬ k = t1 := fun h2 => hne (h2.symm.trans h)
      have h3 : ¬ t = t1 := fun h2 => hne h2.symm
      simp [setVector, findVector, h, h1, h3]
    · by_cases h1 : k = t1
      · subst h1
        simp [setVector, findVector, h]
      · simp [setVector, findVector, h, h1, ih]

theorem vectorOf_setVector_same (m : EventListenerMap) (t : AtomicString)
    (v : EventListenerVector) :
    EventListenerMap.vectorOf { entries := setVector m.entries t v } t = v := by
  simp [EventListenerMap.vectorOf, EventListenerMap.Find, findVector_setVector_same]

theorem vectorOf_setVector_ne (m : EventListenerMap) (t t1 : AtomicString)
    (v : EventListenerVector) (hne : t1 ≠ t) :
    EventListenerMap.vectorOf { entries := setVector m.entries t v } t1 = m.vectorOf t1 := by
  simp [EventListenerMap.vectorOf, EventListenerMap.Find, findVector_setVector_ne _ _ _ _ hne]

theorem indexOfMatch_nil (l : EventListener) (c : Bool) : indexOfMatch [] l c = none := rfl

/-- What `Add` returns, by cases on the duplicate test. -/
theorem EventListenerMap.Add_eq (m : EventListenerMap) (t : AtomicString) (l : EventListener)
    (o : AddEventListenerOptions) :
    m.Add t l o =
      if (indexOfMatch (m.vectorOf t) l (o.capture.getD false)).isSome then
        (false, RegisteredEventListener.Create l o, (m.vectorOf t).length, m)
      else
        (true, RegisteredEventListener.Create l o, (m.vectorOf t).length + 1,
          { entries := setVector m.entries t (m.vectorOf t ++ [RegisteredEventListener.Create l o]) }) := by
  unfold EventListenerMap.Add
  dsimp only [RegisteredEventListener.Create]
  cases indexOfMatch (m.vectorOf t) l (o.capture.getD false) <;> rfl

theorem State.entry_of_data (s : State) (d : EventTargetData) (h : s.data = some d) (c : Bool)
    (t : AtomicString) :
    s.entry c t =
      if c then d.event_capture_listener_map.vectorOf t else d.event_listener_map.vectorOf t := by
  unfold State.entry
  rw [h]

theorem State.entry_ensure (s : State) (c : Bool) (t : AtomicString) :
    s.entry c t =
      if c then s.EnsureEventTargetData.event_capture_listener_map.vectorOf t
      else s.EnsureEventTargetData.event_listener_map.vectorOf t := by
  unfold State.entry State.EnsureEventTargetData
  cases s.data with
  | none => cases c <;> rfl
  | some d => rfl

theorem State.sendCommand_eq_sent (s : State) (k : IsolateCommand) (a : AtomicString)
    (p : CommandPayload) : s.sendCommand k a p = s.sent k a p := by
  unfold State.sendCommand State.sent State.addCommand
  cases h : s.context_alive <;> simp [h]

theorem AddEventListenerInternal_eq (s : State) (t : AtomicString) (l : EventListener)
    (o : AddEventListenerOptions) :
    AddEventListenerInternal s t (some l) o =
      if (indexOfMatch (s.entry (decide (o.capture = some true)) t) l
          (o.capture.getD false)).isSome = true then
        (false, { s with data := some s.EnsureEventTargetData })
      else if s.entry (decide (o.capture = some true)) t = [] then
        (true, (s.withListener (decide (o.capture = some true)) t
          (RegisteredEventListener.Create l o)).sent IsolateCommand.kAddEvent t
            (CommandPayload.addOptions
              { once := o.once.getD false, capture := o.capture.getD false
                passive := o.passive.getD false }))
      else
        (true, s.withListener (decide (o.capture = some true)) t
          (RegisteredEventListener.Create l o)) := by
  have hentry := State.entry_ensure s (decide (o.capture = some true)) t
  unfold AddEventListenerInternal State.withListener
  by_cases hc : o.capture = some true
  · simp only [hc, decide_True, if_true] at hentry ⊢
    simp only [EventListenerMap.Add_eq, hc, Option.getD_some]
    rw [← hentry]
    by_cases hm : (indexOfMatch (s.entry true t) l true).isSome = true
    · simp only [hm, if_true]
      simp
    · simp only [hm, if_false]
      cases hv : s.entry true t with
      | nil => simp [State.sendCommand_eq_sent]
      | cons x rest => simp
  · simp only [hc, decide_False, Bool.false_eq_true, if_false] at hentry ⊢
    simp only [EventListenerMap.Add_eq]
    rw [← hentry]
    by_cases hm : (indexOfMatch (s.entry false t) l (o.capture.getD false)).isSome = true
    · simp only [hm, if_true]
      simp
    · simp only [hm, if_false]
      cases hv : s.entry false t with
      | nil => simp [State.sendCommand_eq_sent]
      | cons x rest => simp

theorem State.withListener_entry_same (s : State) (c : Bool) (t : AtomicString)
    (rl : RegisteredEventListener) :
    (s.withListener c t rl).entry c t = s.entry c t ++ [rl] := by
  cases c <;> simp [State.withListener, State.entry, vectorOf_setVector_same]

theorem State.addCommand_entry (s : State) (k : IsolateCommand) (a : AtomicString)
    (p : CommandPayload) (c : Bool) (t : AtomicString) :
    (s.addCommand k a p).entry c t = s.entry c t := rfl

theorem State.addCommand_commands (s : State) (k : IsolateCommand) (a : AtomicString)
    (p : CommandPayload) :
    (s.addCommand k a p).commands =
      s.commands ++ [{ type := k, args := a, target := s.binding_object, payload := p }] := rfl

theorem State.withListener_commands (s : State) (c : Bool) (t : AtomicString)
    (rl : RegisteredEventListener) : (s.withListener c t rl).commands = s.commands := rfl

theorem State.withListener_binding_object (s : State) (c : Bool) (t : AtomicString)
    (rl : RegisteredEventListener) : (s.withListener c t rl).binding_object = s.binding_object :=
  rfl

theorem State.sent_entry (s : State) (k : IsolateCommand) (a : AtomicString)
    (p : CommandPayload) (c : Bool) (t : AtomicString) :
    (s.sent k a p).entry c t = s.entry c t := rfl

theorem State.sent_commands (s : State) (k : IsolateCommand) (a : AtomicString)
    (p : CommandPayload) :
    (s.sent k a p).commands =
      if s.context_alive = true then
        s.commands ++ [{ type := k, args := a, target := s.binding_object, payload := p }]
      else s.commands := rfl

/-- With an executing context, `addEventListener` appends exactly one
add-listener command, after the commands already buffered, when it registers
the first listener of a (type, capture) key, that is when the listener is not
null and the registry selected by the capture flag holds no listener for the
type (whether it never did or dropped back to none); in every other case, a
second or later listener of the key or a rejected duplicate, it appends
nothing.  The first case is exactly the one in which the call returns true and
the key then counts one listener. -/
theorem addEventListener_command_with_context
    (s : State) (event_type : AtomicString) (listener : Option EventListener)
    (options : AddEventListenerOptions) (halive : s.context_alive = true) :
    (AddEventListenerInternal s event_type listener options).2.commands =
      (if listener.isSome = true ∧
          s.entry (decide (options.capture = some true)) event_type = [] then
        s.commands ++
          [{ type := IsolateCommand.kAddEvent, args := event_type, target := s.binding_object
             payload := CommandPayload.addOptions
               { once := options.once.getD false, capture := options.capture.getD false
                 passive := options.passive.getD false } }]
      else s.commands) ∧
    ((listener.isSome = true ∧
        s.entry (decide (options.capture = some true)) event_type = []) ↔
      ((AddEventListenerInternal s event_type listener options).1 = true ∧
        ((AddEventListenerInternal s event_type listener options).2.entry
          (decide (options.capture = some true)) event_type).length = 1)) ∧
    (AddEventListenerInternal s event_type listener options).2.null_context_used =
      s.null_context_used := by
  have hal : ∀ c rl, (s.withListener c event_type rl).context_alive = true := fun _ _ => halive
  cases listener with
  | none => simp [AddEventListenerInternal]
  | some l =>
    rw [AddEventListenerInternal_eq]
    cases hv : s.entry (decide (options.capture = some true)) event_type with
    | nil =>
      simp [indexOfMatch_nil, State.sent_commands, State.sent_entry, hal,
        State.withListener_entry_same, State.withListener_commands,
        State.withListener_binding_object, hv]
      simp [State.sent, hal]
      rfl
    | cons x rest =>
      by_cases hm : (indexOfMatch (x :: rest) l (options.capture.getD false)).isSome = true
      · simp [hm]
      · simp [hm, State.withListener_entry_same, State.withListener_commands, hv]
        rfl

/-- C3: on a target without executing context, `addEventListener` for the first
listener of a key registers the listener, returns true, and then reaches for
the command buffer through the null executing context: no add-listener command
is appended. -/
theorem addEventListener_without_context_appends_no_command :
    Sample.detached.context_alive = false ∧
    Sample.detached.entry false "x" = [] ∧
    (addEventListener Sample.detached "x" (some Sample.listenerA)).1 = true ∧
    (addEventListener Sample.detached "x" (some Sample.listenerA)).2.registered false "x" =
      [Sample.listenerA] ∧
    (addEventListener Sample.detached "x" (some Sample.listenerA)).2.commands = [] ∧
    (addEventListener Sample.detached "x" (some Sample.listenerA)).2.null_context_used = true := by
  decide
/-! ### The public entry point `dispatchEvent` -/

theorem dispatchEvent_exception (script : Script) (nested : State → Event → DispatchOutcome)
    (s : State) (event : Event) :
    (dispatchEvent script nested s event).exception =
      if event.WasInitialized = false then
        some (PendingException.thrown
          { type := ErrorType.InternalError, message := "The event provided is uninitialized." })
      else if event.IsBeingDispatched = true then
        some (PendingException.thrown
          { type := ErrorType.InternalError, message := "The event is already being dispatched." })
      else if s.context_alive = false then none
      else
        (DispatchEventInternal script nested { s with exception_state := none }
          (event.SetTrusted false)).2.1.exception_state := by
  unfold dispatchEvent
  cases h1 : event.WasInitialized <;> cases h2 : event.IsBeingDispatched <;>
    cases h3 : s.context_alive <;> simp

/-- C8, counterexample: dispatching an uninitialized event fails with an error
of kind `InternalError`, which is not the kind `InvalidStateError`; and an
initialized event that is not being dispatched, dispatched at a target with a
live executing context where the callback of B raises a script error, leaves
that error in the exception state of the `dispatchEvent` call. -/
theorem dispatchEvent_uninitialized_raises_internal_error :
    Sample.uninitializedEvent.WasInitialized = false ∧
    (dispatchEvent Sample.quiet (nestedDispatch Sample.quiet 0) Sample.target
      Sample.uninitializedEvent).exception =
        some (PendingException.thrown
          { type := ErrorType.InternalError
            message := "The event provided is uninitialized." }) ∧
    ErrorType.InternalError ≠ ErrorType.InvalidStateError ∧
    (Event.Create "x" false).WasInitialized = true ∧
    (Event.Create "x" false).IsBeingDispatched = false ∧
    Sample.threeListeners.context_alive = true ∧
    (dispatchEvent Sample.secondRaises (nestedDispatch Sample.secondRaises 0)
      Sample.threeListeners (Event.Create "x" false)).exception =
        some (PendingException.raisedBy Sample.listenerB) := by
  decide

theorem GetDispatchEventResult_ne (event : Event) :
    (GetDispatchEventResult event != DispatchEventResult.kCanceledByEventHandler) =
      !event.defaultPrevented := by
  unfold GetDispatchEventResult
  cases event.defaultPrevented <;> cases event.DefaultHandled <;> rfl

/-- C10, counterexample: at a target whose executing context is gone,
`dispatchEvent` returns false for an initialized event that is not being
dispatched, although no handler canceled the event: it is not default-prevented
and its dispatch result is not `kCanceledByEventHandler`. -/
theorem dispatchEvent_false_without_cancellation :
    (Event.Create "x" true).WasInitialized = true ∧
    (Event.Create "x" true).IsBeingDispatched = false ∧
    (dispatchEvent Sample.quiet (nestedDispatch Sample.quiet 0) Sample.detached
      (Event.Create "x" true)).result = false ∧
    (dispatchEvent Sample.quiet (nestedDispatch Sample.quiet 0) Sample.detached
      (Event.Create "x" true)).event.defaultPrevented = false ∧
    GetDispatchEventResult
      (dispatchEvent Sample.quiet (nestedDispatch Sample.quiet 0) Sample.detached
        (Event.Create "x" true)).event ≠ DispatchEventResult.kCanceledByEventHandler := by
  decide
/-! ### `RemoveEventListenerInternal` in closed form -/

theorem indexOfMatch_lt (v : EventListenerVector) (l : EventListener) (c : Bool) (i : Nat)
    (h : indexOfMatch v l c = some i) : i < v.length := by
  induction v generalizing i with
  | nil => simp [indexOfMatch] at h
  | cons x rest ih =>
    unfold indexOfMatch at h
    split at h
    · cases h; simp
    · cases hr : indexOfMatch rest l c with
      | none => rw [hr] at h; simp at h
      | some k =>
        rw [hr] at h
        simp at h
        subst h
        have := ih k hr
        simp
        omega

theorem indexOfMatch_none (v : EventListenerVector) (l : EventListener) (c : Bool)
    (h : indexOfMatch v l c = none) :
    ∀ x ∈ v, ¬ (x.callback = l ∧ x.use_capture = c) := by
  induction v with
  | nil => intro x hx; simp at hx
  | cons y rest ih =>
    unfold indexOfMatch at h
    split at h
    · simp at h
    · rename_i hm
      simp only [Option.map_eq_none'] at h
      intro x hx
      rcases List.mem_cons.mp hx with rfl | hx
      · intro hxm
        apply hm
        simp [RegisteredEventListener.Matches, hxm.1, hxm.2]
      · exact ih h x hx

theorem State.entry_none (s : State) (h : s.data = none) (c : Bool) (t : AtomicString) :
    s.entry c t = [] := by
  unfold State.entry
  rw [h]

theorem RemoveEventListenerInternal_eq (s : State) (t : AtomicString) (l : EventListener)
    (o : EventListenerOptions) :
    RemoveEventListenerInternal s t (some l) o =
      match indexOfMatch (s.entry false t) l (o.capture.getD false) with
      | none => (false, s)
      | some index =>
        if ((s.entry false t).length - 1 == 0) = true then
          (true, (s.withoutListener t index).sent IsolateCommand.kRemoveEvent t
            (if decide (o.capture = some true) = true then CommandPayload.one
             else CommandPayload.null))
        else (true, s.withoutListener t index) := by
  unfold RemoveEventListenerInternal
  cases hd : s.data with
  | none =>
    rw [State.entry_none s hd]
    rfl
  | some d =>
    have hentry : s.entry false t = d.event_listener_map.vectorOf t := by
      rw [State.entry_of_data s d hd]; rfl
    dsimp only
    unfold EventListenerMap.Remove
    cases hf : d.event_listener_map.Find t with
    | none =>
      have hv : s.entry false t = [] := by
        rw [hentry]; unfold EventListenerMap.vectorOf; rw [hf]; rfl
      rw [hv]
      rfl
    | some v =>
      have hv : s.entry false t = v := by
        rw [hentry]; unfold EventListenerMap.vectorOf; rw [hf]; rfl
      rw [hv]
      dsimp only
      cases hi : indexOfMatch v l (o.capture.getD false) with
      | none => rfl
      | some index =>
        dsimp only
        have hlt := indexOfMatch_lt v l _ index hi
        cases hg : v.get? index with
        | none =>
          rw [List.get?_eq_none] at hg
          omega
        | some rl =>
          dsimp only
          simp only [State.sendCommand_eq_sent]
          unfold State.withoutListener
          rw [hd]
          dsimp only
          rw [hv]

theorem indexOfMatch_eq_none (v : EventListenerVector) (l : EventListener) (c : Bool)
    (h : ∀ x ∈ v, x.use_capture ≠ c) : indexOfMatch v l c = none := by
  induction v with
  | nil => rfl
  | cons x rest ih =>
    have hx : x.Matches l c = false := by
      have := h x (List.mem_cons_self _ _)
      simp [RegisteredEventListener.Matches, this]
    have hrest := ih (fun y hy => h y (List.mem_cons_of_mem _ hy))
    simp [indexOfMatch, hx, hrest]

/-- The defect behind the evaluations above, in general: as long as the
non-capturing registry holds non-capturing listeners only, which is how
`AddEventListenerInternal` fills it, a removal with capture = true finds
nothing: it returns false and leaves the target as it was, capturing registry
included. -/
theorem removeEventListener_with_capture_is_without_effect (s : State) (t : AtomicString)
    (l : Option EventListener)
    (hreg : ∀ x ∈ s.entry false t, x.use_capture = false) :
    removeEventListenerCapture s t l true = (false, s) := by
  unfold removeEventListenerCapture
  cases l with
  | none => rfl
  | some l =>
    rw [RemoveEventListenerInternal_eq]
    have hnone : indexOfMatch (s.entry false t) l
        ((EventListenerOptions.Create.setCapture true).capture.getD false) = none := by
      apply indexOfMatch_eq_none
      intro x hx
      rw [hreg x hx]
      simp [EventListenerOptions.setCapture]
    rw [hnone]

/-! ### What a pass sees of a state

How each update of the state changes the firing iterators, the iterated
sequence, the log and the observation flags. -/

theorem State.iterators_withoutListener (s : State) (t : AtomicString) (index : Nat) :
    (s.withoutListener t index).iterators = s.iterators.map (adjustIterator t index) := by
  unfold State.withoutListener State.iterators
  cases hd : s.data with
  | none => simp [hd]
  | some d => cases hf : d.firing_event_iterators <;> simp [hf]

theorem State.entry_withoutListener_same (s : State) (t : AtomicString) (index : Nat) :
    (s.withoutListener t index).entry false t = (s.entry false t).eraseIdx index := by
  unfold State.withoutListener
  cases hd : s.data with
  | none => simp [State.entry, hd]
  | some d => simp [State.entry, vectorOf_setVector_same]

theorem State.entry_withoutListener_ne (s : State) (t t1 : AtomicString) (index : Nat)
    (hne : t1 ≠ t) :
    (s.withoutListener t index).entry false t1 = s.entry false t1 := by
  unfold State.withoutListener
  cases hd : s.data with
  | none => simp [State.entry, hd]
  | some d => simp [State.entry, hd, vectorOf_setVector_ne _ _ _ _ hne]

theorem State.entry_withoutListener_capture (s : State) (t t1 : AtomicString) (index : Nat) :
    (s.withoutListener t index).entry true t1 = s.entry true t1 := by
  unfold State.withoutListener
  cases hd : s.data with
  | none => simp [State.entry, hd]
  | some d => simp [State.entry, hd]

theorem State.trace_withoutListener (s : State) (t : AtomicString) (index : Nat) :
    (s.withoutListener t index).trace = s.trace := by
  unfold State.withoutListener
  cases s.data <;> rfl

theorem State.out_of_fuel_withoutListener (s : State) (t : AtomicString) (index : Nat) :
    (s.withoutListener t index).out_of_fuel = s.out_of_fuel := by
  unfold State.withoutListener
  cases s.data <;> rfl

theorem State.out_of_range_withoutListener (s : State) (t : AtomicString) (index : Nat) :
    (s.withoutListener t index).out_of_range = s.out_of_range := by
  unfold State.withoutListener
  cases s.data <;> rfl

theorem State.iterators_withListener (s : State) (c : Bool) (t : AtomicString)
    (rl : RegisteredEventListener) : (s.withListener c t rl).iterators = s.iterators := by
  unfold State.withListener State.iterators State.EnsureEventTargetData
  cases s.data <;> cases c <;> rfl

theorem State.entry_withListener_ne (s : State) (c c1 : Bool) (t t1 : AtomicString)
    (rl : RegisteredEventListener) (hne : ¬ (c1 = c ∧ t1 = t)) :
    (s.withListener c t rl).entry c1 t1 = s.entry c1 t1 := by
  rw [State.entry_ensure s c1 t1]
  by_cases hc : c1 = c
  · have ht : t1 ≠ t := fun h => hne ⟨hc, h⟩
    subst hc
    cases c1 <;> simp [State.withListener, State.entry, vectorOf_setVector_ne _ _ _ _ ht]
  · cases c <;> cases c1 <;> simp at hc <;> simp [State.withListener, State.entry]

theorem State.trace_withListener (s : State) (c : Bool) (t : AtomicString)
    (rl : RegisteredEventListener) :
    (s.withListener c t rl).trace = s.trace ++ [TraceItem.add t rl] := rfl

theorem State.iterators_ensured (s : State) : s.ensured.iterators = s.iterators := by
  unfold State.ensured State.iterators State.EnsureEventTargetData
  cases s.data <;> rfl

theorem State.entry_ensured (s : State) (c : Bool) (t : AtomicString) :
    s.ensured.entry c t = s.entry c t := by
  rw [State.entry_ensure s c t]
  rfl

theorem State.iterators_setIterator (s : State) (pos i : Nat) :
    (s.setIterator pos i).iterators.get? pos =
      (s.iterators.get? pos).map (fun it => { it with iterator := i }) := by
  unfold State.setIterator State.iterators
  cases hd : s.data with
  | none => simp [hd]
  | some d =>
    cases hf : d.firing_event_iterators with
    | none => simp [hf]
    | some l =>
      simp only [hf, Option.map_some', Option.getD_some, List.get?_eq_getElem?,
        List.getElem?_modify]
      simp

theorem State.entry_setIterator (s : State) (pos i : Nat) (c : Bool) (t : AtomicString) :
    (s.setIterator pos i).entry c t = s.entry c t := by
  unfold State.setIterator State.entry
  cases hd : s.data <;> simp [hd]

theorem State.trace_setIterator (s : State) (pos i : Nat) :
    (s.setIterator pos i).trace = s.trace := by
  unfold State.setIterator
  cases s.data <;> rfl

theorem State.out_of_fuel_setIterator (s : State) (pos i : Nat) :
    (s.setIterator pos i).out_of_fuel = s.out_of_fuel := by
  unfold State.setIterator
  cases s.data <;> rfl

theorem State.out_of_range_setIterator (s : State) (pos i : Nat) :
    (s.setIterator pos i).out_of_range = s.out_of_range := by
  unfold State.setIterator
  cases s.data <;> rfl

theorem State.trace_popIterator (s : State) : s.popIterator.trace = s.trace := by
  unfold State.popIterator
  cases s.data <;> rfl

theorem State.out_of_fuel_popIterator (s : State) : s.popIterator.out_of_fuel = s.out_of_fuel := by
  unfold State.popIterator
  cases s.data <;> rfl

theorem State.out_of_range_popIterator (s : State) :
    s.popIterator.out_of_range = s.out_of_range := by
  unfold State.popIterator
  cases s.data <;> rfl

theorem State.entry_popIterator (s : State) (c : Bool) (t : AtomicString) :
    s.popIterator.entry c t = s.entry c t := by
  unfold State.popIterator State.entry
  cases hd : s.data <;> simp [hd]

/-! ### The invariant of a pass

Listeners below the end of the iterator were in the sequence when the pass
started and match no registration logged since; removals only lower the end,
registrations are appended at or above it. -/

theorem noInvocationAfterAdd_nil (t : AtomicString) : noInvocationAfterAdd t [] := by
  intro i j a f _ hi _
  simp at hi

theorem noInvocationAfterAdd_append_add (t t1 : AtomicString) (tr : List TraceItem)
    (a1 : RegisteredEventListener) (h : noInvocationAfterAdd t tr) :
    noInvocationAfterAdd t (tr ++ [TraceItem.add t1 a1]) := by
  intro i j a f hij hi hj
  rw [List.get?_eq_getElem?] at hi hj
  by_cases hjl : j < tr.length
  · rw [List.getElem?_append_left hjl] at hj
    rw [List.getElem?_append_left (by omega)] at hi
    exact h i j a f hij (by rw [List.get?_eq_getElem?]; exact hi)
      (by rw [List.get?_eq_getElem?]; exact hj)
  · rw [List.getElem?_append_right (by omega)] at hj
    by_cases hje : j - tr.length = 0
    · rw [hje] at hj
      simp at hj
    · have : ([TraceItem.add t1 a1] : List TraceItem)[j - tr.length]? = none := by
        apply List.getElem?_eq_none
        simp
        omega
      rw [this] at hj
      cases hj

theorem noInvocationAfterAdd_append_invoke (t : AtomicString) (tr : List TraceItem)
    (f1 : RegisteredEventListener) (h : noInvocationAfterAdd t tr)
    (hf : ∀ a, TraceItem.add t a ∈ tr → ¬ sameRegistration f1 a) :
    noInvocationAfterAdd t (tr ++ [TraceItem.invoke f1]) := by
  intro i j a f hij hi hj
  rw [List.get?_eq_getElem?] at hi hj
  by_cases hjl : j < tr.length
  · rw [List.getElem?_append_left hjl] at hj
    rw [List.getElem?_append_left (by omega)] at hi
    exact h i j a f hij (by rw [List.get?_eq_getElem?]; exact hi)
      (by rw [List.get?_eq_getElem?]; exact hj)
  · rw [List.getElem?_append_right (by omega)] at hj
    by_cases hje : j - tr.length = 0
    · rw [hje] at hj
      simp at hj
      subst hj
      have hil : i < tr.length := by omega
      rw [List.getElem?_append_left hil] at hi
      exact hf a (List.getElem?_mem hi)
    · have : ([TraceItem.invoke f1] : List TraceItem)[j - tr.length]? = none := by
        apply List.getElem?_eq_none
        simp
        omega
      rw [this] at hj
      cases hj

theorem adjustIterator_event_type (t : AtomicString) (index : Nat) (it : FiringEventIterator) :
    (adjustIterator t index it).event_type = it.event_type := by
  unfold adjustIterator
  split
  · rfl
  · split <;> rfl

theorem adjustIterator_end_le (t : AtomicString) (index : Nat) (it : FiringEventIterator) :
    (adjustIterator t index it).end_ ≤ it.end_ := by
  unfold adjustIterator
  split
  · exact Nat.le_refl _
  · split
    · exact Nat.le_refl _
    · exact Nat.sub_le _ _

theorem adjustIterator_measure (t : AtomicString) (index : Nat) (it : FiringEventIterator) :
    (adjustIterator t index it).end_ - (adjustIterator t index it).iterator ≤
      it.end_ - it.iterator := by
  unfold adjustIterator
  split
  · exact Nat.le_refl _
  · split
    · exact Nat.le_refl _
    · dsimp only
      split <;> omega

/-- The sequence is untouched and the iterator is adjusted (or left alone): the
invariant stays. -/
theorem PassInv.adjust {t : AtomicString} {V0 : EventListenerVector} {m : Nat}
    {it : FiringEventIterator} {V : EventListenerVector} {tr : List TraceItem}
    (h : PassInv t V0 m it V tr) (t1 : AtomicString) (index : Nat) :
    PassInv t V0 m (adjustIterator t1 index it) V tr := by
  obtain ⟨h1, h2, h3, h4, h5, h6⟩ := h
  have hle := adjustIterator_end_le t1 index it
  refine ⟨?_, ?_, ?_, ?_, h5, h6⟩
  · rw [adjustIterator_event_type]; exact h1
  · omega
  · exact Nat.le_trans (adjustIterator_measure t1 index it) h3
  · intro j x hj hx
    exact h4 j x (by omega) hx

/-- A listener of the iterated sequence is erased and the iterator adjusted for
that removal: the invariant stays. -/
theorem PassInv.erase {t : AtomicString} {V0 : EventListenerVector} {m : Nat}
    {it : FiringEventIterator} {V : EventListenerVector} {tr : List TraceItem}
    (h : PassInv t V0 m it V tr) (index : Nat) (hindex : index < V.length) :
    PassInv t V0 m (adjustIterator t index it) (V.eraseIdx index) tr := by
  obtain ⟨h1, h2, h3, h4, h5, h6⟩ := h
  have hlen : (V.eraseIdx index).length = V.length - 1 := List.length_eraseIdx_of_lt hindex
  refine ⟨?_, ?_, ?_, ?_, h5, h6⟩
  · rw [adjustIterator_event_type]; exact h1
  · unfold adjustIterator
    split
    · rename_i hne; exact absurd h1.symm hne
    · split
      · rename_i hge; omega
      · dsimp only; omega
  · exact Nat.le_trans (adjustIterator_measure t index it) h3
  · intro j x hj hx
    rw [List.get?_eq_getElem?, List.getElem?_eraseIdx] at hx
    unfold adjustIterator at hj
    split at hj
    · rename_i hne; exact absurd h1.symm hne
    · split at hj
      · rename_i hge
        have hji : j < index := by omega
        rw [if_pos hji] at hx
        exact h4 j x hj (by rw [List.get?_eq_getElem?]; exact hx)
      · dsimp only at hj
        split at hx
        · exact h4 j x (by omega) (by rw [List.get?_eq_getElem?]; exact hx)
        · exact h4 (j + 1) x (by omega) (by rw [List.get?_eq_getElem?]; exact hx)

/-- A listener is appended to the iterated sequence and its registration
logged: the invariant stays, because the new listener matches none of the
sequence. -/
theorem PassInv.append {t : AtomicString} {V0 : EventListenerVector} {m : Nat}
    {it : FiringEventIterator} {V : EventListenerVector} {tr : List TraceItem}
    (h : PassInv t V0 m it V tr) (rl : RegisteredEventListener)
    (hnew : ∀ x ∈ V, ¬ sameRegistration x rl) :
    PassInv t V0 m it (V ++ [rl]) (tr ++ [TraceItem.add t rl]) := by
  obtain ⟨h1, h2, h3, h4, h5, h6⟩ := h
  refine ⟨h1, ?_, h3, ?_, ?_, noInvocationAfterAdd_append_add t t tr rl h6⟩
  · rw [List.length_append]; omega
  · intro j x hj hx
    rw [List.get?_eq_getElem?, List.getElem?_append_left (by omega)] at hx
    have hx1 := h4 j x hj (by rw [List.get?_eq_getElem?]; exact hx)
    refine ⟨hx1.1, ?_⟩
    intro a ha
    rcases List.mem_append.mp ha with ha | ha
    · exact hx1.2 a ha
    · simp at ha
      subst ha
      exact hnew x (List.getElem?_mem hx)
  · intro f hf
    rcases List.mem_append.mp hf with hf | hf
    · exact h5 f hf
    · simp at hf

/-- A registration is logged that went into another sequence: the other
registry, or another event type.  The invariant stays. -/
theorem PassInv.logAdd {t : AtomicString} {V0 : EventListenerVector} {m : Nat}
    {it : FiringEventIterator} {V : EventListenerVector} {tr : List TraceItem}
    (h : PassInv t V0 m it V tr) (t1 : AtomicString) (rl : RegisteredEventListener)
    (hother : t1 = t → ∀ x ∈ V0, ¬ sameRegistration x rl) :
    PassInv t V0 m it V (tr ++ [TraceItem.add t1 rl]) := by
  obtain ⟨h1, h2, h3, h4, h5, h6⟩ := h
  refine ⟨h1, h2, h3, ?_, ?_, noInvocationAfterAdd_append_add t t1 tr rl h6⟩
  · intro j x hj hx
    have hx1 := h4 j x hj hx
    refine ⟨hx1.1, ?_⟩
    intro a ha
    rcases List.mem_append.mp ha with ha | ha
    · exact hx1.2 a ha
    · simp at ha
      obtain ⟨ht, ha⟩ := ha
      subst ha
      exact hother ht.symm x hx1.1
  · intro f hf
    rcases List.mem_append.mp hf with hf | hf
    · exact h5 f hf
    · simp at hf

/-- The invocation of a listener found below the end of the iterator is logged:
the invariant stays. -/
theorem PassInv.logInvoke {t : AtomicString} {V0 : EventListenerVector} {m : Nat}
    {it : FiringEventIterator} {V : EventListenerVector} {tr : List TraceItem}
    (h : PassInv t V0 m it V tr) (f : RegisteredEventListener) (hf0 : f ∈ V0)
    (hf : ∀ a, TraceItem.add t a ∈ tr → ¬ sameRegistration f a) :
    PassInv t V0 m it V (tr ++ [TraceItem.invoke f]) := by
  obtain ⟨h1, h2, h3, h4, h5, h6⟩ := h
  refine ⟨h1, h2, h3, ?_, ?_, noInvocationAfterAdd_append_invoke t tr f h6 hf⟩
  · intro j x hj hx
    have hx1 := h4 j x hj hx
    refine ⟨hx1.1, ?_⟩
    intro a ha
    rcases List.mem_append.mp ha with ha | ha
    · exact hx1.2 a ha
    · simp at ha
  · intro g hg
    rcases List.mem_append.mp hg with hg | hg
    · exact h5 g hg
    · simp at hg
      subst hg
      exact hf0

/-- The cursor moves past a listener below the end: the invariant stays, with
one round less to go. -/
theorem PassInv.advance {t : AtomicString} {V0 : EventListenerVector} {m : Nat}
    {it : FiringEventIterator} {V : EventListenerVector} {tr : List TraceItem}
    (h : PassInv t V0 (m + 1) it V tr) (hlt : it.iterator < it.end_) :
    PassInv t V0 m { it with iterator := it.iterator + 1 } V tr := by
  obtain ⟨h1, h2, h3, h4, h5, h6⟩ := h
  refine ⟨h1, h2, ?_, h4, h5, h6⟩
  dsimp only
  omega

/-! ### The invariant holds across removals, registrations and callbacks -/

theorem capture_getD_eq_decide (o : Option Bool) :
    o.getD false = decide (o = some true) := by
  cases o with
  | none => rfl
  | some b => cases b <;> rfl

theorem StateInv.mono {c : Bool} {t : AtomicString} {pos n0 : Nat} {V0 : EventListenerVector}
    {f0 r0 : Bool} {m m1 : Nat} {s : State} (h : StateInv c t pos n0 V0 f0 r0 m s)
    (hm : m ≤ m1) : StateInv c t pos n0 V0 f0 r0 m1 s := by
  obtain ⟨it, hit, hn, ⟨h1, h2, h3, h4⟩, hf, hr⟩ := h
  exact ⟨it, hit, hn, ⟨h1, h2, Nat.le_trans h3 hm, h4⟩, hf, hr⟩

theorem StateInv.withoutListener {c : Bool} {t : AtomicString} {pos n0 : Nat}
    {V0 : EventListenerVector} {f0 r0 : Bool} {m : Nat} {s : State}
    (h : StateInv c t pos n0 V0 f0 r0 m s) (t1 : AtomicString) (index : Nat)
    (hindex : index < (s.entry false t1).length) :
    StateInv c t pos n0 V0 f0 r0 m (s.withoutListener t1 index) := by
  obtain ⟨it, hit, hn, hP, hf, hr⟩ := h
  refine ⟨adjustIterator t1 index it, ?_, ?_, ?_, ?_, ?_⟩
  · rw [State.iterators_withoutListener, List.get?_eq_getElem?, List.getElem?_map,
      ← List.get?_eq_getElem?, hit]
    rfl
  · rw [State.trace_withoutListener]; exact hn
  · rw [State.trace_withoutListener]
    cases c with
    | true =>
      rw [State.entry_withoutListener_capture]
      exact hP.adjust t1 index
    | false =>
      by_cases ht : t = t1
      · subst ht
        rw [State.entry_withoutListener_same]
        exact hP.erase index hindex
      · rw [State.entry_withoutListener_ne _ _ _ _ ht]
        exact hP.adjust t1 index
  · rw [State.out_of_fuel_withoutListener]; exact hf
  · rw [State.out_of_range_withoutListener]; exact hr

theorem StateInv.remove {c : Bool} {t : AtomicString} {pos n0 : Nat}
    {V0 : EventListenerVector} {f0 r0 : Bool} {m : Nat} {s : State}
    (h : StateInv c t pos n0 V0 f0 r0 m s) (t1 : AtomicString) (l : Option EventListener)
    (o : EventListenerOptions) :
    StateInv c t pos n0 V0 f0 r0 m (RemoveEventListenerInternal s t1 l o).2 := by
  cases l with
  | none => exact h
  | some l =>
    rw [RemoveEventListenerInternal_eq]
    cases hi : indexOfMatch (s.entry false t1) l (o.capture.getD false) with
    | none => exact h
    | some index =>
      have hw := h.withoutListener t1 index (indexOfMatch_lt _ _ _ _ hi)
      dsimp only
      split
      · exact hw
      · exact hw

theorem RemoveEventListenerInternal_trace (s : State) (t1 : AtomicString)
    (l : Option EventListener) (o : EventListenerOptions) :
    (RemoveEventListenerInternal s t1 l o).2.trace = s.trace := by
  cases l with
  | none => rfl
  | some l =>
    rw [RemoveEventListenerInternal_eq]
    cases indexOfMatch (s.entry false t1) l (o.capture.getD false) with
    | none => rfl
    | some index =>
      dsimp only
      split
      · exact State.trace_withoutListener s t1 index
      · exact State.trace_withoutListener s t1 index

theorem StateInv.withListener {c : Bool} {t : AtomicString} {pos n0 : Nat}
    {V0 : EventListenerVector} {f0 r0 : Bool} {m : Nat} {s : State}
    (h : StateInv c t pos n0 V0 f0 r0 m s) (hreg : ∀ x ∈ V0, x.use_capture = c)
    (t1 : AtomicString) (rl : RegisteredEventListener)
    (hnew : ∀ x ∈ s.entry rl.use_capture t1, ¬ sameRegistration x rl) :
    StateInv c t pos n0 V0 f0 r0 m (s.withListener rl.use_capture t1 rl) := by
  obtain ⟨it, hit, hn, hP, hf, hr⟩ := h
  refine ⟨it, ?_, ?_, ?_, hf, hr⟩
  · rw [State.iterators_withListener]; exact hit
  · rw [State.trace_withListener, List.length_append]; omega
  · rw [State.trace_withListener, List.drop_append_of_le_length hn]
    by_cases hk : c = rl.use_capture ∧ t = t1
    · obtain ⟨hc, ht⟩ := hk
      subst ht
      rw [hc, State.withListener_entry_same]
      rw [hc] at hP
      exact hP.append rl hnew
    · rw [State.entry_withListener_ne _ _ _ _ _ _ hk]
      refine hP.logAdd t1 rl ?_
      intro ht x hx hsame
      apply hk
      refine ⟨?_, ht.symm⟩
      rw [← hreg x hx]
      exact hsame.2

theorem StateInv.add {c : Bool} {t : AtomicString} {pos n0 : Nat}
    {V0 : EventListenerVector} {f0 r0 : Bool} {m : Nat} {s : State}
    (h : StateInv c t pos n0 V0 f0 r0 m s) (hreg : ∀ x ∈ V0, x.use_capture = c)
    (t1 : AtomicString) (l : Option EventListener) (o : AddEventListenerOptions) :
    StateInv c t pos n0 V0 f0 r0 m (AddEventListenerInternal s t1 l o).2 := by
  cases l with
  | none => exact h
  | some l =>
    rw [AddEventListenerInternal_eq]
    have hcap : (RegisteredEventListener.Create l o).use_capture =
        decide (o.capture = some true) := capture_getD_eq_decide o.capture
    split
    · obtain ⟨it, hit, hn, hP, hf, hr⟩ := h
      refine ⟨it, ?_, hn, ?_, hf, hr⟩
      · exact (congrArg (fun x => List.get? x pos) (State.iterators_ensured s)).trans hit
      · have he : s.ensured.entry c t = s.entry c t := State.entry_ensured s c t
        have : PassInv t V0 m it (s.ensured.entry c t) (s.trace.drop n0) := by
          rw [he]; exact hP
        exact this
    · rename_i hm
      have hnone : indexOfMatch (s.entry (decide (o.capture = some true)) t1) l
          (o.capture.getD false) = none := by
        cases hx : indexOfMatch (s.entry (decide (o.capture = some true)) t1) l
          (o.capture.getD false) with
        | none => rfl
        | some k => rw [hx] at hm; simp at hm
      have hnew : ∀ x ∈ s.entry (RegisteredEventListener.Create l o).use_capture t1,
          ¬ sameRegistration x (RegisteredEventListener.Create l o) := by
        rw [hcap]
        intro x hx hsame
        exact indexOfMatch_none _ _ _ hnone x hx ⟨hsame.1, hsame.2⟩
      have hw := h.withListener hreg t1 (RegisteredEventListener.Create l o) hnew
      rw [hcap] at hw
      split
      · exact hw
      · exact hw

theorem runActions_type (nested : State → Event → DispatchOutcome) :
    ∀ (acts : List Action), (∀ a ∈ acts, a.isDispatch = false) → ∀ (s : State) (e : Event),
      (runActions nested acts s e).2.1.type = e.type := by
  intro acts
  induction acts with
  | nil => intro _ s e; rfl
  | cons a rest ih =>
    intro hno s e
    have hrest : ∀ a ∈ rest, a.isDispatch = false :=
      fun a ha => hno a (List.mem_cons_of_mem _ ha)
    have ha := hno a (List.mem_cons_self _ _)
    cases a with
    | addEventListener t l o => rw [runActions]; exact ih hrest _ _
    | removeEventListener t l c => rw [runActions]; exact ih hrest _ _
    | stopPropagation => rw [runActions, ih hrest]; rfl
    | stopImmediatePropagation => rw [runActions, ih hrest]; rfl
    | preventDefault =>
      rw [runActions, ih hrest]
      unfold Event.preventDefault
      split <;> rfl
    | dispatchEvent e1 => simp [Action.isDispatch] at ha
    | dispatchCurrent => simp [Action.isDispatch] at ha
    | raiseError => rfl

theorem StateInv.runActions {c : Bool} {t : AtomicString} {pos n0 : Nat}
    {V0 : EventListenerVector} {f0 r0 : Bool} {m : Nat}
    (hreg : ∀ x ∈ V0, x.use_capture = c) (nested : State → Event → DispatchOutcome) :
    ∀ (acts : List Action), (∀ a ∈ acts, a.isDispatch = false) → ∀ (s : State) (e : Event),
      StateInv c t pos n0 V0 f0 r0 m s →
      StateInv c t pos n0 V0 f0 r0 m (mercury.runActions nested acts s e).1 := by
  intro acts
  induction acts with
  | nil => intro _ s e h; exact h
  | cons a rest ih =>
    intro hno s e h
    have hrest : ∀ a ∈ rest, a.isDispatch = false :=
      fun a ha => hno a (List.mem_cons_of_mem _ ha)
    have ha := hno a (List.mem_cons_self _ _)
    cases a with
    | addEventListener t1 l o =>
      rw [mercury.runActions]
      exact ih hrest _ _ (h.add hreg t1 (some l) o)
    | removeEventListener t1 l c1 =>
      rw [mercury.runActions]
      exact ih hrest _ _ (h.remove t1 (some l) _)
    | stopPropagation => rw [mercury.runActions]; exact ih hrest _ _ h
    | stopImmediatePropagation => rw [mercury.runActions]; exact ih hrest _ _ h
    | preventDefault => rw [mercury.runActions]; exact ih hrest _ _ h
    | dispatchEvent e1 => simp [Action.isDispatch] at ha
    | dispatchCurrent => simp [Action.isDispatch] at ha
    | raiseError => exact h

/-- No call of `RemoveEventListenerInternal` changes the capturing registry,
whatever listener, options and capture flag it is given. -/
theorem RemoveEventListenerInternal_keeps_capturing_registry (s : State) (t t1 : AtomicString)
    (l : Option EventListener) (o : EventListenerOptions) :
    (RemoveEventListenerInternal s t l o).2.entry true t1 = s.entry true t1 := by
  cases l with
  | none => rfl
  | some l =>
    rw [RemoveEventListenerInternal_eq]
    cases indexOfMatch (s.entry false t) l (o.capture.getD false) with
    | none => rfl
    | some index =>
      dsimp only
      split
      · exact State.entry_withoutListener_capture s t t1 index
      · exact State.entry_withoutListener_capture s t t1 index

/-! ### The invariant holds across the firing loop -/

theorem Invoke_state (script : Script) (nested : State → Event → DispatchOutcome)
    (l : EventListener) (s : State) (e : Event) :
    (Invoke script nested l s e).1 = (runActions nested (script l) s e).1 ∨
    (Invoke script nested l s e).1 =
      { (runActions nested (script l) s e).1 with
        exception_state := some (PendingException.raisedBy l) } := by
  unfold Invoke
  dsimp only
  split
  · exact Or.inr rfl
  · exact Or.inl rfl

theorem StateInv.fireOne {c : Bool} {t : AtomicString} {pos n0 : Nat}
    {V0 : EventListenerVector} {f0 r0 : Bool} {m : Nat} {s : State}
    (h : StateInv c t pos n0 V0 f0 r0 m s) (hreg : ∀ x ∈ V0, x.use_capture = c)
    (script : Script) (hscript : ∀ l, ∀ a ∈ script l, a.isDispatch = false)
    (nested : State → Event → DispatchOutcome) (e : Event) (rl : RegisteredEventListener)
    (hrl0 : rl ∈ V0)
    (hrl : ∀ a, TraceItem.add t a ∈ s.trace.drop n0 → ¬ sameRegistration rl a) :
    StateInv c t pos n0 V0 f0 r0 m (mercury.fireOne script nested s e rl).1 ∧
    (mercury.fireOne script nested s e rl).2.type = e.type := by
  constructor
  · unfold mercury.fireOne
    dsimp only
    have h2 : ∀ s2 : State, StateInv c t pos n0 V0 f0 r0 m s2 → s2.trace = s.trace →
        StateInv c t pos n0 V0 f0 r0 m
          (Invoke script nested rl.callback (s2.logInvoke rl)
            (e.SetHandlingPassive (EventPassiveMode rl))).1 := by
      intro s2 hs2 htr
      have hlog : StateInv c t pos n0 V0 f0 r0 m (s2.logInvoke rl) := by
        obtain ⟨it, hit, hn, hP, hf, hr⟩ := hs2
        refine ⟨it, hit, ?_, ?_, hf, hr⟩
        · show n0 ≤ (s2.trace ++ [TraceItem.invoke rl]).length
          rw [List.length_append]; omega
        · show PassInv t V0 m it (s2.entry c t) ((s2.trace ++ [TraceItem.invoke rl]).drop n0)
          rw [List.drop_append_of_le_length hn]
          refine hP.logInvoke rl hrl0 ?_
          rw [htr]
          exact hrl
      have hrun := StateInv.runActions hreg nested (script rl.callback) (hscript rl.callback)
        (s2.logInvoke rl) (e.SetHandlingPassive (EventPassiveMode rl)) hlog
      rcases Invoke_state script nested rl.callback (s2.logInvoke rl)
        (e.SetHandlingPassive (EventPassiveMode rl)) with heq | heq
      · rw [heq]; exact hrun
      · rw [heq]; exact hrun
    split
    · exact h2 _ (h.remove _ _ _) (RemoveEventListenerInternal_trace _ _ _ _)
    · exact h2 s h rfl
  · unfold mercury.fireOne
    dsimp only [Event.SetHandlingPassive]
    rw [Invoke_event, runActions_type nested _ (hscript rl.callback)]

theorem StateInv.setIterator {c : Bool} {t : AtomicString} {pos n0 : Nat}
    {V0 : EventListenerVector} {f0 r0 : Bool} {m : Nat} {s : State} {it : FiringEventIterator}
    (h : StateInv c t pos n0 V0 f0 r0 (m + 1) s) (hit : s.iterators.get? pos = some it)
    (hlt : it.iterator < it.end_) :
    StateInv c t pos n0 V0 f0 r0 m (s.setIterator pos (it.iterator + 1)) := by
  obtain ⟨it1, hit1, hn, hP, hf, hr⟩ := h
  rw [hit] at hit1
  cases hit1
  refine ⟨{ it with iterator := it.iterator + 1 }, ?_, ?_, ?_, ?_, ?_⟩
  · rw [State.iterators_setIterator, hit]; rfl
  · rw [State.trace_setIterator]; exact hn
  · rw [State.trace_setIterator, State.entry_setIterator]
    exact hP.advance hlt
  · rw [State.out_of_fuel_setIterator]; exact hf
  · rw [State.out_of_range_setIterator]; exact hr

theorem fireLoop_StateInv {c : Bool} {t : AtomicString} {pos n0 : Nat}
    {V0 : EventListenerVector} {f0 r0 : Bool} (hreg : ∀ x ∈ V0, x.use_capture = c)
    (script : Script) (hscript : ∀ l, ∀ a ∈ script l, a.isDispatch = false)
    (nested : State → Event → DispatchOutcome) :
    ∀ (k : Nat) (s : State) (e : Event) (f : Bool), e.type = t →
      StateInv c t pos n0 V0 f0 r0 k s →
      StateInv c t pos n0 V0 f0 r0 k (fireLoop script nested c pos k s e f).1 := by
  intro k
  induction k with
  | zero =>
    intro s e f _ h
    obtain ⟨it, hit, hn, hP, hf, hr⟩ := h
    rw [fireLoop, hit]
    dsimp only
    have hnot : ¬ it.iterator < it.end_ := by
      have := hP.2.2.1
      omega
    have hcond : (decide (it.iterator < it.end_) && !e.ImmediatePropagationStopped) = false := by
      simp [hnot]
    rw [hcond]
    exact ⟨it, hit, hn, hP, hf, hr⟩
  | succ k ih =>
    intro s e f he h
    have h0 := h
    obtain ⟨it, hit, hn, hP, hf, hr⟩ := h
    rw [fireLoop, hit]
    dsimp only
    by_cases h1 : it.iterator < it.end_
    · rw [if_pos h1]
      by_cases h2 : e.ImmediatePropagationStopped = true
      · rw [if_pos h2]; exact h0
      · rw [if_neg h2]
        have hlen : it.iterator < (s.entry c e.type).length := by
          rw [he]
          have := hP.2.1
          omega
        cases hg : (s.entry c e.type).get? it.iterator with
        | none =>
          rw [List.get?_eq_none] at hg
          omega
        | some rl =>
          dsimp only
          have hs1 := h0.setIterator hit h1
          have hrl := hP.2.2.2.1 it.iterator rl h1 (by rw [← he]; exact hg)
          by_cases h3 : (!rl.ShouldFire e) = true
          · rw [if_pos h3]
            exact (ih _ _ _ he hs1).mono (Nat.le_succ k)
          · rw [if_neg h3]
            have hone := hs1.fireOne hreg script hscript nested e rl hrl.1
              (by rw [State.trace_setIterator]; exact hrl.2)
            exact (ih _ _ _ (hone.2.trans he) hone.1).mono (Nat.le_succ k)
    · rw [if_neg h1]; exact h0

/-! ### A whole pass -/

theorem State.iterators_pushIterator (s : State) (d : EventTargetData) (hd : s.data = some d)
    (it : FiringEventIterator) : (s.pushIterator it).iterators = s.iterators ++ [it] := by
  unfold State.pushIterator State.iterators
  simp [hd]

theorem State.entry_pushIterator (s : State) (it : FiringEventIterator) (c : Bool)
    (t : AtomicString) : (s.pushIterator it).entry c t = s.entry c t := by
  unfold State.pushIterator State.entry
  cases hd : s.data <;> simp [hd]

theorem State.trace_pushIterator (s : State) (it : FiringEventIterator) :
    (s.pushIterator it).trace = s.trace := by
  unfold State.pushIterator
  cases s.data <;> rfl

theorem State.out_of_fuel_pushIterator (s : State) (it : FiringEventIterator) :
    (s.pushIterator it).out_of_fuel = s.out_of_fuel := by
  unfold State.pushIterator
  cases s.data <;> rfl

theorem State.out_of_range_pushIterator (s : State) (it : FiringEventIterator) :
    (s.pushIterator it).out_of_range = s.out_of_range := by
  unfold State.pushIterator
  cases s.data <;> rfl

theorem PassResult.refl (s : State) (event : Event) (isCapture : Bool) :
    PassResult s event isCapture s := by
  refine ⟨?_, ?_, rfl, rfl⟩
  · rw [List.drop_length]; exact noInvocationAfterAdd_nil _
  · intro f hf
    rw [List.drop_length] at hf
    simp at hf

theorem FireEventListenersEntry_result (script : Script)
    (nested : State → Event → DispatchOutcome) (s : State) (event : Event) (isCapture : Bool)
    (hscript : ∀ l, ∀ a ∈ script l, a.isDispatch = false)
    (hreg : ∀ x ∈ s.entry isCapture event.type, x.use_capture = isCapture) :
    PassResult s event isCapture (FireEventListenersEntry script nested s event isCapture).1 := by
  unfold FireEventListenersEntry
  split
  · exact PassResult.refl s event isCapture
  · dsimp only
    cases hd : s.data with
    | none =>
      have hpush : s.pushIterator
          { event_type := event.type, iterator := 0
            end_ := (s.entry isCapture event.type).length } = s := by
        unfold State.pushIterator; rw [hd]
      have hnone : s.iterators.get? s.iterators.length = none := by
        rw [List.get?_eq_none]
      rw [hpush]
      have hloop : ∀ k f, fireLoop script nested isCapture s.iterators.length k s event f =
          (s, event, f) := by
        intro k f
        cases k <;> rw [fireLoop, hnone]
      rw [hloop]
      have hpop : s.popIterator = s := by unfold State.popIterator; rw [hd]
      dsimp only
      rw [hpop]
      exact PassResult.refl s event isCapture
    | some d =>
      have hinit : StateInv isCapture event.type s.iterators.length s.trace.length
          (s.entry isCapture event.type) s.out_of_fuel s.out_of_range
          (s.entry isCapture event.type).length
          (s.pushIterator
            { event_type := event.type, iterator := 0
              end_ := (s.entry isCapture event.type).length }) := by
        refine ⟨{ event_type := event.type, iterator := 0
                  end_ := (s.entry isCapture event.type).length }, ?_, ?_, ?_, ?_, ?_⟩
        · rw [State.iterators_pushIterator s d hd, List.get?_eq_getElem?,
            List.getElem?_concat_length]
        · rw [State.trace_pushIterator]
        · rw [State.trace_pushIterator, State.entry_pushIterator, List.drop_length]
          refine ⟨rfl, Nat.le_refl _, ?_, ?_, ?_, noInvocationAfterAdd_nil _⟩
          · exact Nat.sub_le _ _
          · intro j x _ hx
            rw [List.get?_eq_getElem?] at hx
            refine ⟨List.getElem?_mem hx, ?_⟩
            intro a ha
            simp at ha
          · intro f hf
            simp at hf
        · rw [State.out_of_fuel_pushIterator]
        · rw [State.out_of_range_pushIterator]
      have hfin := fireLoop_StateInv hreg script hscript nested _ _ event false rfl hinit
      obtain ⟨it, _, hn, hP, hf, hr⟩ := hfin
      refine ⟨?_, ?_, ?_, ?_⟩
      · rw [State.trace_popIterator]; exact hP.2.2.2.2.2
      · rw [State.trace_popIterator]; exact hP.2.2.2.2.1
      · rw [State.out_of_fuel_popIterator]; exact hf
      · rw [State.out_of_range_popIterator]; exact hr

/-- C6: in one pass of `FireEventListeners`, over the capturing or the
non-capturing registry, with callbacks that add and remove listeners in any
order (and may stop propagation, prevent the default or raise errors, but do not
dispatch), a listener that a callback registers for the event type of the pass
is never invoked later in that pass: in the log of the pass no invocation of a
listener follows a registration with the same callback and capture flag.
Besides, every listener the pass invokes was in the iterated sequence when the
pass started, and the pass runs to its end without reading past the sequence.
The registry iterated is assumed to hold listeners of its own capture flag
only, as `AddEventListenerInternal` fills it. -/
theorem listener_added_during_pass_is_not_invoked (script : Script)
    (nested : State → Event → DispatchOutcome) (s : State) (event : Event) (isCapture : Bool)
    (hscript : ∀ l, ∀ a ∈ script l, a.isDispatch = false)
    (hreg : ∀ x ∈ s.entry isCapture event.type, x.use_capture = isCapture) :
    (∀ (i j : Nat) (added fired : RegisteredEventListener), i < j →
      ((FireEventListeners script nested s event isCapture).2.1.trace.drop s.trace.length).get? i =
        some (TraceItem.add event.type added) →
      ((FireEventListeners script nested s event isCapture).2.1.trace.drop s.trace.length).get? j =
        some (TraceItem.invoke fired) →
      ¬ (fired.callback = added.callback ∧ fired.use_capture = added.use_capture)) ∧
    (∀ fired,
      TraceItem.invoke fired ∈
        (FireEventListeners script nested s event isCapture).2.1.trace.drop s.trace.length →
      fired ∈ s.entry isCapture event.type) ∧
    (FireEventListeners script nested s event isCapture).2.1.out_of_fuel = s.out_of_fuel ∧
    (FireEventListeners script nested s event isCapture).2.1.out_of_range = s.out_of_range := by
  have key : PassResult s event isCapture
      (FireEventListeners script nested s event isCapture).2.1 := by
    unfold FireEventListeners
    split
    · exact PassResult.refl s event isCapture
    · dsimp only
      split
      · exact FireEventListenersEntry_result script nested s event isCapture hscript hreg
      · exact PassResult.refl s event isCapture
  exact key

/-- C6, witness: a pass over the
non-capturing listeners A, B for "x" in which A removes B and then adds C.  The
pass invokes A only, and C is registered behind A when it ends. -/
theorem listener_added_during_pass_is_not_invoked_witness :
    (∀ l, ∀ a ∈ Sample.removesThenAdds l, a.isDispatch = false) ∧
    (∀ x ∈ Sample.twoListeners.entry false "x", x.use_capture = false) ∧
    PassResult Sample.twoListeners (Sample.hostEvent "x") false
      (FireEventListeners Sample.removesThenAdds (nestedDispatch Sample.removesThenAdds 0)
        Sample.twoListeners (Sample.hostEvent "x") false).2.1 ∧
    Sample.twoListeners.invokedSince
      (FireEventListeners Sample.removesThenAdds (nestedDispatch Sample.removesThenAdds 0)
        Sample.twoListeners (Sample.hostEvent "x") false).2.1 = [Sample.listenerA] ∧
    (FireEventListeners Sample.removesThenAdds (nestedDispatch Sample.removesThenAdds 0)
        Sample.twoListeners (Sample.hostEvent "x") false).2.1.registered false "x" =
      [Sample.listenerA, Sample.listenerC] :=
  have h1 : ∀ l, ∀ a ∈ Sample.removesThenAdds l, a.isDispatch = false := by
    intro l a ha
    unfold Sample.removesThenAdds at ha
    split at ha
    · simp at ha
      rcases ha with rfl | rfl <;> rfl
    · simp at ha
  have h2 : ∀ x ∈ Sample.twoListeners.entry false "x", x.use_capture = false := by decide
  ⟨h1, h2,
    listener_added_during_pass_is_not_invoked Sample.removesThenAdds
      (nestedDispatch Sample.removesThenAdds 0) Sample.twoListeners (Sample.hostEvent "x") false
      h1 h2,
    by decide, by decide⟩

/-! ### Registries hold listeners of their own capture flag

The assumption made on the iterated registry is an invariant of the target: it
holds when the target has no listener data and every registration and removal
keeps it. -/

theorem State.consistent_of_no_data (s : State) (h : s.data = none) : s.consistent := by
  intro c t x hx
  rw [State.entry_none s h] at hx
  simp at hx

theorem State.consistent_add (s : State) (h : s.consistent) (t : AtomicString)
    (l : Option EventListener) (o : AddEventListenerOptions) :
    (AddEventListenerInternal s t l o).2.consistent := by
  cases l with
  | none => exact h
  | some l =>
    rw [AddEventListenerInternal_eq]
    have hcap : (RegisteredEventListener.Create l o).use_capture =
        decide (o.capture = some true) := capture_getD_eq_decide o.capture
    have hw : (s.withListener (decide (o.capture = some true)) t
        (RegisteredEventListener.Create l o)).consistent := by
      intro c t1 x hx
      by_cases hk : c = decide (o.capture = some true) ∧ t1 = t
      · obtain ⟨hc, ht⟩ := hk
        subst ht
        rw [hc, State.withListener_entry_same] at hx
        rcases List.mem_append.mp hx with hx | hx
        · rw [hc]; exact h _ _ x hx
        · simp at hx
          rw [hx, hcap, hc]
      · rw [State.entry_withListener_ne _ _ _ _ _ _ hk] at hx
        exact h c t1 x hx
    split
    · intro c t1 x hx
      have he : s.ensured.entry c t1 = s.entry c t1 := State.entry_ensured s c t1
      exact h c t1 x (he ▸ hx)
    · split
      · exact hw
      · exact hw

theorem State.consistent_remove (s : State) (h : s.consistent) (t : AtomicString)
    (l : Option EventListener) (o : EventListenerOptions) :
    (RemoveEventListenerInternal s t l o).2.consistent := by
  cases l with
  | none => exact h
  | some l =>
    rw [RemoveEventListenerInternal_eq]
    cases indexOfMatch (s.entry false t) l (o.capture.getD false) with
    | none => exact h
    | some index =>
      have hw : (s.withoutListener t index).consistent := by
        intro c t1 x hx
        cases c with
        | true =>
          rw [State.entry_withoutListener_capture] at hx
          exact h true t1 x hx
        | false =>
          by_cases ht : t1 = t
          · subst ht
            rw [State.entry_withoutListener_same] at hx
            exact h false t1 x (List.mem_of_mem_eraseIdx hx)
          · rw [State.entry_withoutListener_ne _ _ _ _ ht] at hx
            exact h false t1 x hx
      dsimp only
      split
      · exact hw
      · exact hw

/-! ### The dispatch outcome -/

theorem GetDispatchEventResult_eq (event : Event) :
    GetDispatchEventResult event =
      if event.default_prevented = true then DispatchEventResult.kCanceledByEventHandler
      else if event.default_handled = true then DispatchEventResult.kCanceledByDefaultEventHandler
      else DispatchEventResult.kNotCanceled := rfl

theorem FireEventListenersBubble_result (script : Script)
    (nested : State → Event → DispatchOutcome) (s : State) (event : Event) :
    (FireEventListenersBubble script nested s event).1 =
      if s.data.isSome = true then
        GetDispatchEventResult (FireEventListenersBubble script nested s event).2.2
      else DispatchEventResult.kNotCanceled := by
  unfold FireEventListenersBubble
  cases s.data with
  | none => rfl
  | some d => rfl

theorem FireEventListeners_result (script : Script)
    (nested : State → Event → DispatchOutcome) (s : State) (event : Event) (isCapture : Bool) :
    (FireEventListeners script nested s event isCapture).1 =
      if s.data.isSome = true then
        GetDispatchEventResult (FireEventListeners script nested s event isCapture).2.2
      else DispatchEventResult.kNotCanceled := by
  unfold FireEventListeners
  cases s.data with
  | none => rfl
  | some d => rfl

/-- C11: the outcome of a dispatch is a total three-way function of the flags
the event has once the listeners have run: `kCanceledByEventHandler` if the
event is default-prevented, whether or not it is also default-handled, otherwise
`kCanceledByDefaultEventHandler` if it is default-handled, otherwise
`kNotCanceled`; and a target without listener data yields `kNotCanceled`.  This
holds for the pass over the non-capturing registry, for the pass over the
registry selected by a capture flag, and for `DispatchEventInternal`. -/
theorem dispatch_outcome_is_three_way (script : Script)
    (nested : State → Event → DispatchOutcome) (s : State) (event : Event) (isCapture : Bool) :
    (FireEventListenersBubble script nested s event).1 =
      (if s.data.isSome = false then DispatchEventResult.kNotCanceled
       else if (FireEventListenersBubble script nested s event).2.2.default_prevented = true then
         DispatchEventResult.kCanceledByEventHandler
       else if (FireEventListenersBubble script nested s event).2.2.default_handled = true then
         DispatchEventResult.kCanceledByDefaultEventHandler
       else DispatchEventResult.kNotCanceled) ∧
    (FireEventListeners script nested s event isCapture).1 =
      (if s.data.isSome = false then DispatchEventResult.kNotCanceled
       else if (FireEventListeners script nested s event isCapture).2.2.default_prevented = true
       then DispatchEventResult.kCanceledByEventHandler
       else if (FireEventListeners script nested s event isCapture).2.2.default_handled = true
       then DispatchEventResult.kCanceledByDefaultEventHandler
       else DispatchEventResult.kNotCanceled) ∧
    (DispatchEventInternal script nested s event).1 =
      (if s.data.isSome = false then DispatchEventResult.kNotCanceled
       else if (DispatchEventInternal script nested s event).2.2.default_prevented = true then
         DispatchEventResult.kCanceledByEventHandler
       else if (DispatchEventInternal script nested s event).2.2.default_handled = true then
         DispatchEventResult.kCanceledByDefaultEventHandler
       else DispatchEventResult.kNotCanceled) := by
  refine ⟨?_, ?_, ?_⟩
  · rw [FireEventListenersBubble_result, GetDispatchEventResult_eq]
    cases s.data <;> simp
  · rw [FireEventListeners_result, GetDispatchEventResult_eq]
    cases s.data <;> simp
  · unfold DispatchEventInternal
    dsimp only [Event.SetEventPhase]
    rw [FireEventListenersBubble_result, GetDispatchEventResult_eq]
    cases s.data <;> simp

/-! ### Removing a listener that is not registered -/

theorem indexOfMatch_eq_none_of_callback (v : EventListenerVector) (l : EventListener) (c : Bool)
    (h : ∀ x ∈ v, x.callback ≠ l) : indexOfMatch v l c = none := by
  induction v with
  | nil => rfl
  | cons x rest ih =>
    have hx : x.Matches l c = false := by
      have := h x (List.mem_cons_self _ _)
      simp [RegisteredEventListener.Matches, this]
    have hrest := ih (fun y hy => h y (List.mem_cons_of_mem _ hy))
    simp [indexOfMatch, hx, hrest]

/-- C16: `removeEventListener` for a null listener, or on a target without
listener data, or for a listener that is not registered for the event type in
the registry its capture flag selects (never added, or removed since) returns
false and leaves the target exactly as it was: no command is appended, both
registries and every firing iterator keep their value.  The functions never
write to the exception state.  Each registry is taken to hold listeners of its
own capture flag only, as `AddEventListenerInternal` fills them. -/
theorem removeEventListener_of_unregistered_listener (s : State) (event_type : AtomicString)
    (listener : Option EventListener) (options : EventListenerOptions)
    (h : listener = none ∨ s.data = none ∨
      (s.consistent ∧
        ∀ x ∈ s.entry (options.capture.getD false) event_type, some x.callback ≠ listener)) :
    RemoveEventListenerInternal s event_type listener options = (false, s) := by
  cases listener with
  | none => rfl
  | some l =>
    rcases h with h | h | ⟨hcons, hnot⟩
    · cases h
    · unfold RemoveEventListenerInternal
      rw [h]
    · rw [RemoveEventListenerInternal_eq]
      have hnone : indexOfMatch (s.entry false event_type) l (options.capture.getD false) =
          none := by
        cases hc : options.capture.getD false with
        | false =>
          rw [hc] at hnot
          apply indexOfMatch_eq_none_of_callback
          intro x hx hxl
          exact hnot x hx (by rw [hxl])
        | true =>
          apply indexOfMatch_eq_none
          intro x hx
          rw [hcons false event_type x hx]
          simp
      rw [hnone]

/-- C16, witness: B was never added to the target that holds the capturing
listener A for "x"; removing B, with either capture flag, returns false and
changes nothing. -/
theorem removeEventListener_of_unregistered_listener_witness :
    (Sample.oneCapturing.consistent ∧
      ∀ x ∈ Sample.oneCapturing.entry
          ((EventListenerOptions.Create.setCapture true).capture.getD false) "x",
        some x.callback ≠ some Sample.listenerB) ∧
    RemoveEventListenerInternal Sample.oneCapturing "x" (some Sample.listenerB)
      (EventListenerOptions.Create.setCapture true) = (false, Sample.oneCapturing) :=
  have h : Sample.oneCapturing.consistent ∧
      ∀ x ∈ Sample.oneCapturing.entry
          ((EventListenerOptions.Create.setCapture true).capture.getD false) "x",
        some x.callback ≠ some Sample.listenerB :=
    ⟨State.consistent_add _ (State.consistent_of_no_data Sample.target rfl) _ _ _, by decide⟩
  ⟨h, removeEventListener_of_unregistered_listener Sample.oneCapturing "x"
    (some Sample.listenerB) (EventListenerOptions.Create.setCapture true) (Or.inr (Or.inr h))⟩

/-! ### Timers -/

theorem Timer.Fire_of_terminated (t : Timer) (ctx : TimerContext)
    (h : t.status_ = TimerStatus.kTerminated) : t.Fire ctx = (t, ctx) := by
  unfold Timer.Fire
  rw [if_pos h]

theorem Timer.Fire_of_function (t : Timer) (ctx : TimerContext) (callback : QJSFunction)
    (hs : t.status_ ≠ TimerStatus.kTerminated) (hc : t.callback_ = some callback)
    (hf : callback.is_function = true) :
    t.Fire ctx =
      (t, { invoked := ctx.invoked ++ [callback]
            handled_exceptions :=
              ctx.handled_exceptions ++ (if callback.raises = true then [callback] else [])
            null_callback_used := ctx.null_callback_used }) := by
  unfold Timer.Fire
  rw [if_neg hs, hc]
  cases hr : callback.raises <;> simp [hf, hr]

theorem Timer.Fire_of_non_function (t : Timer) (ctx : TimerContext) (callback : QJSFunction)
    (hc : t.callback_ = some callback) (hf : callback.is_function = false) :
    t.Fire ctx = (t, ctx) := by
  unfold Timer.Fire
  split
  · rfl
  · rw [hc]
    simp [hf]

/-- C17: `Fire` on a timer that has been terminated invokes no callback and
changes neither the timer nor its context, whatever the timer was before
`Terminate`; and `Terminate` called twice leaves the timer as `Terminate`
called once does: callback reference cleared, status terminated, kind and
identifier untouched. -/
theorem fire_after_terminate_does_nothing (t : Timer) (ctx : TimerContext) :
    t.Terminate.Fire ctx = (t.Terminate, ctx) ∧
    t.Terminate.Terminate = t.Terminate ∧
    t.Terminate.callback_ = none ∧
    t.Terminate.status_ = TimerStatus.kTerminated ∧
    t.Terminate.kind_ = t.kind_ ∧
    t.Terminate.timer_id_ = t.timer_id_ :=
  ⟨Timer.Fire_of_terminated _ _ rfl, rfl, rfl, rfl, rfl, rfl⟩

/-- C18, counterexample: `Fire` on a timer whose status is finished and whose
callback is a function invokes the callback. -/
theorem fire_on_finished_timer_invokes_callback :
    Sample.finishedTimer.status_ = TimerStatus.kFinished ∧
    (Sample.finishedTimer.Fire Sample.timerContext).2.invoked = [Sample.callback] := by
  decide

/-- C18, amended: `Fire` on a timer whose status is finished is not a no-op.
`Fire` looks for the status terminated only, so on a finished timer bound to a
function it invokes that function exactly once, hands its error, if it raises
one, to the context, and leaves the timer as it was, status included. -/
theorem fire_on_finished_timer (t : Timer) (ctx : TimerContext) (callback : QJSFunction)
    (hs : t.status_ = TimerStatus.kFinished) (hc : t.callback_ = some callback)
    (hf : callback.is_function = true) :
    (t.Fire ctx).2.invoked = ctx.invoked ++ [callback] ∧
    (t.Fire ctx).2.handled_exceptions =
      ctx.handled_exceptions ++ (if callback.raises = true then [callback] else []) ∧
    (t.Fire ctx).1 = t := by
  have hne : t.status_ ≠ TimerStatus.kTerminated := by rw [hs]; decide
  rw [Timer.Fire_of_function t ctx callback hne hc hf]
  exact ⟨rfl, rfl, rfl⟩

/-- C18, witness of the amended statement: the finished sample timer. -/
theorem fire_on_finished_timer_witness :
    Sample.finishedTimer.status_ = TimerStatus.kFinished ∧
    Sample.finishedTimer.callback_ = some Sample.callback ∧
    Sample.callback.is_function = true ∧
    (Sample.finishedTimer.Fire Sample.timerContext).2.invoked = [] ++ [Sample.callback] ∧
    (Sample.finishedTimer.Fire Sample.timerContext).1 = Sample.finishedTimer :=
  ⟨rfl, rfl, rfl,
    (fire_on_finished_timer Sample.finishedTimer Sample.timerContext Sample.callback
      rfl rfl rfl).1,
    (fire_on_finished_timer Sample.finishedTimer Sample.timerContext Sample.callback
      rfl rfl rfl).2.2⟩

/-- C19, counterexample: `Fire` on a pending timer whose bound value is not a
function invokes nothing. -/
theorem fire_without_function_invokes_nothing :
    Sample.pendingTimerWithoutFunction.status_ ≠ TimerStatus.kTerminated ∧
    Sample.pendingTimerWithoutFunction.callback_ = some Sample.notAFunction ∧
    (Sample.pendingTimerWithoutFunction.Fire Sample.timerContext).2.invoked = [] := by
  decide

/-- C19, amended: `Fire` on a timer whose status is not terminated and whose
bound callback is a function invokes that callback exactly once; if the
invocation raises an error, the error is handed to the owning context's error
channel, and only then; in both cases `Fire` returns to its caller with the
timer as it was.  When the bound value is not a function `Fire` invokes
nothing. -/
theorem fire_invokes_bound_function_once (t : Timer) (ctx : TimerContext)
    (callback : QJSFunction) (hs : t.status_ ≠ TimerStatus.kTerminated)
    (hc : t.callback_ = some callback) :
    (t.Fire ctx).1 = t ∧
    (t.Fire ctx).2.invoked =
      ctx.invoked ++ (if callback.is_function = true then [callback] else []) ∧
    (t.Fire ctx).2.handled_exceptions =
      ctx.handled_exceptions ++
        (if callback.is_function = true ∧ callback.raises = true then [callback] else []) ∧
    (t.Fire ctx).2.null_callback_used = ctx.null_callback_used := by
  cases hf : callback.is_function with
  | false =>
    rw [Timer.Fire_of_non_function t ctx callback hc hf]
    simp
  | true =>
    rw [Timer.Fire_of_function t ctx callback hs hc hf]
    simp

/-- C19, witness of the amended statement: a pending timer bound to a function
that raises; the function is invoked once and its error reaches the context. -/
theorem fire_invokes_bound_function_once_witness :
    Sample.pendingRaisingTimer.status_ ≠ TimerStatus.kTerminated ∧
    Sample.pendingRaisingTimer.callback_ = some Sample.raisingCallback ∧
    (Sample.pendingRaisingTimer.Fire Sample.timerContext).2.invoked =
      [Sample.raisingCallback] ∧
    (Sample.pendingRaisingTimer.Fire Sample.timerContext).2.handled_exceptions =
      [Sample.raisingCallback] :=
  ⟨by decide, rfl,
    (fire_invokes_bound_function_once Sample.pendingRaisingTimer Sample.timerContext
      Sample.raisingCallback (by decide) rfl).2.1,
    (fire_invokes_bound_function_once Sample.pendingRaisingTimer Sample.timerContext
      Sample.raisingCallback (by decide) rfl).2.2.1⟩

/-! ### The result reported to the host -/

/-- C12: for every host-originated dispatch whose arguments are an event type,
a raw event descriptor and a capture flag, the result reported to the host has
`canceled` set exactly when the dispatch result of the pass is
`kCanceledByEventHandler`, that is when the target has listener data and the
event is default-prevented once the listeners have run, and
`propagationStopped` equal to the propagation-stopped flag of the event once
the listeners have run.  An event that is only default-handled is reported with
`canceled = false`, since the default-handled flag does not enter the result. -/
theorem host_dispatch_reports_cancellation_and_propagation (script : Script)
    (nested : State → Event → DispatchOutcome) (s : State) (event_type : AtomicString)
    (raw_event : RawEvent) (isCapture : Bool) (more : List NativeValue) :
    ∃ o, HandleDispatchEventFromDart script nested s
        (NativeValue.string event_type :: NativeValue.rawEvent raw_event ::
          NativeValue.bool isCapture :: more) = Except.ok o ∧
      o.value = NativeValue.eventDispatchResult
        { canceled :=
            decide ((FireEventListeners script nested { s with exception_state := none }
              (hostEvent event_type raw_event) isCapture).1 =
                DispatchEventResult.kCanceledByEventHandler)
          propagationStopped :=
            (FireEventListeners script nested { s with exception_state := none }
              (hostEvent event_type raw_event) isCapture).2.2.propagation_stopped } ∧
      decide ((FireEventListeners script nested { s with exception_state := none }
          (hostEvent event_type raw_event) isCapture).1 =
            DispatchEventResult.kCanceledByEventHandler) =
        (s.data.isSome &&
          (FireEventListeners script nested { s with exception_state := none }
            (hostEvent event_type raw_event) isCapture).2.2.default_prevented) ∧
      o.state =
        { (FireEventListeners script nested { s with exception_state := none }
            (hostEvent event_type raw_event) isCapture).2.1.reportPending with
          exception_state := s.exception_state } := by
  refine ⟨_, rfl, ?_, ?_, rfl⟩
  · dsimp only [Event.propagationStopped, Event.SetEventPhase]
    congr 2
  · have hd : s.data.isSome = ({ s with exception_state := none } : State).data.isSome := rfl
    rw [hd]
    generalize ({ s with exception_state := none } : State) = s0
    rw [FireEventListeners_result, GetDispatchEventResult_eq]
    cases s0.data <;>
      cases (FireEventListeners script nested s0 (hostEvent event_type raw_event)
        isCapture).2.2.default_prevented <;>
      cases (FireEventListeners script nested s0 (hostEvent event_type raw_event)
        isCapture).2.2.default_handled <;> simp
/-! ### The firing iterators across a pass -/

theorem adjustIterator_iterator_le (t : AtomicString) (index : Nat) (it : FiringEventIterator) :
    (adjustIterator t index it).iterator ≤ it.iterator := by
  unfold adjustIterator
  split
  · exact Nat.le_refl _
  · split
    · exact Nat.le_refl _
    · dsimp only
      split
      · exact Nat.sub_le _ _
      · exact Nat.le_refl _

theorem IteratorsKept.same (s : State) : IteratorsKept s s := by
  intro n
  exact ⟨rfl, fun i it _ h => ⟨it, h, rfl, Nat.le_refl _, Nat.le_refl _⟩⟩

theorem IteratorsKept.of_eq {s s1 : State} (h : s1.iterators = s.iterators) :
    IteratorsKept s s1 := by
  intro n
  refine ⟨by rw [h], fun i it _ hi => ⟨it, ?_, rfl, Nat.le_refl _, Nat.le_refl _⟩⟩
  rw [h]; exact hi

theorem IteratorsKeptBelow.andThenBelow {n : Nat} {s s1 s2 : State} (h1 : IteratorsKeptBelow n s s1)
    (h2 : IteratorsKeptBelow n s1 s2) : IteratorsKeptBelow n s s2 := by
  refine ⟨h2.1.trans h1.1, ?_⟩
  intro i it hi hit
  obtain ⟨it1, hit1, ht1, he1, hc1⟩ := h1.2 i it hi hit
  obtain ⟨it2, hit2, ht2, he2, hc2⟩ := h2.2 i it1 hi hit1
  exact ⟨it2, hit2, ht2.trans ht1, Nat.le_trans he2 he1, Nat.le_trans hc2 hc1⟩

theorem IteratorsKept.andThen {s s1 s2 : State} (h1 : IteratorsKept s s1)
    (h2 : IteratorsKept s1 s2) : IteratorsKept s s2 :=
  fun n => (h1 n).andThenBelow (h2 n)

theorem IteratorsKept.of_withoutListener (s : State) (t : AtomicString) (index : Nat) :
    IteratorsKept s (s.withoutListener t index) := by
  intro n
  rw [IteratorsKeptBelow, State.iterators_withoutListener]
  refine ⟨List.length_map _ _, ?_⟩
  intro i it _ hit
  refine ⟨adjustIterator t index it, ?_, adjustIterator_event_type _ _ _,
    adjustIterator_end_le _ _ _, adjustIterator_iterator_le _ _ _⟩
  rw [List.get?_eq_getElem?, List.getElem?_map, ← List.get?_eq_getElem?, hit]
  rfl

theorem IteratorsKept.of_remove (s : State) (t : AtomicString) (l : Option EventListener)
    (o : EventListenerOptions) : IteratorsKept s (RemoveEventListenerInternal s t l o).2 := by
  cases l with
  | none => exact IteratorsKept.same s
  | some l =>
    rw [RemoveEventListenerInternal_eq]
    cases indexOfMatch (s.entry false t) l (o.capture.getD false) with
    | none => exact IteratorsKept.same s
    | some index =>
      dsimp only
      split
      · exact IteratorsKept.of_withoutListener s t index
      · exact IteratorsKept.of_withoutListener s t index

theorem IteratorsKept.of_add (s : State) (t : AtomicString) (l : Option EventListener)
    (o : AddEventListenerOptions) : IteratorsKept s (AddEventListenerInternal s t l o).2 := by
  cases l with
  | none => exact IteratorsKept.same s
  | some l =>
    rw [AddEventListenerInternal_eq]
    split
    · exact IteratorsKept.of_eq (State.iterators_ensured s)
    · split
      · exact IteratorsKept.of_eq (State.iterators_withListener s _ _ _)
      · exact IteratorsKept.of_eq (State.iterators_withListener s _ _ _)

theorem IteratorsKept.of_runActions (nested : State → Event → DispatchOutcome)
    (hn : ∀ s e, IteratorsKept s (nested s e).state) :
    ∀ (acts : List Action) (s : State) (e : Event),
      IteratorsKept s (mercury.runActions nested acts s e).1 := by
  intro acts
  induction acts with
  | nil => intro s e; exact IteratorsKept.same s
  | cons a rest ih =>
    intro s e
    cases a with
    | addEventListener t l o =>
      rw [mercury.runActions]
      exact (IteratorsKept.of_add s t (some l) o).andThen (ih _ _)
    | removeEventListener t l c =>
      rw [mercury.runActions]
      exact (IteratorsKept.of_remove s t (some l) _).andThen (ih _ _)
    | stopPropagation => rw [mercury.runActions]; exact ih _ _
    | stopImmediatePropagation => rw [mercury.runActions]; exact ih _ _
    | preventDefault => rw [mercury.runActions]; exact ih _ _
    | dispatchEvent e1 =>
      rw [mercury.runActions]
      split
      · exact hn s e1
      · exact (hn s e1).andThen (ih _ _)
    | dispatchCurrent =>
      rw [mercury.runActions]
      split
      · exact hn s e
      · exact (hn s e).andThen (ih _ _)
    | raiseError => exact IteratorsKept.same s

theorem IteratorsKept.of_fireOne (script : Script) (nested : State → Event → DispatchOutcome)
    (hn : ∀ s e, IteratorsKept s (nested s e).state) (s : State) (e : Event)
    (rl : RegisteredEventListener) :
    IteratorsKept s (mercury.fireOne script nested s e rl).1 := by
  unfold mercury.fireOne
  dsimp only
  have h2 : ∀ s2 : State, IteratorsKept s s2 →
      IteratorsKept s (Invoke script nested rl.callback (s2.logInvoke rl)
        (e.SetHandlingPassive (EventPassiveMode rl))).1 := by
    intro s2 hs2
    have hrun := IteratorsKept.of_runActions nested hn (script rl.callback) (s2.logInvoke rl)
      (e.SetHandlingPassive (EventPassiveMode rl))
    have hlog : IteratorsKept s2 (s2.logInvoke rl) := IteratorsKept.of_eq rfl
    rcases Invoke_state script nested rl.callback (s2.logInvoke rl)
      (e.SetHandlingPassive (EventPassiveMode rl)) with heq | heq
    · rw [heq]; exact hs2.andThen (hlog.andThen hrun)
    · rw [heq]
      exact hs2.andThen (hlog.andThen (hrun.andThen (IteratorsKept.of_eq rfl)))
  split
  · exact h2 _ (IteratorsKept.of_remove s _ _ _)
  · exact h2 s (IteratorsKept.same s)

theorem State.iterators_length_setIterator (s : State) (pos i : Nat) :
    (s.setIterator pos i).iterators.length = s.iterators.length := by
  unfold State.setIterator State.iterators
  cases hd : s.data with
  | none => simp [hd]
  | some d => cases hf : d.firing_event_iterators <;> simp [hf]

theorem State.iterators_setIterator_ne (s : State) (pos i j : Nat) (h : j ≠ pos) :
    (s.setIterator pos i).iterators.get? j = s.iterators.get? j := by
  unfold State.setIterator State.iterators
  cases hd : s.data with
  | none => simp [hd]
  | some d =>
    cases hf : d.firing_event_iterators with
    | none => simp [hf]
    | some l =>
      simp only [hf, Option.map_some', Option.getD_some, List.get?_eq_getElem?]
      exact List.getElem?_modify_ne _ _ (Ne.symm h)

theorem IteratorsKeptBelow.of_setIterator (s : State) (pos i : Nat) :
    IteratorsKeptBelow pos s (s.setIterator pos i) := by
  refine ⟨State.iterators_length_setIterator s pos i, ?_⟩
  intro j it hj hit
  refine ⟨it, ?_, rfl, Nat.le_refl _, Nat.le_refl _⟩
  rw [State.iterators_setIterator_ne s pos i j (by omega)]
  exact hit

theorem IteratorsKeptBelow.fireLoop (script : Script) (nested : State → Event → DispatchOutcome)
    (hn : ∀ s e, IteratorsKept s (nested s e).state) (isCapture : Bool) (pos k : Nat)
    (s : State) (e : Event) (f : Bool) :
    IteratorsKeptBelow pos s (mercury.fireLoop script nested isCapture pos k s e f).1 := by
  refine fireLoop_preserves script nested isCapture pos
    (fun s1 _ => IteratorsKeptBelow pos s s1) ?_ ?_ ?_ ?_ k s e f (IteratorsKept.same s pos)
  · intro s1 _ h; exact h
  · intro s1 _ h; exact h
  · intro s1 _ i h; exact h.andThenBelow (IteratorsKeptBelow.of_setIterator s1 pos i)
  · intro s1 e1 rl h; exact h.andThenBelow (IteratorsKept.of_fireOne script nested hn s1 e1 rl pos)

theorem State.iterators_popIterator (s : State) :
    s.popIterator.iterators = s.iterators.dropLast := by
  unfold State.popIterator State.iterators
  cases hd : s.data with
  | none => simp [hd]
  | some d => cases hf : d.firing_event_iterators <;> simp [hf]

theorem IteratorsKept.FireEventListenersEntry (script : Script)
    (nested : State → Event → DispatchOutcome)
    (hn : ∀ s e, IteratorsKept s (nested s e).state) (s : State) (e : Event)
    (isCapture : Bool) :
    IteratorsKept s (mercury.FireEventListenersEntry script nested s e isCapture).1 := by
  unfold mercury.FireEventListenersEntry
  split
  · exact IteratorsKept.same s
  · dsimp only
    cases hd : s.data with
    | none =>
      have hpush : s.pushIterator
          { event_type := e.type, iterator := 0, end_ := (s.entry isCapture e.type).length } =
          s := by
        unfold State.pushIterator; rw [hd]
      have hnone : s.iterators.get? s.iterators.length = none := by
        rw [List.get?_eq_none]
      rw [hpush]
      have hloop : ∀ k f, mercury.fireLoop script nested isCapture s.iterators.length k s e f =
          (s, e, f) := by
        intro k f
        cases k <;> rw [mercury.fireLoop, hnone]
      rw [hloop]
      have hpop : s.popIterator = s := by unfold State.popIterator; rw [hd]
      dsimp only
      rw [hpop]
      exact IteratorsKept.same s
    | some d =>
      have hloop := IteratorsKeptBelow.fireLoop script nested hn isCapture s.iterators.length
        (s.entry isCapture e.type).length
        (s.pushIterator
          { event_type := e.type, iterator := 0, end_ := (s.entry isCapture e.type).length })
        e false
      rw [IteratorsKeptBelow, State.iterators_pushIterator s d hd] at hloop
      obtain ⟨hlen, hget⟩ := hloop
      rw [List.length_append, List.length_singleton] at hlen
      intro n
      rw [IteratorsKeptBelow, State.iterators_popIterator]
      refine ⟨?_, ?_⟩
      · rw [List.length_dropLast, hlen]; rfl
      · intro i it _ hit
        have hi : i < s.iterators.length := by
          rw [List.get?_eq_getElem?] at hit
          by_contra hcon
          rw [List.getElem?_eq_none (by omega)] at hit
          cases hit
        obtain ⟨it1, hit1, hrest⟩ := hget i it hi (by
          rw [List.get?_eq_getElem?, List.getElem?_append_left hi, ← List.get?_eq_getElem?]
          exact hit)
        refine ⟨it1, ?_, hrest⟩
        rw [List.get?_eq_getElem?] at hit1 ⊢
        rw [List.getElem?_dropLast, if_pos (by omega)]
        exact hit1

theorem IteratorsKept.FireEventListenersBubble (script : Script)
    (nested : State → Event → DispatchOutcome)
    (hn : ∀ s e, IteratorsKept s (nested s e).state) (s : State) (e : Event) :
    IteratorsKept s (mercury.FireEventListenersBubble script nested s e).2.1 := by
  unfold mercury.FireEventListenersBubble
  split
  · exact IteratorsKept.same s
  · dsimp only
    split
    · exact IteratorsKept.FireEventListenersEntry script nested hn s e false
    · exact IteratorsKept.same s

theorem IteratorsKept.FireEventListeners (script : Script)
    (nested : State → Event → DispatchOutcome)
    (hn : ∀ s e, IteratorsKept s (nested s e).state) (s : State) (e : Event)
    (isCapture : Bool) :
    IteratorsKept s (mercury.FireEventListeners script nested s e isCapture).2.1 := by
  unfold mercury.FireEventListeners
  split
  · exact IteratorsKept.same s
  · dsimp only
    split
    · exact IteratorsKept.FireEventListenersEntry script nested hn s e isCapture
    · exact IteratorsKept.same s

theorem IteratorsKept.dispatchEvent (script : Script)
    (nested : State → Event → DispatchOutcome)
    (hn : ∀ s e, IteratorsKept s (nested s e).state) (s : State) (e : Event) :
    IteratorsKept s (mercury.dispatchEvent script nested s e).state := by
  unfold mercury.dispatchEvent
  split
  · exact IteratorsKept.same s
  · split
    · exact IteratorsKept.same s
    · split
      · exact IteratorsKept.same s
      · exact IteratorsKept.FireEventListenersBubble script nested hn
          { s with exception_state := none } _

theorem IteratorsKept.nestedDispatch (script : Script) (depth : Nat) (s : State) (e : Event) :
    IteratorsKept s (mercury.nestedDispatch script depth s e).state := by
  induction depth generalizing s e with
  | zero => exact IteratorsKept.of_eq rfl
  | succ n ih =>
    rw [mercury.nestedDispatch]
    exact IteratorsKept.dispatchEvent script _ (fun s1 e1 => ih s1 e1) s e

theorem IteratorsKept.event_types {s s1 : State} (h : IteratorsKept s s1) :
    s1.iterators.map FiringEventIterator.event_type =
      s.iterators.map FiringEventIterator.event_type := by
  apply List.ext_getElem?
  intro i
  rw [List.getElem?_map, List.getElem?_map]
  cases hi : s.iterators[i]? with
  | none =>
    have hlen := (h 0).1
    rw [List.getElem?_eq_none_iff] at hi
    rw [List.getElem?_eq_none (by omega)]
  | some it =>
    obtain ⟨it1, hit1, ht, _, _⟩ := (h (i + 1)).2 i it (by omega)
      (by rw [List.get?_eq_getElem?]; exact hi)
    rw [List.get?_eq_getElem?] at hit1
    rw [hit1]
    simp [ht]

/-- C20, counterexample: a pass for "y" started from inside a pass for "x"
finds the iterator of the enclosing pass with cursor 1 and end 2 in the list;
the listener it invokes removes a listener for "x", and when the pass for "y"
is over the list holds that iterator with end 1. -/
theorem enclosing_iterator_is_adjusted_by_nested_pass :
    Sample.insidePass.iterators = [{ event_type := "x", iterator := 1, end_ := 2 }] ∧
    (FireEventListenersEntry Sample.removesFromEnclosingPass
      (nestedDispatch Sample.removesFromEnclosingPass 0) Sample.insidePass
      (Sample.hostEvent "y") false).1.iterators =
        [{ event_type := "x", iterator := 1, end_ := 1 }] ∧
    (FireEventListenersEntry Sample.removesFromEnclosingPass
      (nestedDispatch Sample.removesFromEnclosingPass 0) Sample.insidePass
      (Sample.hostEvent "y") false).1.iterators ≠ Sample.insidePass.iterators := by
  decide

/-- C20, amended: after every `FireEventListeners` call the list of firing
iterators has the same length as before the call and holds, position by
position, iterators of the same event types: the call pushes exactly one
iterator and removes exactly that one, whatever the listeners do, be it raising
errors, stopping propagation, adding and removing listeners or dispatching
further events at the same target, to any depth.  The end and the cursor of the
iterators that were in the list before the call are never raised; they are
lowered when a listener of their event type is removed during the call. -/
theorem firing_iterators_are_balanced (script : Script) (depth : Nat) (s : State)
    (event : Event) (isCapture : Bool) :
    (FireEventListenersEntry script (nestedDispatch script depth) s event
      isCapture).1.iterators.length = s.iterators.length ∧
    (FireEventListenersEntry script (nestedDispatch script depth) s event
      isCapture).1.iterators.map FiringEventIterator.event_type =
        s.iterators.map FiringEventIterator.event_type ∧
    (∀ (i : Nat) (it : FiringEventIterator), s.iterators.get? i = some it →
      ∃ it1,
        (FireEventListenersEntry script (nestedDispatch script depth) s event
          isCapture).1.iterators.get? i = some it1 ∧
        it1.event_type = it.event_type ∧ it1.end_ ≤ it.end_ ∧ it1.iterator ≤ it.iterator) ∧
    (FireEventListeners script (nestedDispatch script depth) s event
      isCapture).2.1.iterators.map FiringEventIterator.event_type =
        s.iterators.map FiringEventIterator.event_type ∧
    (FireEventListenersBubble script (nestedDispatch script depth) s
      event).2.1.iterators.map FiringEventIterator.event_type =
        s.iterators.map FiringEventIterator.event_type := by
  have h := IteratorsKept.FireEventListenersEntry script (nestedDispatch script depth)
    (IteratorsKept.nestedDispatch script depth) s event isCapture
  refine ⟨(h 0).1, h.event_types, ?_, ?_, ?_⟩
  · intro i it hit
    exact (h (i + 1)).2 i it (by omega) hit
  · exact (IteratorsKept.FireEventListeners script (nestedDispatch script depth)
      (IteratorsKept.nestedDispatch script depth) s event isCapture).event_types
  · exact (IteratorsKept.FireEventListenersBubble script (nestedDispatch script depth)
      (IteratorsKept.nestedDispatch script depth) s event).event_types

/-! ### A pass fires one registry -/

theorem fireLoop_preserves_entry (script : Script) (nested : State → Event → DispatchOutcome)
    (isCapture : Bool) (pos : Nat) (P : State → Event → Prop)
    (h_fuel : ∀ s e, P s e → P { s with out_of_fuel := true } e)
    (h_range : ∀ s e, P s e → P { s with out_of_range := true } e)
    (h_next : ∀ s e i, P s e → P (s.setIterator pos i) e)
    (h_fire : ∀ s e it rl, P s e → s.iterators.get? pos = some it →
      (s.entry isCapture e.type).get? it.iterator = some rl →
      P (fireOne script nested (s.setIterator pos (it.iterator + 1)) e rl).1
        (fireOne script nested (s.setIterator pos (it.iterator + 1)) e rl).2) :
    ∀ (k : Nat) (s : State) (e : Event) (f : Bool), P s e →
      P (fireLoop script nested isCapture pos k s e f).1
        (fireLoop script nested isCapture pos k s e f).2.1 := by
  intro k
  induction k with
  | zero =>
    intro s e f hP
    rw [fireLoop]
    cases s.iterators.get? pos with
    | none => exact hP
    | some it =>
      dsimp only
      split
      · exact h_fuel s e hP
      · exact hP
  | succ k ih =>
    intro s e f hP
    rw [fireLoop]
    cases hit : s.iterators.get? pos with
    | none => exact hP
    | some it =>
      dsimp only
      by_cases h1 : it.iterator < it.end_
      · rw [if_pos h1]
        by_cases h2 : e.ImmediatePropagationStopped = true
        · rw [if_pos h2]; exact hP
        · rw [if_neg h2]
          cases hg : (s.entry isCapture e.type).get? it.iterator with
          | none => exact h_range s e hP
          | some rl =>
            dsimp only
            by_cases h3 : (!rl.ShouldFire e) = true
            · rw [if_pos h3]; exact ih _ _ _ (h_next s e _ hP)
            · rw [if_neg h3]; exact ih _ _ _ (h_fire s e it rl hP hit hg)
      · rw [if_neg h1]; exact hP

theorem runActions_eventOnly_state (nested : State → Event → DispatchOutcome) :
    ∀ (acts : List Action), (∀ a ∈ acts, a.touchesEventOnly = true) → ∀ (s : State) (e : Event),
      (runActions nested acts s e).1 = s := by
  intro acts
  induction acts with
  | nil => intro _ s e; rfl
  | cons a rest ih =>
    intro hq s e
    have hrest : ∀ a ∈ rest, a.touchesEventOnly = true :=
      fun a ha => hq a (List.mem_cons_of_mem _ ha)
    have ha := hq a (List.mem_cons_self _ _)
    cases a with
    | addEventListener t l o => simp [Action.touchesEventOnly] at ha
    | removeEventListener t l c => simp [Action.touchesEventOnly] at ha
    | stopPropagation => rw [runActions]; exact ih hrest _ _
    | stopImmediatePropagation => rw [runActions]; exact ih hrest _ _
    | preventDefault => rw [runActions]; exact ih hrest _ _
    | dispatchEvent e1 => simp [Action.touchesEventOnly] at ha
    | dispatchCurrent => simp [Action.touchesEventOnly] at ha
    | raiseError => rfl

theorem Action.isDispatch_of_touchesEventOnly (a : Action) (h : a.touchesEventOnly = true) :
    a.isDispatch = false := by
  cases a <;> simp [Action.touchesEventOnly] at h <;> rfl

theorem Invoke_eventOnly_entry (script : Script) (nested : State → Event → DispatchOutcome)
    (l : EventListener) (hq : ∀ a ∈ script l, a.touchesEventOnly = true) (s : State)
    (e : Event) (c : Bool) (t : AtomicString) :
    (Invoke script nested l s e).1.entry c t = s.entry c t := by
  rcases Invoke_state script nested l s e with h | h
  · rw [h, runActions_eventOnly_state nested _ hq]
  · rw [h, runActions_eventOnly_state nested _ hq]
    rfl

theorem FireEventListeners_PassResult (script : Script)
    (nested : State → Event → DispatchOutcome) (s : State) (event : Event) (isCapture : Bool)
    (hscript : ∀ l, ∀ a ∈ script l, a.isDispatch = false)
    (hreg : ∀ x ∈ s.entry isCapture event.type, x.use_capture = isCapture) :
    PassResult s event isCapture (FireEventListeners script nested s event isCapture).2.1 := by
  unfold FireEventListeners
  split
  · exact PassResult.refl s event isCapture
  · dsimp only
    split
    · exact FireEventListenersEntry_result script nested s event isCapture hscript hreg
    · exact PassResult.refl s event isCapture

theorem FireEventListenersBubble_PassResult (script : Script)
    (nested : State → Event → DispatchOutcome) (s : State) (event : Event)
    (hscript : ∀ l, ∀ a ∈ script l, a.isDispatch = false)
    (hreg : ∀ x ∈ s.entry false event.type, x.use_capture = false) :
    PassResult s event false (FireEventListenersBubble script nested s event).2.1 := by
  unfold FireEventListenersBubble
  split
  · exact PassResult.refl s event false
  · dsimp only
    split
    · exact FireEventListenersEntry_result script nested s event false hscript hreg
    · exact PassResult.refl s event false

theorem dispatchEvent_PassResult (script : Script)
    (nested : State → Event → DispatchOutcome) (s : State) (event : Event)
    (hscript : ∀ l, ∀ a ∈ script l, a.isDispatch = false)
    (hreg : ∀ x ∈ s.entry false event.type, x.use_capture = false) :
    PassResult s event false (dispatchEvent script nested s event).state := by
  unfold dispatchEvent
  split
  · exact PassResult.refl s event false
  · split
    · exact PassResult.refl s event false
    · split
      · exact PassResult.refl s event false
      · exact FireEventListenersBubble_PassResult script nested
          { s with exception_state := none }
          (((((event.SetTrusted false).SetTarget s.binding_object).SetCurrentTarget
            s.binding_object)).SetEventPhase Event.kAtTarget) hscript hreg

theorem fireOne_keeps_capturing_registry (script : Script)
    (nested : State → Event → DispatchOutcome)
    (hq : ∀ l, ∀ a ∈ script l, a.touchesEventOnly = true) (s : State) (e : Event)
    (rl : RegisteredEventListener) (t1 : AtomicString) :
    (fireOne script nested s e rl).1.entry true t1 = s.entry true t1 := by
  unfold fireOne
  dsimp only
  rw [Invoke_eventOnly_entry script nested _ (hq _)]
  show (ite _ _ _ : State).entry true t1 = _
  split
  · exact RemoveEventListenerInternal_keeps_capturing_registry _ _ _ _ _
  · rfl

theorem fireOne_of_capturing_listener (script : Script)
    (nested : State → Event → DispatchOutcome)
    (hq : ∀ l, ∀ a ∈ script l, a.touchesEventOnly = true) (s : State) (e : Event)
    (rl : RegisteredEventListener) (hrl : rl.use_capture = true)
    (hreg : ∀ x ∈ s.entry false e.type, x.use_capture = false) (c : Bool) (t1 : AtomicString) :
    (fireOne script nested s e rl).1.entry c t1 = s.entry c t1 := by
  unfold fireOne
  dsimp only
  rw [Invoke_eventOnly_entry script nested _ (hq _)]
  show (ite _ _ _ : State).entry c t1 = _
  rw [hrl, removeEventListener_with_capture_is_without_effect s e.type _ hreg]
  simp

theorem fireOne_eventOnly_type (script : Script) (nested : State → Event → DispatchOutcome)
    (hq : ∀ l, ∀ a ∈ script l, a.touchesEventOnly = true) (s : State) (e : Event)
    (rl : RegisteredEventListener) : (fireOne script nested s e rl).2.type = e.type := by
  unfold fireOne
  dsimp only [Event.SetHandlingPassive]
  rw [Invoke_event, runActions_type nested _
    (fun a ha => Action.isDispatch_of_touchesEventOnly a (hq _ a ha))]

/-- A pass with callbacks that touch the event only leaves the registry it does
not iterate as it was. -/
theorem FireEventListenersEntry_keeps_other_registry (script : Script)
    (nested : State → Event → DispatchOutcome)
    (hq : ∀ l, ∀ a ∈ script l, a.touchesEventOnly = true) (s : State) (hcons : s.consistent)
    (event : Event) (isCapture : Bool) (t1 : AtomicString) :
    (FireEventListenersEntry script nested s event isCapture).1.entry (!isCapture) t1 =
      s.entry (!isCapture) t1 := by
  unfold FireEventListenersEntry
  split
  · rfl
  · dsimp only
    rw [State.entry_popIterator]
    cases isCapture with
    | false =>
      have h := fireLoop_preserves script nested false s.iterators.length
        (fun s1 _ => ∀ t2, s1.entry true t2 = s.entry true t2) (fun _ _ h => h)
        (fun _ _ h => h)
        (fun s1 _ i h t2 => (State.entry_setIterator s1 _ i true t2).trans (h t2))
        (fun s1 e1 rl h t2 =>
          (fireOne_keeps_capturing_registry script nested hq s1 e1 rl t2).trans (h t2))
        (s.entry false event.type).length
        (s.pushIterator
          { event_type := event.type, iterator := 0, end_ := (s.entry false event.type).length })
        event false (fun t2 => State.entry_pushIterator s _ true t2)
      exact h t1
    | true =>
      have h := fireLoop_preserves_entry script nested true s.iterators.length
        (fun s1 e1 => e1.type = event.type ∧ ∀ c2 t2, s1.entry c2 t2 = s.entry c2 t2)
        (fun _ _ h => h) (fun _ _ h => h)
        (fun s1 _ i h =>
          ⟨h.1, fun c2 t2 => (State.entry_setIterator s1 _ i c2 t2).trans (h.2 c2 t2)⟩)
        (fun s1 e1 it rl h _ hg => by
          have hmem : rl ∈ s.entry true event.type := by
            rw [← h.2 true event.type, ← h.1]
            rw [List.get?_eq_getElem?] at hg
            exact List.getElem?_mem hg
          have hrl : rl.use_capture = true := hcons true event.type rl hmem
          have hreg : ∀ x ∈ (s1.setIterator s.iterators.length (it.iterator + 1)).entry false
              e1.type, x.use_capture = false := by
            intro x hx
            rw [State.entry_setIterator, h.2 false e1.type] at hx
            exact hcons false e1.type x hx
          refine ⟨(fireOne_eventOnly_type script nested hq _ e1 rl).trans h.1, ?_⟩
          intro c2 t2
          rw [fireOne_of_capturing_listener script nested hq _ e1 rl hrl hreg c2 t2,
            State.entry_setIterator]
          exact h.2 c2 t2)
        (s.entry true event.type).length
        (s.pushIterator
          { event_type := event.type, iterator := 0, end_ := (s.entry true event.type).length })
        event false ⟨rfl, fun c2 t2 => State.entry_pushIterator s _ c2 t2⟩
      exact h.2 false t1

/-- C13: a dispatch fires the listeners of exactly one registry.  With callbacks
that do not dispatch themselves, every listener invoked by a host-originated
pass with capture flag `isCapture` was registered for the event type in the
registry that flag selects and carries that capture flag, and every listener
invoked by a script `dispatchEvent` was registered in the non-capturing
registry and is non-capturing; so no listener of the other registry is invoked.
If moreover the callbacks neither add nor remove listeners, the other registry
is the same after the pass as before it, for every event type.  Each registry
is taken to hold listeners of its own capture flag only, as
`AddEventListenerInternal` fills them. -/
theorem dispatch_fires_one_registry (script : Script)
    (nested : State → Event → DispatchOutcome) (s : State) (event : Event) (isCapture : Bool)
    (hscript : ∀ l, ∀ a ∈ script l, a.isDispatch = false) (hcons : s.consistent) :
    (∀ fired,
      TraceItem.invoke fired ∈
        (FireEventListeners script nested s event isCapture).2.1.trace.drop s.trace.length →
      fired ∈ s.entry isCapture event.type ∧ fired.use_capture = isCapture) ∧
    (∀ fired,
      TraceItem.invoke fired ∈ (dispatchEvent script nested s event).state.trace.drop
        s.trace.length →
      fired ∈ s.entry false event.type ∧ fired.use_capture = false) ∧
    ((∀ l, ∀ a ∈ script l, a.touchesEventOnly = true) →
      (∀ t1, (FireEventListeners script nested s event isCapture).2.1.entry (!isCapture) t1 =
        s.entry (!isCapture) t1) ∧
      (∀ t1, (dispatchEvent script nested s event).state.entry true t1 = s.entry true t1)) := by
  refine ⟨?_, ?_, ?_⟩
  · intro fired hf
    have h := (FireEventListeners_PassResult script nested s event isCapture hscript
      (hcons isCapture event.type)).2.1 fired hf
    exact ⟨h, hcons isCapture event.type fired h⟩
  · intro fired hf
    have h := (dispatchEvent_PassResult script nested s event hscript
      (hcons false event.type)).2.1 fired hf
    exact ⟨h, hcons false event.type fired h⟩
  · intro hq
    constructor
    · intro t1
      unfold FireEventListeners
      split
      · rfl
      · dsimp only
        split
        · exact FireEventListenersEntry_keeps_other_registry script nested hq s hcons event
            isCapture t1
        · rfl
    · intro t1
      unfold dispatchEvent
      split
      · rfl
      · split
        · rfl
        · split
          · rfl
          · dsimp only [DispatchEventInternal]
            unfold FireEventListenersBubble
            split
            · rfl
            · dsimp only
              split
              · exact FireEventListenersEntry_keeps_other_registry script nested hq
                  { s with exception_state := none } hcons _ false t1
              · rfl

/-- C13, witness: the target holds the capturing listener A and the
non-capturing listener B for "x" and the callbacks do nothing.  The capturing
pass invokes A only, the script dispatch invokes B only, and each leaves the
other registry as it was. -/
theorem dispatch_fires_one_registry_witness :
    (∀ l, ∀ a ∈ Sample.quiet l, a.isDispatch = false) ∧
    Sample.oneOfEach.consistent ∧
    Sample.oneOfEach.invokedSince
      (FireEventListeners Sample.quiet (nestedDispatch Sample.quiet 0) Sample.oneOfEach
        (Sample.hostEvent "x") true).2.1 = [Sample.listenerA] ∧
    Sample.oneOfEach.invokedSince
      (dispatchEvent Sample.quiet (nestedDispatch Sample.quiet 0) Sample.oneOfEach
        (Event.Create "x" false)).state = [Sample.listenerB] ∧
    (FireEventListeners Sample.quiet (nestedDispatch Sample.quiet 0) Sample.oneOfEach
        (Sample.hostEvent "x") true).2.1.entry (!true) "x" = Sample.oneOfEach.entry (!true) "x" ∧
    (dispatchEvent Sample.quiet (nestedDispatch Sample.quiet 0) Sample.oneOfEach
        (Event.Create "x" false)).state.entry true "x" = Sample.oneOfEach.entry true "x" :=
  have h1 : ∀ l, ∀ a ∈ Sample.quiet l, a.isDispatch = false := by
    intro l a ha
    simp [Sample.quiet] at ha
  have h2 : Sample.oneOfEach.consistent :=
    State.consistent_add _
      (State.consistent_add _ (State.consistent_of_no_data Sample.target rfl) _ _ _) _ _ _
  have hq : ∀ l, ∀ a ∈ Sample.quiet l, a.touchesEventOnly = true := by
    intro l a ha
    simp [Sample.quiet] at ha
  ⟨h1, h2, by decide, by decide,
    ((dispatch_fires_one_registry Sample.quiet (nestedDispatch Sample.quiet 0) Sample.oneOfEach
      (Sample.hostEvent "x") true h1 h2).2.2 hq).1 "x",
    ((dispatch_fires_one_registry Sample.quiet (nestedDispatch Sample.quiet 0) Sample.oneOfEach
      (Event.Create "x" false) true h1 h2).2.2 hq).2 "x"⟩

/-! ### A pass with callbacks that touch the event only -/

theorem runActions_eventOnly (nested : State → Event → DispatchOutcome) :
    ∀ (acts : List Action), (∀ a ∈ acts, a.touchesEventOnly = true) → ∀ (s : State) (e : Event),
      runActions nested acts s e = (s, (Spec.runCallback acts e).1, (Spec.runCallback acts e).2) := by
  intro acts
  induction acts with
  | nil => intro _ s e; rfl
  | cons a rest ih =>
    intro hq s e
    have hrest : ∀ a ∈ rest, a.touchesEventOnly = true :=
      fun a ha => hq a (List.mem_cons_of_mem _ ha)
    have ha := hq a (List.mem_cons_self _ _)
    cases a with
    | addEventListener t l o => simp [Action.touchesEventOnly] at ha
    | removeEventListener t l c => simp [Action.touchesEventOnly] at ha
    | stopPropagation => rw [runActions, Spec.runCallback]; exact ih hrest _ _
    | stopImmediatePropagation => rw [runActions, Spec.runCallback]; exact ih hrest _ _
    | preventDefault => rw [runActions, Spec.runCallback]; exact ih hrest _ _
    | dispatchEvent e1 => simp [Action.touchesEventOnly] at ha
    | dispatchCurrent => simp [Action.touchesEventOnly] at ha
    | raiseError => rfl

theorem Spec.runCallback_raises (acts : List Action) (e : Event) :
    (Spec.runCallback acts e).2 = acts.contains Action.raiseError := by
  induction acts generalizing e with
  | nil => rfl
  | cons a rest ih =>
    cases a <;> simp only [Spec.runCallback, List.contains_cons] <;> first
      | (rw [ih]; rfl)
      | rfl

theorem Event.preventDefault_fields (e : Event) :
    e.preventDefault.type = e.type ∧ e.preventDefault.event_phase = e.event_phase ∧
    e.preventDefault.immediate_propagation_stopped = e.immediate_propagation_stopped := by
  unfold Event.preventDefault
  split <;> exact ⟨rfl, rfl, rfl⟩

theorem Spec.runCallback_type (acts : List Action) (e : Event) :
    (Spec.runCallback acts e).1.type = e.type ∧
    (Spec.runCallback acts e).1.event_phase = e.event_phase := by
  induction acts generalizing e with
  | nil => exact ⟨rfl, rfl⟩
  | cons a rest ih =>
    cases a with
    | addEventListener t l o => rw [Spec.runCallback]; exact ih _
    | removeEventListener t l c => rw [Spec.runCallback]; exact ih _
    | stopPropagation => rw [Spec.runCallback]; exact ih _
    | stopImmediatePropagation => rw [Spec.runCallback]; exact ih _
    | preventDefault =>
      rw [Spec.runCallback]
      exact ⟨(ih _).1.trans e.preventDefault_fields.1, (ih _).2.trans e.preventDefault_fields.2.1⟩
    | dispatchEvent e1 => rw [Spec.runCallback]; exact ih _
    | dispatchCurrent => rw [Spec.runCallback]; exact ih _
    | raiseError => exact ⟨rfl, rfl⟩

theorem Spec.runCallback_stopped (acts : List Action) (e : Event) :
    (Spec.runCallback acts e).1.immediate_propagation_stopped =
      (e.immediate_propagation_stopped ||
        (acts.takeWhile (fun a => a != Action.raiseError)).contains
          Action.stopImmediatePropagation) := by
  induction acts generalizing e with
  | nil => simp [Spec.runCallback]
  | cons a rest ih =>
    cases a with
    | addEventListener t l o =>
      rw [Spec.runCallback, ih]
      simp [List.takeWhile_cons]
    | removeEventListener t l c =>
      rw [Spec.runCallback, ih]
      simp [List.takeWhile_cons]
    | stopPropagation =>
      rw [Spec.runCallback, ih]
      simp [List.takeWhile_cons, Event.stopPropagation]
    | stopImmediatePropagation =>
      rw [Spec.runCallback, ih]
      simp [List.takeWhile_cons, Event.stopImmediatePropagation]
    | preventDefault =>
      rw [Spec.runCallback, ih]
      have : e.preventDefault.immediate_propagation_stopped = e.immediate_propagation_stopped := by
        unfold Event.preventDefault; split <;> rfl
      rw [this]
      simp [List.takeWhile_cons]
    | dispatchEvent e1 =>
      rw [Spec.runCallback, ih]
      simp [List.takeWhile_cons]
    | dispatchCurrent =>
      rw [Spec.runCallback, ih]
      simp [List.takeWhile_cons]
    | raiseError =>
      rw [Spec.runCallback]
      simp [List.takeWhile_cons]

theorem Spec.invokeListener_fields (script : Script) (rl : RegisteredEventListener) (e : Event) :
    (Spec.invokeListener script rl e).type = e.type ∧
    (Spec.invokeListener script rl e).event_phase = e.event_phase ∧
    (Spec.invokeListener script rl e).ImmediatePropagationStopped =
      (e.ImmediatePropagationStopped || stopsImmediately script rl.callback) := by
  unfold Spec.invokeListener
  refine ⟨?_, ?_, ?_⟩
  · exact (Spec.runCallback_type _ _).1
  · exact (Spec.runCallback_type _ _).2
  · exact Spec.runCallback_stopped _ _

theorem Spec.invokeListener_ShouldFire (script : Script) (rl x : RegisteredEventListener)
    (e : Event) : x.ShouldFire (Spec.invokeListener script rl e) = x.ShouldFire e := by
  unfold RegisteredEventListener.ShouldFire
  rw [(Spec.invokeListener_fields script rl e).2.1]

theorem Spec.FireListeners_of_stopped (script : Script) (W : List RegisteredEventListener)
    (e : Event) (h : e.ImmediatePropagationStopped = true) :
    Spec.FireListeners script W e = ([], e) := by
  cases W with
  | nil => rfl
  | cons rl rest => rw [Spec.FireListeners, if_pos h]

/-- The loop of the specification invokes the applicable listeners of the
sequence, in order, up to and including the first one whose callback stops
immediate propagation. -/
theorem Spec.FireListeners_invoked (script : Script) (W : List RegisteredEventListener) :
    ∀ (e : Event), e.ImmediatePropagationStopped = false →
      (Spec.FireListeners script W e).1 =
        throughFirstStop script (W.filter (fun x => x.ShouldFire e)) := by
  induction W with
  | nil => intro e _; rfl
  | cons rl rest ih =>
    intro e he
    rw [Spec.FireListeners, if_neg (by rw [he]; simp)]
    by_cases hf : rl.ShouldFire e = true
    · have hfil : (rl :: rest).filter (fun x => x.ShouldFire e) =
          rl :: rest.filter (fun x => x.ShouldFire e) := by
        simp [List.filter_cons, hf]
      rw [if_neg (by rw [hf]; simp), hfil]
      dsimp only
      rw [throughFirstStop]
      have hstop := (Spec.invokeListener_fields script rl e).2.2
      rw [he, Bool.false_or] at hstop
      by_cases hs : stopsImmediately script rl.callback = true
      · rw [if_pos hs, Spec.FireListeners_of_stopped script rest _ (hstop.trans hs)]
      · rw [if_neg hs, ih _ (hstop.trans (by simpa using hs))]
        congr 2
        apply List.filter_congr
        intro x _
        exact Spec.invokeListener_ShouldFire script rl x e
    · have hfil : (rl :: rest).filter (fun x => x.ShouldFire e) =
          rest.filter (fun x => x.ShouldFire e) := by
        simp [List.filter_cons, hf]
      rw [if_pos (by simpa using hf), hfil]
      exact ih e he

theorem throughFirstStop_prefix (script : Script) (W : List RegisteredEventListener) :
    throughFirstStop script W <+: W := by
  induction W with
  | nil => exact List.prefix_refl _
  | cons rl rest ih =>
    rw [throughFirstStop]
    split
    · exact ⟨rest, rfl⟩
    · exact (List.prefix_cons_inj rl).mpr ih

/-- In the listeners up to the first stop, a listener whose callback stops
immediate propagation is the last one. -/
theorem throughFirstStop_last (script : Script) (W pre post : List RegisteredEventListener)
    (rl : RegisteredEventListener) (h : throughFirstStop script W = pre ++ rl :: post)
    (hs : stopsImmediately script rl.callback = true) : post = [] := by
  induction W generalizing pre with
  | nil =>
    rw [throughFirstStop] at h
    cases pre <;> simp at h
  | cons x rest ih =>
    rw [throughFirstStop] at h
    by_cases hx : stopsImmediately script x.callback = true
    · rw [if_pos hx] at h
      cases pre with
      | nil =>
        simp only [List.nil_append, List.cons.injEq] at h
        exact h.2.symm
      | cons p pre1 =>
        simp only [List.cons_append, List.cons.injEq] at h
        have := h.2
        cases pre1 <;> simp at this
    · rw [if_neg hx] at h
      cases pre with
      | nil =>
        simp only [List.nil_append, List.cons.injEq] at h
        rw [h.1] at hx
        exact absurd hs hx
      | cons p pre1 =>
        simp only [List.cons_append, List.cons.injEq] at h
        exact ih pre1 h.2

theorem window_eraseIdx {α : Type} (V : List α) :
    ∀ (j i e : Nat), j ≤ i → i < e → e ≤ V.length →
      ((V.eraseIdx j).take (e - 1)).drop i = (V.take e).drop (i + 1) := by
  induction V with
  | nil => intro j i e _ hi he; simp at he; omega
  | cons x xs ih =>
    intro j i e hj hi he
    obtain ⟨e1, rfl⟩ : ∃ e1, e = e1 + 1 := ⟨e - 1, by omega⟩
    cases j with
    | zero => simp
    | succ j1 =>
      obtain ⟨i1, rfl⟩ : ∃ i1, i = i1 + 1 := ⟨i - 1, by omega⟩
      obtain ⟨e2, rfl⟩ : ∃ e2, e1 = e2 + 1 := ⟨e1 - 1, by omega⟩
      have h := ih j1 i1 (e2 + 1) (by omega) (by omega) (by simpa using he)
      simpa using h

theorem window_head {α : Type} (V : List α) (i e : Nat) (hi : i < e) (he : e ≤ V.length) :
    ∃ x, V.get? i = some x ∧ (V.take e).drop i = x :: (V.take e).drop (i + 1) := by
  have hlt : i < V.length := by omega
  refine ⟨V[i], by rw [List.get?_eq_getElem?, List.getElem?_eq_getElem hlt], ?_⟩
  have hlt2 : i < (V.take e).length := by rw [List.length_take]; omega
  rw [List.drop_eq_getElem_cons hlt2, List.getElem_take]

theorem window_nil {α : Type} (V : List α) (i e : Nat) (he : e ≤ V.length)
    (h : (V.take e).drop i = []) : ¬ i < e := by
  intro hlt
  have := congrArg List.length h
  rw [List.length_drop, List.length_take] at this
  simp at this
  omega

theorem indexOfMatch_le (V : EventListenerVector) :
    ∀ (i : Nat) (rl : RegisteredEventListener), V.get? i = some rl →
      ∃ j, j ≤ i ∧ indexOfMatch V rl.callback rl.use_capture = some j := by
  induction V with
  | nil => intro i rl h; simp at h
  | cons x rest ih =>
    intro i rl h
    rw [indexOfMatch]
    by_cases hm : x.Matches rl.callback rl.use_capture = true
    · exact ⟨0, Nat.zero_le _, by rw [if_pos hm]⟩
    · rw [if_neg hm]
      cases i with
      | zero =>
        simp at h
        subst h
        simp [RegisteredEventListener.Matches] at hm
      | succ i1 =>
        obtain ⟨j, hj, hjm⟩ := ih i1 rl (by simpa using h)
        exact ⟨j + 1, Nat.succ_le_succ hj, by rw [hjm]; rfl⟩

theorem Window_of_data {c : Bool} {t : AtomicString} {pos : Nat}
    {W : List RegisteredEventListener} {s s2 : State} (h : Window c t pos W s)
    (hd : s2.data = s.data) : Window c t pos W s2 := by
  have hi : s2.iterators = s.iterators := by unfold State.iterators; rw [hd]
  have he : s2.entry c t = s.entry c t := by unfold State.entry; rw [hd]
  unfold Window
  rw [hi, he]
  exact h

theorem Registered_of_data {t : AtomicString} {s s2 : State} (h : Registered t s)
    (hd : s2.data = s.data) : Registered t s2 := by
  intro c x hx
  have he : s2.entry c t = s.entry c t := by unfold State.entry; rw [hd]
  rw [he] at hx
  exact h c x hx

theorem State.withoutListener_rest (s : State) (t : AtomicString) (index : Nat) :
    ((s.withoutListener t index).exception_state = s.exception_state ∧
      (s.withoutListener t index).reported_errors = s.reported_errors) ∧
    (s.withoutListener t index).context_alive = s.context_alive := by
  unfold State.withoutListener
  cases s.data <;> exact ⟨⟨rfl, rfl⟩, rfl⟩

theorem State.setIterator_rest (s : State) (pos i : Nat) :
    ((s.setIterator pos i).exception_state = s.exception_state ∧
      (s.setIterator pos i).reported_errors = s.reported_errors) ∧
    (s.setIterator pos i).context_alive = s.context_alive := by
  unfold State.setIterator
  cases s.data <;> exact ⟨⟨rfl, rfl⟩, rfl⟩

theorem State.pushIterator_rest (s : State) (it : FiringEventIterator) :
    ((s.pushIterator it).exception_state = s.exception_state ∧
      (s.pushIterator it).reported_errors = s.reported_errors) ∧
    (s.pushIterator it).context_alive = s.context_alive := by
  unfold State.pushIterator
  cases s.data <;> exact ⟨⟨rfl, rfl⟩, rfl⟩

theorem State.popIterator_rest (s : State) :
    (s.popIterator.exception_state = s.exception_state ∧
      s.popIterator.reported_errors = s.reported_errors) ∧
    s.popIterator.context_alive = s.context_alive := by
  unfold State.popIterator
  cases s.data <;> exact ⟨⟨rfl, rfl⟩, rfl⟩

theorem SameFlags_withoutListener (s : State) (t : AtomicString) (index : Nat) :
    SameFlags s (s.withoutListener t index) :=
  ⟨State.out_of_fuel_withoutListener s t index, State.out_of_range_withoutListener s t index,
    (State.withoutListener_rest s t index).2⟩

/-- The removal of a once listener by the pass that is about to invoke it: the
pass keeps the listeners after it in front of it. -/
theorem removeOnce_window (c : Bool) (t : AtomicString) (pos : Nat) (s1 : State)
    (it : FiringEventIterator) (i : Nat) (rl : RegisteredEventListener)
    (hit : s1.iterators.get? pos = some it) (ht : it.event_type = t) (hi : it.iterator = i + 1)
    (hie : i < it.end_) (he : it.end_ ≤ (s1.entry c t).length)
    (hrl : (s1.entry c t).get? i = some rl) (hreg : Registered t s1) :
    Window c t pos (((s1.entry c t).take it.end_).drop (i + 1))
      (removeEventListenerCapture s1 t (some rl.callback) rl.use_capture).2 ∧
    Registered t (removeEventListenerCapture s1 t (some rl.callback) rl.use_capture).2 ∧
    SameFlags s1 (removeEventListenerCapture s1 t (some rl.callback) rl.use_capture).2 ∧
    (removeEventListenerCapture s1 t (some rl.callback) rl.use_capture).2.trace = s1.trace ∧
    ((removeEventListenerCapture s1 t (some rl.callback) rl.use_capture).2.exception_state =
        s1.exception_state ∧
      (removeEventListenerCapture s1 t (some rl.callback) rl.use_capture).2.reported_errors =
        s1.reported_errors) := by
  have hmem : rl ∈ s1.entry c t := by
    rw [List.get?_eq_getElem?] at hrl
    exact List.getElem?_mem hrl
  have huc : rl.use_capture = c := hreg c rl hmem
  cases c with
  | true =>
    rw [huc, removeEventListener_with_capture_is_without_effect s1 t _ (hreg false)]
    exact ⟨⟨it, hit, ht, by omega, he, by rw [hi]⟩, hreg, ⟨rfl, rfl, rfl⟩, rfl, rfl, rfl⟩
  | false =>
    obtain ⟨j, hj, hjm⟩ := indexOfMatch_le _ i rl hrl
    have hjlt : j < (s1.entry false t).length := by omega
    have hwin : Window false t pos (((s1.entry false t).take it.end_).drop (i + 1))
        (s1.withoutListener t j) := by
      refine ⟨adjustIterator t j it, ?_, ?_, ?_, ?_, ?_⟩
      · rw [State.iterators_withoutListener, List.get?_eq_getElem?, List.getElem?_map,
          ← List.get?_eq_getElem?, hit]
        rfl
      · rw [adjustIterator_event_type]; exact ht
      · unfold adjustIterator
        rw [if_neg (by simp [ht]), if_neg (by omega)]
        dsimp only
        rw [if_pos (by omega)]
        omega
      · rw [State.entry_withoutListener_same, List.length_eraseIdx, if_pos hjlt]
        unfold adjustIterator
        rw [if_neg (by simp [ht]), if_neg (by omega)]
        dsimp only
        omega
      · rw [State.entry_withoutListener_same]
        unfold adjustIterator
        rw [if_neg (by simp [ht]), if_neg (by omega)]
        dsimp only
        rw [if_pos (by omega), hi]
        exact window_eraseIdx _ j i it.end_ hj hie he
    have hreg2 : Registered t (s1.withoutListener t j) := by
      intro c x hx
      cases c with
      | true =>
        rw [State.entry_withoutListener_capture] at hx
        exact hreg true x hx
      | false =>
        rw [State.entry_withoutListener_same] at hx
        exact hreg false x (List.mem_of_mem_eraseIdx hx)
    have hopt : (EventListenerOptions.Create.setCapture rl.use_capture).capture.getD false =
        rl.use_capture := rfl
    unfold removeEventListenerCapture
    rw [RemoveEventListenerInternal_eq, hopt, hjm]
    dsimp only
    split
    · exact ⟨Window_of_data hwin rfl, Registered_of_data hreg2 rfl,
        SameFlags_withoutListener s1 t j, State.trace_withoutListener s1 t j,
        (State.withoutListener_rest s1 t j).1⟩
    · exact ⟨hwin, hreg2, SameFlags_withoutListener s1 t j, State.trace_withoutListener s1 t j,
        (State.withoutListener_rest s1 t j).1⟩

theorem Invoke_eventOnly (script : Script) (nested : State → Event → DispatchOutcome)
    (l : EventListener) (hq : ∀ a ∈ script l, a.touchesEventOnly = true) (s : State)
    (e : Event) :
    Invoke script nested l s e =
      (if raises script l = true then
        { s with exception_state := some (PendingException.raisedBy l) }
       else s, (Spec.runCallback (script l) e).1) := by
  unfold Invoke
  rw [runActions_eventOnly nested _ hq]
  dsimp only
  rw [Spec.runCallback_raises]
  unfold raises
  split <;> rfl

/-- One round of the loop that invokes a listener, for callbacks that touch the
event only: the listener is logged, its error, if it raises one, is stored in
the exception state, nothing is reported, the event is the one its callback
leaves, and the pass keeps the listeners after it in front of it. -/
theorem fireOne_quiet (script : Script) (nested : State → Event → DispatchOutcome)
    (hq : ∀ l, ∀ a ∈ script l, a.touchesEventOnly = true)
    (c : Bool) (t : AtomicString) (pos : Nat) (s1 : State) (e : Event)
    (it : FiringEventIterator) (i : Nat) (rl : RegisteredEventListener) (hty : e.type = t)
    (hit : s1.iterators.get? pos = some it) (ht : it.event_type = t) (hi : it.iterator = i + 1)
    (hie : i < it.end_) (he : it.end_ ≤ (s1.entry c t).length)
    (hrl : (s1.entry c t).get? i = some rl) (hreg : Registered t s1) :
    Window c t pos (((s1.entry c t).take it.end_).drop (i + 1))
      (fireOne script nested s1 e rl).1 ∧
    Registered t (fireOne script nested s1 e rl).1 ∧
    SameFlags s1 (fireOne script nested s1 e rl).1 ∧
    (fireOne script nested s1 e rl).1.trace = s1.trace ++ [TraceItem.invoke rl] ∧
    ((fireOne script nested s1 e rl).1.exception_state =
        (if raises script rl.callback = true then
          some (PendingException.raisedBy rl.callback)
         else s1.exception_state) ∧
      (fireOne script nested s1 e rl).1.reported_errors = s1.reported_errors) ∧
    (fireOne script nested s1 e rl).2 = Spec.invokeListener script rl e := by
  have key : ∀ s2 : State,
      Window c t pos (((s1.entry c t).take it.end_).drop (i + 1)) s2 ∧ Registered t s2 ∧
        SameFlags s1 s2 ∧ s2.trace = s1.trace ∧
        (s2.exception_state = s1.exception_state ∧ s2.reported_errors = s1.reported_errors) →
      Window c t pos (((s1.entry c t).take it.end_).drop (i + 1))
        (Invoke script nested rl.callback (s2.logInvoke rl)
          (e.SetHandlingPassive (EventPassiveMode rl))).1 ∧
      Registered t (Invoke script nested rl.callback (s2.logInvoke rl)
          (e.SetHandlingPassive (EventPassiveMode rl))).1 ∧
      SameFlags s1 (Invoke script nested rl.callback (s2.logInvoke rl)
          (e.SetHandlingPassive (EventPassiveMode rl))).1 ∧
      (Invoke script nested rl.callback (s2.logInvoke rl)
          (e.SetHandlingPassive (EventPassiveMode rl))).1.trace =
        s1.trace ++ [TraceItem.invoke rl] ∧
      ((Invoke script nested rl.callback (s2.logInvoke rl)
          (e.SetHandlingPassive (EventPassiveMode rl))).1.exception_state =
        (if raises script rl.callback = true then
          some (PendingException.raisedBy rl.callback)
         else s1.exception_state) ∧
      (Invoke script nested rl.callback (s2.logInvoke rl)
          (e.SetHandlingPassive (EventPassiveMode rl))).1.reported_errors =
        s1.reported_errors) ∧
      ((Invoke script nested rl.callback (s2.logInvoke rl)
          (e.SetHandlingPassive (EventPassiveMode rl))).2.SetHandlingPassive
            PassiveMode.kNotPassive) = Spec.invokeListener script rl e := by
    intro s2 ⟨hw, hr, hf, htr, hex, herr⟩
    rw [Invoke_eventOnly script nested rl.callback (hq rl.callback)]
    by_cases hra : raises script rl.callback = true
    · rw [if_pos hra, if_pos hra]
      refine ⟨Window_of_data hw rfl, Registered_of_data hr rfl, hf, ?_, ⟨rfl, herr⟩, rfl⟩
      show s2.trace ++ [TraceItem.invoke rl] = _
      rw [htr]
    · rw [if_neg hra, if_neg hra]
      refine ⟨Window_of_data hw rfl, Registered_of_data hr rfl, hf, ?_, ⟨hex, herr⟩, rfl⟩
      show s2.trace ++ [TraceItem.invoke rl] = _
      rw [htr]
  unfold fireOne
  dsimp only
  split
  · rw [hty]
    exact key _ (removeOnce_window c t pos s1 it i rl hit ht hi hie he hrl hreg)
  · exact key s1 ⟨⟨it, hit, ht, by omega, he, by rw [hi]⟩, hreg, ⟨rfl, rfl, rfl⟩, rfl, rfl, rfl⟩

theorem QuietResult_nil (script : Script) (e : Event) (f : Bool) (s : State) :
    QuietResult script [] e f s (s, e, f) := by
  refine ⟨?_, ⟨rfl, rfl⟩, rfl, ?_, ⟨rfl, rfl, rfl⟩⟩
  · simp [Spec.FireListeners]
  · simp [Spec.FireListeners]

theorem QuietResult_of_stopped (script : Script) (W : List RegisteredEventListener) (e : Event)
    (f : Bool) (s : State) (h : e.ImmediatePropagationStopped = true) :
    QuietResult script W e f s (s, e, f) := by
  unfold QuietResult
  rw [Spec.FireListeners_of_stopped script W e h]
  refine ⟨?_, ⟨rfl, rfl⟩, rfl, ?_, ⟨rfl, rfl, rfl⟩⟩ <;> simp

/-- The firing loop agrees with the loop of the specification, for callbacks
that touch the event only: `k` rounds are enough for `k` listeners. -/
theorem fireLoop_quiet (script : Script) (nested : State → Event → DispatchOutcome)
    (hq : ∀ l, ∀ a ∈ script l, a.touchesEventOnly = true)
    (c : Bool) (t : AtomicString) (pos : Nat) :
    ∀ (k : Nat) (s : State) (e : Event) (f : Bool) (W : List RegisteredEventListener),
      W.length ≤ k → e.type = t → Window c t pos W s → Registered t s →
      QuietResult script W e f s (fireLoop script nested c pos k s e f) := by
  intro k
  induction k with
  | zero =>
    intro s e f W hk hty hw hreg
    have hW : W = [] := List.length_eq_zero.mp (Nat.le_zero.mp hk)
    subst hW
    obtain ⟨it, hit, ht, hle, he, hwin⟩ := hw
    have hnot := window_nil _ _ _ he hwin
    rw [fireLoop, hit]
    dsimp only
    rw [if_neg (by simp [hnot])]
    exact QuietResult_nil script e f s
  | succ k ih =>
    intro s e f W hk hty hw hreg
    obtain ⟨it, hit, ht, hle, he, hwin⟩ := hw
    rw [fireLoop, hit]
    dsimp only
    by_cases h1 : it.iterator < it.end_
    · rw [if_pos h1]
      by_cases h2 : e.ImmediatePropagationStopped = true
      · rw [if_pos h2]
        exact QuietResult_of_stopped script W e f s h2
      · rw [if_neg h2]
        obtain ⟨rl, hget, hhead⟩ := window_head (s.entry c t) it.iterator it.end_ h1 he
        rw [hwin] at hhead
        rw [hty, hget]
        dsimp only
        have hlen : (((s.entry c t).take it.end_).drop (it.iterator + 1)).length ≤ k := by
          rw [hhead] at hk
          simpa using hk
        have hit1 : (s.setIterator pos (it.iterator + 1)).iterators.get? pos =
            some { it with iterator := it.iterator + 1 } := by
          rw [State.iterators_setIterator, hit]
          rfl
        have hreg1 : Registered t (s.setIterator pos (it.iterator + 1)) := by
          intro c1 x hx
          rw [State.entry_setIterator] at hx
          exact hreg c1 x hx
        have hspec : Spec.FireListeners script W e =
            if (!rl.ShouldFire e) = true then
              Spec.FireListeners script
                (((s.entry c t).take it.end_).drop (it.iterator + 1)) e
            else
              (rl :: (Spec.FireListeners script
                  (((s.entry c t).take it.end_).drop (it.iterator + 1))
                  (Spec.invokeListener script rl e)).1,
                (Spec.FireListeners script
                  (((s.entry c t).take it.end_).drop (it.iterator + 1))
                  (Spec.invokeListener script rl e)).2) := by
          rw [hhead, Spec.FireListeners, if_neg h2]
        by_cases h3 : (!rl.ShouldFire e) = true
        · rw [if_pos h3]
          have hres := ih (s.setIterator pos (it.iterator + 1)) e f _ hlen hty
            ⟨_, hit1, ht, h1, by rw [State.entry_setIterator]; exact he,
              by rw [State.entry_setIterator]⟩ hreg1
          unfold QuietResult at hres ⊢
          rw [hspec, if_pos h3]
          rw [State.trace_setIterator, (State.setIterator_rest _ _ _).1.1,
            (State.setIterator_rest _ _ _).1.2] at hres
          refine ⟨hres.1, hres.2.1, hres.2.2.1, hres.2.2.2.1, ?_⟩
          obtain ⟨g1, g2, g3⟩ := hres.2.2.2.2
          rw [State.out_of_fuel_setIterator] at g1
          rw [State.out_of_range_setIterator] at g2
          rw [(State.setIterator_rest _ _ _).2] at g3
          exact ⟨g1, g2, g3⟩
        · rw [if_neg h3]
          obtain ⟨qw, qr, qf, qt, qe, qv⟩ := fireOne_quiet script nested hq c t pos
            (s.setIterator pos (it.iterator + 1)) e { it with iterator := it.iterator + 1 }
            it.iterator rl hty hit1 ht rfl h1
            (by rw [State.entry_setIterator]; exact he)
            (by rw [State.entry_setIterator]; exact hget) hreg1
          rw [State.entry_setIterator] at qw
          have hty1 : (fireOne script nested (s.setIterator pos (it.iterator + 1)) e rl).2.type =
              t := by
            rw [qv, (Spec.invokeListener_fields script rl e).1]; exact hty
          have hres := ih _ _ true _ hlen hty1 qw qr
          unfold QuietResult at hres ⊢
          rw [hspec, if_neg h3]
          rw [qv] at hres ⊢
          rw [qt, qe.1, qe.2, State.trace_setIterator, (State.setIterator_rest _ _ _).1.1,
            (State.setIterator_rest _ _ _).1.2] at hres
          obtain ⟨r1, ⟨r2, r2b⟩, r3, r4, g1, g2, g3⟩ := hres
          obtain ⟨f1, f2, f3⟩ := qf
          rw [State.out_of_fuel_setIterator] at f1
          rw [State.out_of_range_setIterator] at f2
          rw [(State.setIterator_rest _ _ _).2] at f3
          refine ⟨?_, ?_, r3, ?_, ⟨g1.trans f1, g2.trans f2, g3.trans f3⟩⟩
          · rw [r1]; simp
          · exact ⟨r2, r2b⟩
          · rw [r4]; simp
    · rw [if_neg h1]
      have hW : W = [] := by
        rw [← hwin]
        apply List.eq_nil_of_length_eq_zero
        rw [List.length_drop, List.length_take]
        omega
      subst hW
      exact QuietResult_nil script e f s

theorem FireEventListenersEntry_quiet (script : Script)
    (nested : State → Event → DispatchOutcome)
    (hq : ∀ l, ∀ a ∈ script l, a.touchesEventOnly = true) (s : State) (d : EventTargetData)
    (hd : s.data = some d) (e : Event) (c : Bool) (halive : s.context_alive = true)
    (hreg : Registered e.type s) :
    QuietResult script (s.entry c e.type) e false s
      (FireEventListenersEntry script nested s e c) := by
  unfold FireEventListenersEntry
  rw [if_neg (by simp [halive])]
  dsimp only
  have hres := fireLoop_quiet script nested hq c e.type s.iterators.length
    (s.entry c e.type).length
    (s.pushIterator { event_type := e.type, iterator := 0, end_ := (s.entry c e.type).length })
    e false (s.entry c e.type) (Nat.le_refl _) rfl
    ⟨{ event_type := e.type, iterator := 0, end_ := (s.entry c e.type).length },
      by rw [State.iterators_pushIterator s d hd]; simp, rfl, Nat.zero_le _,
      by rw [State.entry_pushIterator],
      by rw [State.entry_pushIterator]; simp⟩
    (by
      intro c1 x hx
      rw [State.entry_pushIterator] at hx
      exact hreg c1 x hx)
  unfold QuietResult at hres ⊢
  obtain ⟨r1, ⟨r2, r2b⟩, r3, r4, g1, g2, g3⟩ := hres
  rw [State.trace_pushIterator] at r1
  rw [(State.pushIterator_rest _ _).1.1] at r2
  rw [(State.pushIterator_rest _ _).1.2] at r2b
  rw [State.out_of_fuel_pushIterator] at g1
  rw [State.out_of_range_pushIterator] at g2
  rw [(State.pushIterator_rest _ _).2] at g3
  refine ⟨?_, ⟨?_, ?_⟩, r3, r4, ⟨?_, ?_, ?_⟩⟩
  · rw [State.trace_popIterator]; exact r1
  · rw [(State.popIterator_rest _).1.1]; exact r2
  · rw [(State.popIterator_rest _).1.2]; exact r2b
  · rw [State.out_of_fuel_popIterator]; exact g1
  · rw [State.out_of_range_popIterator]; exact g2
  · rw [(State.popIterator_rest _).2]; exact g3

/-- A pass agrees with the loop of the specification over the sequence
registered for the event type at its start, for callbacks that touch the event
only. -/
theorem FireEventListeners_quiet (script : Script) (nested : State → Event → DispatchOutcome)
    (hq : ∀ l, ∀ a ∈ script l, a.touchesEventOnly = true) (s : State) (event : Event)
    (isCapture : Bool) (halive : s.context_alive = true) (hreg : Registered event.type s) :
    (FireEventListeners script nested s event isCapture).2.1.trace =
      s.trace ++
        (Spec.FireListeners script (s.entry isCapture event.type) event).1.map TraceItem.invoke ∧
    ((FireEventListeners script nested s event isCapture).2.1.exception_state =
        exceptionAfter script s.exception_state
          (Spec.FireListeners script (s.entry isCapture event.type) event).1 ∧
      (FireEventListeners script nested s event isCapture).2.1.reported_errors =
        s.reported_errors) ∧
    (FireEventListeners script nested s event isCapture).2.2 =
      (Spec.FireListeners script (s.entry isCapture event.type) event).2 ∧
    SameFlags s (FireEventListeners script nested s event isCapture).2.1 := by
  unfold FireEventListeners
  cases hd : s.data with
  | none =>
    dsimp only
    rw [State.entry_none s hd]
    simp [Spec.FireListeners, SameFlags, exceptionAfter]
  | some d =>
    dsimp only
    have hentry : s.entry isCapture event.type =
        ((if (!isCapture) = true then d.event_listener_map.Find event.type
          else d.event_capture_listener_map.Find event.type).getD []) := by
      rw [State.entry_of_data s d hd]
      cases isCapture <;> rfl
    cases hf : (if (!isCapture) = true then d.event_listener_map.Find event.type
        else d.event_capture_listener_map.Find event.type) with
    | none =>
      rw [hf] at hentry
      dsimp only
      rw [hentry]
      simp [Spec.FireListeners, SameFlags, exceptionAfter]
    | some v =>
      dsimp only
      have hres := FireEventListenersEntry_quiet script nested hq s d hd event isCapture halive
        hreg
      obtain ⟨r1, r2, r3, _, g⟩ := hres
      refine ⟨r1, r2, ?_, g⟩
      rw [← r3]
      unfold Event.DoneDispatchingEventAtCurrentTarget
      split <;> rfl

theorem fireLoop_of_stopped (script : Script) (nested : State → Event → DispatchOutcome)
    (c : Bool) (pos k : Nat) (s : State) (e : Event) (f : Bool)
    (h : e.ImmediatePropagationStopped = true) :
    fireLoop script nested c pos k s e f = (s, e, f) := by
  cases k with
  | zero =>
    rw [fireLoop]
    cases s.iterators.get? pos with
    | none => rfl
    | some it =>
      dsimp only
      rw [h]
      simp
  | succ k =>
    rw [fireLoop]
    cases s.iterators.get? pos with
    | none => rfl
    | some it =>
      dsimp only
      rw [if_pos h]
      split <;> rfl

/-- A pass over an event on which immediate propagation has been stopped
already invokes no listener, whatever the callbacks are. -/
theorem FireEventListeners_of_stopped (script : Script)
    (nested : State → Event → DispatchOutcome) (s : State) (event : Event) (isCapture : Bool)
    (h : event.ImmediatePropagationStopped = true) :
    (FireEventListeners script nested s event isCapture).2.1.trace = s.trace ∧
    (FireEventListeners script nested s event isCapture).2.2 = event := by
  unfold FireEventListeners
  cases hd : s.data with
  | none => exact ⟨rfl, rfl⟩
  | some d =>
    dsimp only
    cases (if (!isCapture) = true then d.event_listener_map.Find event.type
        else d.event_capture_listener_map.Find event.type) with
    | none => exact ⟨rfl, rfl⟩
    | some v =>
      dsimp only
      unfold FireEventListenersEntry
      split
      · exact ⟨rfl, rfl⟩
      · dsimp only
        rw [fireLoop_of_stopped script nested _ _ _ _ _ _ h]
        dsimp only
        rw [State.trace_popIterator, State.trace_pushIterator]
        exact ⟨rfl, rfl⟩

theorem AddEventListenerInternal_exception_state (s : State) (t : AtomicString)
    (l : Option EventListener) (o : AddEventListenerOptions) :
    (AddEventListenerInternal s t l o).2.exception_state = s.exception_state := by
  cases l with
  | none => rfl
  | some l =>
    rw [AddEventListenerInternal_eq]
    split
    · rfl
    · split <;> rfl

theorem RemoveEventListenerInternal_exception_state (s : State) (t : AtomicString)
    (l : Option EventListener) (o : EventListenerOptions) :
    (RemoveEventListenerInternal s t l o).2.exception_state = s.exception_state := by
  cases l with
  | none => rfl
  | some l =>
    rw [RemoveEventListenerInternal_eq]
    cases indexOfMatch (s.entry false t) l (o.capture.getD false) with
    | none => rfl
    | some index =>
      dsimp only
      split
      · exact (State.withoutListener_rest s t index).1.1
      · exact (State.withoutListener_rest s t index).1.1

theorem runActions_exception_state (nested : State → Event → DispatchOutcome)
    (hn : ∀ s e, (nested s e).state.exception_state = s.exception_state) :
    ∀ (acts : List Action) (s : State) (e : Event),
      (runActions nested acts s e).1.exception_state = s.exception_state := by
  intro acts
  induction acts with
  | nil => intro s e; rfl
  | cons a rest ih =>
    intro s e
    cases a with
    | addEventListener t l o =>
      rw [runActions]
      exact (ih _ _).trans (AddEventListenerInternal_exception_state s t (some l) _)
    | removeEventListener t l c =>
      rw [runActions]
      exact (ih _ _).trans (RemoveEventListenerInternal_exception_state s t (some l) _)
    | stopPropagation => rw [runActions]; exact ih _ _
    | stopImmediatePropagation => rw [runActions]; exact ih _ _
    | preventDefault => rw [runActions]; exact ih _ _
    | dispatchEvent e1 =>
      rw [runActions]
      split
      · exact hn _ _
      · exact (ih _ _).trans (hn _ _)
    | dispatchCurrent =>
      rw [runActions]
      split
      · exact hn _ _
      · exact (ih _ _).trans (hn _ _)
    | raiseError => rfl

/-- A callback without a `raiseError` step and without a dispatch returns
normally. -/
theorem runActions_returns (nested : State → Event → DispatchOutcome) :
    ∀ (acts : List Action),
      (∀ a ∈ acts, a ≠ Action.raiseError ∧ a.isDispatch = false) →
      ∀ (s : State) (e : Event), (runActions nested acts s e).2.2 = false := by
  intro acts
  induction acts with
  | nil => intro _ s e; rfl
  | cons a rest ih =>
    intro h s e
    have hrest : ∀ a ∈ rest, a ≠ Action.raiseError ∧ a.isDispatch = false :=
      fun a ha => h a (List.mem_cons_of_mem _ ha)
    have ha := h a (List.mem_cons_self _ _)
    cases a with
    | addEventListener t l o => rw [runActions]; exact ih hrest _ _
    | removeEventListener t l c => rw [runActions]; exact ih hrest _ _
    | stopPropagation => rw [runActions]; exact ih hrest _ _
    | stopImmediatePropagation => rw [runActions]; exact ih hrest _ _
    | preventDefault => rw [runActions]; exact ih hrest _ _
    | dispatchEvent e1 => simp [Action.isDispatch] at ha
    | dispatchCurrent => simp [Action.isDispatch] at ha
    | raiseError => simp at ha

/-- One round that invokes a listener leaves the exception state as it was or
stores the error of that listener, whose callback then ended with an uncaught
error (`Q` is any property of the listeners whose callbacks can end so). -/
theorem fireOne_exception_state (script : Script) (nested : State → Event → DispatchOutcome)
    (hn : ∀ s e, (nested s e).state.exception_state = s.exception_state)
    (Q : EventListener → Prop)
    (hQ : ∀ l s e, (runActions nested (script l) s e).2.2 = true → Q l)
    (s : State) (e : Event) (rl : RegisteredEventListener) :
    (fireOne script nested s e rl).1.exception_state = s.exception_state ∨
    (Q rl.callback ∧
      (fireOne script nested s e rl).1.exception_state =
        some (PendingException.raisedBy rl.callback)) := by
  have key : ∀ s2 : State, s2.exception_state = s.exception_state →
      (Invoke script nested rl.callback (s2.logInvoke rl)
        (e.SetHandlingPassive (EventPassiveMode rl))).1.exception_state = s.exception_state ∨
      (Q rl.callback ∧
        (Invoke script nested rl.callback (s2.logInvoke rl)
          (e.SetHandlingPassive (EventPassiveMode rl))).1.exception_state =
            some (PendingException.raisedBy rl.callback)) := by
    intro s2 h2
    unfold Invoke
    dsimp only
    split
    · rename_i hflag
      exact Or.inr ⟨hQ _ _ _ hflag, rfl⟩
    · exact Or.inl ((runActions_exception_state nested hn _ _ _).trans h2)
  unfold fireOne
  dsimp only
  split
  · exact key _ (RemoveEventListenerInternal_exception_state s _ _ _)
  · exact key s rfl

theorem fireLoop_exception_state (script : Script) (nested : State → Event → DispatchOutcome)
    (hn : ∀ s e, (nested s e).state.exception_state = s.exception_state)
    (Q : EventListener → Prop)
    (hQ : ∀ l s e, (runActions nested (script l) s e).2.2 = true → Q l)
    (x0 : Option PendingException) (isCapture : Bool) (pos k : Nat) (s : State) (e : Event)
    (f : Bool)
    (h : s.exception_state = x0 ∨
      ∃ l, Q l ∧ s.exception_state = some (PendingException.raisedBy l)) :
    (fireLoop script nested isCapture pos k s e f).1.exception_state = x0 ∨
    ∃ l, Q l ∧ (fireLoop script nested isCapture pos k s e f).1.exception_state =
      some (PendingException.raisedBy l) := by
  refine fireLoop_preserves script nested isCapture pos
    (fun s1 _ => s1.exception_state = x0 ∨
      ∃ l, Q l ∧ s1.exception_state = some (PendingException.raisedBy l)) ?_ ?_ ?_ ?_ k s e f h
  · intro _ _ h1; exact h1
  · intro _ _ h1; exact h1
  · intro s1 _ i h1
    show (s1.setIterator pos i).exception_state = x0 ∨
      ∃ l, Q l ∧ (s1.setIterator pos i).exception_state = some (PendingException.raisedBy l)
    rw [(State.setIterator_rest s1 pos i).1.1]
    exact h1
  · intro s1 e1 rl h1
    show (fireOne script nested s1 e1 rl).1.exception_state = x0 ∨
      ∃ l, Q l ∧ (fireOne script nested s1 e1 rl).1.exception_state =
        some (PendingException.raisedBy l)
    rcases fireOne_exception_state script nested hn Q hQ s1 e1 rl with h2 | ⟨hq, h2⟩
    · rw [h2]; exact h1
    · exact Or.inr ⟨rl.callback, hq, h2⟩

theorem FireEventListenersEntry_exception_state (script : Script)
    (nested : State → Event → DispatchOutcome)
    (hn : ∀ s e, (nested s e).state.exception_state = s.exception_state)
    (Q : EventListener → Prop)
    (hQ : ∀ l s e, (runActions nested (script l) s e).2.2 = true → Q l)
    (s : State) (e : Event) (isCapture : Bool) :
    (FireEventListenersEntry script nested s e isCapture).1.exception_state =
      s.exception_state ∨
    ∃ l, Q l ∧ (FireEventListenersEntry script nested s e isCapture).1.exception_state =
      some (PendingException.raisedBy l) := by
  unfold FireEventListenersEntry
  split
  · exact Or.inl rfl
  · dsimp only
    rw [(State.popIterator_rest _).1.1]
    exact fireLoop_exception_state script nested hn Q hQ s.exception_state _ _ _ _ _ _
      (Or.inl (State.pushIterator_rest s _).1.1)

theorem DispatchEventInternal_exception_state (script : Script)
    (nested : State → Event → DispatchOutcome)
    (hn : ∀ s e, (nested s e).state.exception_state = s.exception_state)
    (Q : EventListener → Prop)
    (hQ : ∀ l s e, (runActions nested (script l) s e).2.2 = true → Q l)
    (s : State) (e : Event) :
    (DispatchEventInternal script nested s e).2.1.exception_state = s.exception_state ∨
    ∃ l, Q l ∧ (DispatchEventInternal script nested s e).2.1.exception_state =
      some (PendingException.raisedBy l) := by
  unfold DispatchEventInternal FireEventListenersBubble
  dsimp only
  split
  · exact Or.inl rfl
  · dsimp only
    split
    · exact FireEventListenersEntry_exception_state script nested hn Q hQ s _ false
    · exact Or.inl rfl

theorem dispatchEvent_state_exception_state (script : Script)
    (nested : State → Event → DispatchOutcome) (s : State) (e : Event) :
    (dispatchEvent script nested s e).state.exception_state = s.exception_state := by
  unfold dispatchEvent
  split
  · rfl
  · split
    · rfl
    · split <;> rfl

theorem nestedDispatch_exception_state (script : Script) (depth : Nat) (s : State)
    (e : Event) : (nestedDispatch script depth s e).state.exception_state = s.exception_state := by
  cases depth with
  | zero => rfl
  | succ n =>
    rw [nestedDispatch]
    exact dispatchEvent_state_exception_state script _ s e

/-- An accepted `dispatchEvent` stores no error of its own: when it returns, its
exception state is clear or holds the error of a listener whose callback ended
with an uncaught error. -/
theorem dispatchEvent_accepted_exception (script : Script)
    (nested : State → Event → DispatchOutcome)
    (hn : ∀ s e, (nested s e).state.exception_state = s.exception_state)
    (Q : EventListener → Prop)
    (hQ : ∀ l s e, (runActions nested (script l) s e).2.2 = true → Q l)
    (s : State) (event : Event) (h1 : event.WasInitialized = true)
    (h2 : event.IsBeingDispatched = false) :
    (dispatchEvent script nested s event).exception = none ∨
    ∃ l, Q l ∧ (dispatchEvent script nested s event).exception =
      some (PendingException.raisedBy l) := by
  rw [dispatchEvent_exception, h1, h2]
  simp only [Bool.true_eq_false, Bool.false_eq_true, if_false]
  split
  · exact Or.inl rfl
  · exact DispatchEventInternal_exception_state script nested hn Q hQ
      { s with exception_state := none } _
/-! ### What `dispatchEvent` raises and returns -/

/-- C8, amended: `dispatchEvent` fails with an error of its own exactly when the
event is uninitialized or is already being dispatched, and that error is an
`InternalError`.  For every other event `dispatchEvent` raises no error itself:
when it returns, its exception state is clear or holds the error that the
callback of a listener raised during the pass; it is clear when no callback has
a step that raises an error or dispatches. -/
theorem dispatchEvent_raises_internal_error_iff_rejected (script : Script) (depth : Nat)
    (s : State) (event : Event) :
    ((∃ e, (dispatchEvent script (nestedDispatch script depth) s event).exception =
        some (PendingException.thrown e)) ↔
      (event.WasInitialized = false ∨ event.IsBeingDispatched = true)) ∧
    (∀ e, (dispatchEvent script (nestedDispatch script depth) s event).exception =
        some (PendingException.thrown e) → e.type = ErrorType.InternalError) ∧
    (event.WasInitialized = true ∧ event.IsBeingDispatched = false →
      (dispatchEvent script (nestedDispatch script depth) s event).exception = none ∨
      ∃ l, (dispatchEvent script (nestedDispatch script depth) s event).exception =
        some (PendingException.raisedBy l)) ∧
    (event.WasInitialized = true ∧ event.IsBeingDispatched = false →
      (∀ l, ∀ a ∈ script l, a ≠ Action.raiseError ∧ a.isDispatch = false) →
      (dispatchEvent script (nestedDispatch script depth) s event).exception = none) := by
  have hacc : event.WasInitialized = true ∧ event.IsBeingDispatched = false →
      (dispatchEvent script (nestedDispatch script depth) s event).exception = none ∨
      ∃ l, (dispatchEvent script (nestedDispatch script depth) s event).exception =
        some (PendingException.raisedBy l) := by
    intro h
    rcases dispatchEvent_accepted_exception script _
      (nestedDispatch_exception_state script depth) (fun _ => True)
      (fun _ _ _ _ => trivial) s event h.1 h.2 with h0 | ⟨l, _, hl⟩
    · exact Or.inl h0
    · exact Or.inr ⟨l, hl⟩
  refine ⟨⟨?_, ?_⟩, ?_, hacc, ?_⟩
  · intro ⟨e, he⟩
    cases h1 : event.WasInitialized with
    | false => exact Or.inl rfl
    | true =>
      cases h2 : event.IsBeingDispatched with
      | true => exact Or.inr rfl
      | false =>
        rcases hacc ⟨h1, h2⟩ with h0 | ⟨l, hl⟩
        · rw [h0] at he; cases he
        · rw [hl] at he; cases he
  · intro h
    rw [dispatchEvent_exception]
    cases h1 : event.WasInitialized with
    | false => exact ⟨_, rfl⟩
    | true =>
      have h2 : event.IsBeingDispatched = true := by
        rcases h with h | h
        · rw [h1] at h; cases h
        · exact h
      rw [h2]
      exact ⟨_, rfl⟩
  · intro e he
    rw [dispatchEvent_exception] at he
    cases h1 : event.WasInitialized with
    | false =>
      rw [h1] at he
      simp only [if_true] at he
      cases he
      rfl
    | true =>
      cases h2 : event.IsBeingDispatched with
      | true =>
        rw [h1, h2] at he
        simp only [Bool.true_eq_false, if_false, if_true] at he
        cases he
        rfl
      | false =>
        rcases hacc ⟨h1, h2⟩ with h0 | ⟨l, hl⟩
        · rw [dispatchEvent_exception] at h0; rw [h0] at he; cases he
        · rw [dispatchEvent_exception] at hl; rw [hl] at he; cases he
  · intro h hscript
    rcases dispatchEvent_accepted_exception script _
      (nestedDispatch_exception_state script depth) (fun _ => False)
      (fun l s1 e1 hflag => by
        rw [runActions_returns _ _ (hscript l)] at hflag
        cases hflag)
      s event h.1 h.2 with h0 | ⟨l, hl, _⟩
    · exact h0
    · exact hl.elim

/-- C8, witness of the amended statement: a dispatch of an initialized event at
the target with A, B and C, where callback A calls `preventDefault()` and no
callback raises an error, leaves the exception state clear. -/
theorem dispatchEvent_raises_internal_error_iff_rejected_witness :
    (Event.Create "x" true).WasInitialized = true ∧
    (Event.Create "x" true).IsBeingDispatched = false ∧
    (∀ l, ∀ a ∈ Sample.preventsDefault l, a ≠ Action.raiseError ∧ a.isDispatch = false) ∧
    (dispatchEvent Sample.preventsDefault (nestedDispatch Sample.preventsDefault 0)
      Sample.threeListeners (Event.Create "x" true)).exception = none :=
  have h : ∀ l, ∀ a ∈ Sample.preventsDefault l, a ≠ Action.raiseError ∧ a.isDispatch = false := by
    intro l a ha
    unfold Sample.preventsDefault at ha
    split at ha
    · rw [List.mem_singleton] at ha
      rw [ha]
      exact ⟨by decide, rfl⟩
    · cases ha
  ⟨rfl, rfl, h,
    (dispatchEvent_raises_internal_error_iff_rejected Sample.preventsDefault 0
      Sample.threeListeners (Event.Create "x" true)).2.2.2 ⟨rfl, rfl⟩ h⟩

/-- C10, amended: at a target with a live executing context, for every
initialized event that is not being dispatched, `dispatchEvent` returns false
exactly when the dispatch result is `kCanceledByEventHandler`, that is when the
target has listener data and the event is default-prevented once the listeners
have run; it returns true otherwise, also when the event was only
default-handled.  Cancellation never raises an exception: whatever the result,
`dispatchEvent` stores no error of its own in its exception state, and the
exception state is clear when it returns if no callback has a step that raises
an error or dispatches, whether or not a callback prevents the default. -/
theorem dispatchEvent_returns_false_iff_canceled_by_handler (script : Script)
    (nested : State → Event → DispatchOutcome) (s : State) (event : Event)
    (h1 : event.WasInitialized = true) (h2 : event.IsBeingDispatched = false)
    (h3 : s.context_alive = true) :
    (dispatchEvent script nested s event).result =
      ((DispatchEventInternal script nested { s with exception_state := none }
        (event.SetTrusted false)).1 != DispatchEventResult.kCanceledByEventHandler) ∧
    (dispatchEvent script nested s event).result =
      !(s.data.isSome && (dispatchEvent script nested s event).event.defaultPrevented) ∧
    (∀ depth e, (dispatchEvent script (nestedDispatch script depth) s event).exception ≠
      some (PendingException.thrown e)) ∧
    ((∀ l, ∀ a ∈ script l, a ≠ Action.raiseError ∧ a.isDispatch = false) →
      ∀ depth, (dispatchEvent script (nestedDispatch script depth) s event).exception = none) := by
  refine ⟨?_, ?_, ?_, ?_⟩
  · unfold dispatchEvent
    simp [h1, h2, h3]
  · unfold dispatchEvent
    simp only [h1, h2, h3, Bool.not_true, Bool.false_eq_true, if_false]
    unfold DispatchEventInternal FireEventListenersBubble
    cases s.data with
    | none => rfl
    | some d =>
      dsimp only
      rw [GetDispatchEventResult_ne]
      rfl
  · intro depth e he
    rcases dispatchEvent_accepted_exception script _
      (nestedDispatch_exception_state script depth) (fun _ => True)
      (fun _ _ _ _ => trivial) s event h1 h2 with h0 | ⟨l, _, hl⟩
    · rw [h0] at he; cases he
    · rw [hl] at he; cases he
  · intro hscript depth
    rcases dispatchEvent_accepted_exception script _
      (nestedDispatch_exception_state script depth) (fun _ => False)
      (fun l s1 e1 hflag => by
        rw [runActions_returns _ _ (hscript l)] at hflag
        cases hflag)
      s event h1 h2 with h0 | ⟨l, hl, _⟩
    · exact h0
    · exact hl.elim

/-- C10, witness of the amended statement: a cancelable event dispatched at the
target with A, B and C, where the callback of A calls `preventDefault()`; the
call returns false and its exception state is clear. -/
theorem dispatchEvent_returns_false_iff_canceled_by_handler_witness :
    (Event.Create "x" true).WasInitialized = true ∧
    (Event.Create "x" true).IsBeingDispatched = false ∧
    Sample.threeListeners.context_alive = true ∧
    (∀ l, ∀ a ∈ Sample.preventsDefault l, a ≠ Action.raiseError ∧ a.isDispatch = false) ∧
    (dispatchEvent Sample.preventsDefault (nestedDispatch Sample.preventsDefault 0)
      Sample.threeListeners (Event.Create "x" true)).result = false ∧
    (dispatchEvent Sample.preventsDefault (nestedDispatch Sample.preventsDefault 0)
      Sample.threeListeners (Event.Create "x" true)).exception = none :=
  have h : ∀ l, ∀ a ∈ Sample.preventsDefault l, a ≠ Action.raiseError ∧ a.isDispatch = false := by
    intro l a ha
    unfold Sample.preventsDefault at ha
    split at ha
    · rw [List.mem_singleton] at ha
      rw [ha]
      exact ⟨by decide, rfl⟩
    · cases ha
  ⟨rfl, rfl, rfl, h,
    ((dispatchEvent_returns_false_iff_canceled_by_handler Sample.preventsDefault
      (nestedDispatch Sample.preventsDefault 0) Sample.threeListeners (Event.Create "x" true)
      rfl rfl rfl).2.1).trans (by decide),
    (dispatchEvent_returns_false_iff_canceled_by_handler Sample.preventsDefault
      (nestedDispatch Sample.preventsDefault 0) Sample.threeListeners (Event.Create "x" true)
      rfl rfl rfl).2.2.2 h 0⟩
/-! ### A pass does not read the exception state

Nothing in a pass reads the exception state of the entry point in progress, and
only `Invoke` writes to it.  So a callback that raises an error leaves the pass
where a callback leaves it that returns normally at that point: the two passes
differ in the exception state only. -/

theorem throughFirstStop_complete (script : Script) (W : List RegisteredEventListener) :
    throughFirstStop script W = W ∨
    ∃ rl, (throughFirstStop script W).getLast? = some rl ∧
      stopsImmediately script rl.callback = true := by
  induction W with
  | nil => exact Or.inl rfl
  | cons x rest ih =>
    rw [throughFirstStop]
    by_cases hx : stopsImmediately script x.callback = true
    · rw [if_pos hx]
      exact Or.inr ⟨x, rfl, hx⟩
    · rw [if_neg hx]
      rcases ih with h | ⟨rl, hl, hs⟩
      · rw [h]; exact Or.inl rfl
      · refine Or.inr ⟨rl, ?_, hs⟩
        cases hL : throughFirstStop script rest with
        | nil => rw [hL] at hl; simp at hl
        | cons y ys =>
          rw [hL] at hl
          rw [List.getLast?_cons_cons]
          exact hl

/-- C15: a listener that stops immediate propagation ends the pass, and the
stop is looked at between invocations only.  For callbacks that touch the event
only, on a target with a live context whose registries hold listeners of their
own capture flag, and an event on which immediate propagation has not been
stopped: `FireEventListeners` invokes the applicable listeners of the sequence
registered for the event type, in order, up to and including the first one
whose callback stops immediate propagation, and no listener after it; the
listeners before it are the applicable ones in their order; where the pass ends
before the end of the sequence, the last listener invoked is one that stops.
The event the pass leaves is the one the loop of the specification leaves,
which runs the callback of every invoked listener to its end, the one that
stops included.  And a pass over an event on which immediate propagation has
been stopped before invokes nothing and leaves the event as it is, whatever
the callbacks are. -/
theorem stopImmediatePropagation_ends_the_pass (script : Script)
    (nested : State → Event → DispatchOutcome) (s : State) (event : Event) (isCapture : Bool)
    (hscript : ∀ l, ∀ a ∈ script l, a.touchesEventOnly = true)
    (halive : s.context_alive = true) (hcons : s.consistent)
    (hevent : event.ImmediatePropagationStopped = false) :
    (FireEventListeners script nested s event isCapture).2.1.trace =
      s.trace ++
        (throughFirstStop script
          ((s.entry isCapture event.type).filter (fun x => x.ShouldFire event))).map
          TraceItem.invoke ∧
    throughFirstStop script
        ((s.entry isCapture event.type).filter (fun x => x.ShouldFire event)) <+:
      (s.entry isCapture event.type).filter (fun x => x.ShouldFire event) ∧
    (∀ pre rl post,
      throughFirstStop script
          ((s.entry isCapture event.type).filter (fun x => x.ShouldFire event)) =
        pre ++ rl :: post →
      stopsImmediately script rl.callback = true → post = []) ∧
    (throughFirstStop script
          ((s.entry isCapture event.type).filter (fun x => x.ShouldFire event)) =
        (s.entry isCapture event.type).filter (fun x => x.ShouldFire event) ∨
      ∃ rl,
        (throughFirstStop script
          ((s.entry isCapture event.type).filter (fun x => x.ShouldFire event))).getLast? =
          some rl ∧
        stopsImmediately script rl.callback = true) ∧
    (FireEventListeners script nested s event isCapture).2.2 =
      (Spec.FireListeners script (s.entry isCapture event.type) event).2 ∧
    (∀ (script2 : Script) (nested2 : State → Event → DispatchOutcome) (stopped : Event),
      stopped.ImmediatePropagationStopped = true →
      (FireEventListeners script2 nested2 s stopped isCapture).2.1.trace = s.trace ∧
      (FireEventListeners script2 nested2 s stopped isCapture).2.2 = stopped) := by
  obtain ⟨h1, _, h3, _⟩ := FireEventListeners_quiet script nested hscript s event
    isCapture halive (fun c => hcons c event.type)
  rw [Spec.FireListeners_invoked script _ event hevent] at h1
  exact ⟨h1, throughFirstStop_prefix script _,
    fun pre rl post h hs => throughFirstStop_last script _ pre post rl h hs,
    throughFirstStop_complete script _, h3,
    fun script2 nested2 stopped h =>
      FireEventListeners_of_stopped script2 nested2 s stopped isCapture h⟩

/-- C15, witness: A, B (once) and C are registered for "x"; A stops propagation,
B stops immediate propagation and then prevents the default.  The pass over a
cancelable event invokes A and B and not C, and the event it leaves has the
default prevented: the callback of B ran to its end. -/
theorem stopImmediatePropagation_ends_the_pass_witness :
    (∀ l, ∀ a ∈ Sample.secondStops l, a.touchesEventOnly = true) ∧
    Sample.threeListeners.context_alive = true ∧ Sample.threeListeners.consistent ∧
    (Sample.cancelableHostEvent "x").ImmediatePropagationStopped = false ∧
    Sample.threeListeners.invokedSince
      (FireEventListeners Sample.secondStops (nestedDispatch Sample.secondStops 0)
        Sample.threeListeners (Sample.cancelableHostEvent "x") false).2.1 =
      [Sample.listenerA, Sample.listenerB] ∧
    (FireEventListeners Sample.secondStops (nestedDispatch Sample.secondStops 0)
        Sample.threeListeners (Sample.cancelableHostEvent "x") false).2.2.default_prevented =
      true := by
  have h1 : ∀ l, ∀ a ∈ Sample.secondStops l, a.touchesEventOnly = true := by
    intro l a ha
    unfold Sample.secondStops at ha
    split at ha
    · simp only [List.mem_cons, List.mem_singleton, List.not_mem_nil, or_false] at ha
      rcases ha with ha | ha <;> rw [ha] <;> rfl
    · split at ha
      · rw [List.mem_singleton] at ha
        rw [ha]
        rfl
      · simp at ha
  have h2 : Sample.threeListeners.consistent :=
    State.consistent_add _
      (State.consistent_add _
        (State.consistent_add _ (State.consistent_of_no_data Sample.target rfl) _ _ _) _ _ _)
      _ _ _
  have h := stopImmediatePropagation_ends_the_pass Sample.secondStops
    (nestedDispatch Sample.secondStops 0) Sample.threeListeners
    (Sample.cancelableHostEvent "x") false h1 rfl h2 rfl
  refine ⟨h1, rfl, h2, rfl, ?_, ?_⟩
  · unfold State.invokedSince
    rw [h.1]
    decide
  · rw [h.2.2.2.2.1]
    decide

/-! ### A callback that raises an error -/

/-- C28: a rejected `dispatchEvent` is atomic.  When the event is uninitialized
or is already being dispatched, `dispatchEvent` returns false and hands back
the target and the event exactly as it received them: no listener is invoked
(the log is the same), the registries, the firing iterators and the command
buffer are unchanged, and so are the flags, the phase, the target and the
current target of the event. -/
theorem rejected_dispatchEvent_is_atomic (script : Script)
    (nested : State → Event → DispatchOutcome) (s : State) (event : Event)
    (h : event.WasInitialized = false ∨ event.IsBeingDispatched = true) :
    (dispatchEvent script nested s event).result = false ∧
    (dispatchEvent script nested s event).state = s ∧
    (dispatchEvent script nested s event).event = event ∧
    s.invokedSince (dispatchEvent script nested s event).state = [] := by
  have key : (dispatchEvent script nested s event).result = false ∧
      (dispatchEvent script nested s event).state = s ∧
      (dispatchEvent script nested s event).event = event := by
    unfold dispatchEvent
    rcases h with h | h
    · rw [if_pos (by rw [h]; rfl)]
      exact ⟨rfl, rfl, rfl⟩
    · split
      · exact ⟨rfl, rfl, rfl⟩
      · exact ⟨rfl, rfl, rfl⟩
  refine ⟨key.1, key.2.1, key.2.2, ?_⟩
  rw [key.2.1]
  unfold State.invokedSince
  rw [List.drop_length]
  rfl

/-- C28, witness: an uninitialized event dispatched at the target with A, B and
C registered for "x". -/
theorem rejected_dispatchEvent_is_atomic_witness :
    (Sample.uninitializedEvent.WasInitialized = false ∨
      Sample.uninitializedEvent.IsBeingDispatched = true) ∧
    (dispatchEvent Sample.quiet (nestedDispatch Sample.quiet 0) Sample.threeListeners
      Sample.uninitializedEvent).state = Sample.threeListeners ∧
    (dispatchEvent Sample.quiet (nestedDispatch Sample.quiet 0) Sample.threeListeners
      Sample.uninitializedEvent).event = Sample.uninitializedEvent :=
  ⟨Or.inl rfl,
    (rejected_dispatchEvent_is_atomic Sample.quiet (nestedDispatch Sample.quiet 0)
      Sample.threeListeners Sample.uninitializedEvent (Or.inl rfl)).2.1,
    (rejected_dispatchEvent_is_atomic Sample.quiet (nestedDispatch Sample.quiet 0)
      Sample.threeListeners Sample.uninitializedEvent (Or.inl rfl)).2.2.1⟩

/-- C24: an argument array of two entries passes the assertion `argc >= 2` of
`HandleDispatchEventFromDart`, and the function then reads `argv[2]`, one past
the end of the array; so does every call with exactly two arguments. -/
theorem host_dispatch_reads_past_two_arguments :
    2 ≤ Sample.twoArguments.length ∧
    Sample.twoArguments.get? 2 = none ∧
    HandleDispatchEventFromDart Sample.quiet (nestedDispatch Sample.quiet 0) Sample.threeListeners
      Sample.twoArguments = Except.error HostCallFault.out_of_bounds ∧
    ∀ (script : Script) (nested : State → Event → DispatchOutcome) (s : State)
      (a b : NativeValue),
      HandleDispatchEventFromDart script nested s [a, b] =
        Except.error HostCallFault.out_of_bounds :=
  ⟨by decide, rfl, rfl, fun _ _ _ _ _ => rfl⟩

/-- C26: a timer that is terminated and whose status is then set to finished has
a cleared callback and a status other than terminated, and `Fire` on it goes
through the cleared callback. -/
theorem fire_uses_cleared_callback_after_SetStatus :
    Sample.terminatedThenFinished.callback_ = none ∧
    Sample.terminatedThenFinished.status_ ≠ TimerStatus.kTerminated ∧
    (Sample.terminatedThenFinished.Fire Sample.timerContext).2.null_callback_used = true := by
  decide

/-- C23: in one capturing pass over the listeners A and B for "x", where the
callback of A removes the non-capturing listener C for "x", A is invoked twice
and B is not invoked.  The removal from the non-capturing sequence moves the
cursor and the end of the capturing pass back by one. -/
theorem capturing_listener_fires_twice_in_one_pass :
    Sample.crossRegistry.registered true "x" = [Sample.listenerA, Sample.listenerB] ∧
    Sample.crossRegistry.registered false "x" = [Sample.listenerC] ∧
    Sample.crossRegistry.invokedSince
      (FireEventListeners Sample.removesOtherRegistry
        (nestedDispatch Sample.removesOtherRegistry 0) Sample.crossRegistry
        (Sample.hostEvent "x") true).2.1 = [Sample.listenerA, Sample.listenerA] := by
  decide

theorem dart_object_finalize_callback_eq (table : WireTable) (peer : Nat) :
    dart_object_finalize_callback table peer = DeleteDartWire table peer := by
  unfold dart_object_finalize_callback IsDartWireAlive DeleteDartWire
  by_cases h : peer ∈ table.alive <;> simp [h]

theorem DeleteDartWire_not_alive (table : WireTable) (wire : Nat) :
    wire ∉ (DeleteDartWire table wire).alive := by
  unfold DeleteDartWire
  by_cases h : wire ∈ table.alive
  · rw [if_pos h]
    simp
  · rw [if_neg h]
    exact h

theorem DeleteDartWire_of_not_alive (table : WireTable) (wire : Nat) (h : wire ∉ table.alive) :
    DeleteDartWire table wire = table := by
  unfold DeleteDartWire
  rw [if_neg h]

/-- A release of any wire does not raise the number of releases a wire has had
plus the one it can still get while it is alive. -/
theorem DeleteDartWire_releases (table : WireTable) (wire other : Nat) :
    (DeleteDartWire table other).releases wire +
        (if wire ∈ (DeleteDartWire table other).alive then 1 else 0) ≤
      table.releases wire + (if wire ∈ table.alive then 1 else 0) := by
  unfold DeleteDartWire
  by_cases h : other ∈ table.alive
  · rw [if_pos h]
    by_cases hw : other = wire
    · subst hw
      simp [WireTable.releases, h]
    · have hw1 : ¬ wire = other := fun hc => hw hc.symm
      by_cases ha : wire ∈ table.alive
      · simp [WireTable.releases, ha, hw, hw1, List.count_singleton]
      · simp [WireTable.releases, ha, hw, hw1, List.count_singleton]
  · rw [if_neg h]

theorem WireTable.run_releases (releases : List WireRelease) :
    ∀ (table : WireTable) (wire : Nat),
      (table.run releases).releases wire +
          (if wire ∈ (table.run releases).alive then 1 else 0) ≤
        table.releases wire + (if wire ∈ table.alive then 1 else 0) := by
  induction releases with
  | nil => intro table wire; exact Nat.le_refl _
  | cons r rest ih =>
    intro table wire
    cases r with
    | finalizer w =>
      rw [WireTable.run, dart_object_finalize_callback_eq]
      exact Nat.le_trans (ih _ wire) (DeleteDartWire_releases table wire w)
    | teardown w =>
      rw [WireTable.run]
      exact Nat.le_trans (ih _ wire) (DeleteDartWire_releases table wire w)

/-- C21: a wire entry is deleted at most once.  The finalizer deletes the wire
only if it is alive: run on a wire the other side has deleted already, or run a
second time, it leaves the table as it is; after a deletion by either side the
wire is not alive; and a wire that is watched for a host-originated event is
released at most once more, whatever the finalizers and teardown deletions
that follow, for this wire and for others, and in whatever order. -/
theorem wire_is_deleted_at_most_once (table : WireTable) (wire : Nat)
    (releases : List WireRelease) :
    dart_object_finalize_callback (DeleteDartWire table wire) wire =
      DeleteDartWire table wire ∧
    dart_object_finalize_callback (dart_object_finalize_callback table wire) wire =
      dart_object_finalize_callback table wire ∧
    DeleteDartWire (dart_object_finalize_callback table wire) wire =
      dart_object_finalize_callback table wire ∧
    IsDartWireAlive (DeleteDartWire table wire) wire = false ∧
    IsDartWireAlive (dart_object_finalize_callback table wire) wire = false ∧
    IsDartWireAlive (WatchDartWire table wire) wire = true ∧
    ((WatchDartWire table wire).run releases).releases wire ≤ table.releases wire + 1 := by
  have hdead := DeleteDartWire_not_alive table wire
  refine ⟨?_, ?_, ?_, ?_, ?_, ?_, ?_⟩
  · rw [dart_object_finalize_callback_eq, DeleteDartWire_of_not_alive _ _ hdead]
  · rw [dart_object_finalize_callback_eq, dart_object_finalize_callback_eq,
      DeleteDartWire_of_not_alive _ _ hdead]
  · rw [dart_object_finalize_callback_eq, DeleteDartWire_of_not_alive _ _ hdead]
  · unfold IsDartWireAlive
    simp [hdead]
  · rw [dart_object_finalize_callback_eq]
    unfold IsDartWireAlive
    simp [hdead]
  · unfold IsDartWireAlive WatchDartWire
    by_cases h : wire ∈ table.alive <;> simp [h]
  · have h := WireTable.run_releases releases (WatchDartWire table wire) wire
    have hrel : (WatchDartWire table wire).releases wire = table.releases wire := by
      unfold WatchDartWire WireTable.releases
      split <;> rfl
    rw [hrel] at h
    have h1 : (if wire ∈ (WatchDartWire table wire).alive then 1 else 0) ≤ 1 := by
      split <;> omega
    omega

/-! ### Attribute listeners -/

theorem firstEventHandler_of_detached (V : EventListenerVector) :
    firstEventHandler false V = none := by
  induction V with
  | nil => rfl
  | cons x rest ih => rw [firstEventHandler, ih]; rfl

theorem firstEventHandler_of_no_handler (alive : Bool) (V : EventListenerVector)
    (h : ∀ x ∈ V, x.callback.is_event_handler = false) : firstEventHandler alive V = none := by
  induction V with
  | nil => rfl
  | cons x rest ih =>
    rw [firstEventHandler, h x (List.mem_cons_self _ _),
      ih (fun y hy => h y (List.mem_cons_of_mem _ hy))]
    simp

theorem firstEventHandler_none (V : EventListenerVector)
    (h : firstEventHandler true V = none) : ∀ x ∈ V, x.callback.is_event_handler = false := by
  induction V with
  | nil => intro x hx; simp at hx
  | cons y rest ih =>
    rw [firstEventHandler] at h
    by_cases hy : y.callback.is_event_handler = true
    · simp [hy] at h
    · simp only [hy, Bool.and_false, Bool.false_eq_true, if_false, Option.map_eq_none'] at h
      intro x hx
      rcases List.mem_cons.mp hx with rfl | hx
      · simpa using hy
      · exact ih h x hx

theorem firstEventHandler_some (V : EventListenerVector) :
    ∀ (i : Nat), firstEventHandler true V = some i →
      ∃ pre rl post, V = pre ++ rl :: post ∧ pre.length = i ∧
        (∀ x ∈ pre, x.callback.is_event_handler = false) ∧
        rl.callback.is_event_handler = true := by
  induction V with
  | nil => intro i h; simp [firstEventHandler] at h
  | cons y rest ih =>
    intro i h
    rw [firstEventHandler] at h
    by_cases hy : y.callback.is_event_handler = true
    · simp only [hy, Bool.and_self, if_true, Option.some.injEq] at h
      exact ⟨[], y, rest, rfl, h, fun x hx => by simp at hx, hy⟩
    · simp only [hy, Bool.and_false, Bool.false_eq_true, if_false] at h
      cases hr : firstEventHandler true rest with
      | none => rw [hr] at h; simp at h
      | some j =>
        rw [hr] at h
        simp only [Option.map_some', Option.some.injEq] at h
        obtain ⟨pre, rl, post, hV, hlen, hpre, hrl⟩ := ih j hr
        refine ⟨y :: pre, rl, post, by rw [hV]; rfl, by rw [← h, ← hlen]; rfl, ?_, hrl⟩
        intro x hx
        rcases List.mem_cons.mp hx with rfl | hx
        · simpa using hy
        · exact hpre x hx

theorem firstEventHandler_append (pre post : EventListenerVector) (rl : RegisteredEventListener)
    (hpre : ∀ x ∈ pre, x.callback.is_event_handler = false)
    (hrl : rl.callback.is_event_handler = true) :
    firstEventHandler true (pre ++ rl :: post) = some pre.length := by
  induction pre with
  | nil => simp [firstEventHandler, hrl]
  | cons y rest ih =>
    rw [List.cons_append, firstEventHandler, hpre y (List.mem_cons_self _ _),
      ih (fun x hx => hpre x (List.mem_cons_of_mem _ hx))]
    simp

theorem indexOfMatch_append (pre post : EventListenerVector) (rl : RegisteredEventListener)
    (l : EventListener) (c : Bool) (hpre : ∀ x ∈ pre, x.callback ≠ l)
    (hrl : rl.Matches l c = true) : indexOfMatch (pre ++ rl :: post) l c = some pre.length := by
  induction pre with
  | nil => simp [indexOfMatch, hrl]
  | cons y rest ih =>
    have hy : y.Matches l c = false := by
      have := hpre y (List.mem_cons_self _ _)
      simp [RegisteredEventListener.Matches, this]
    rw [List.cons_append, indexOfMatch, hy, ih (fun x hx => hpre x (List.mem_cons_of_mem _ hx))]
    simp

theorem modify_append_cons {α : Type} (f : α → α) (pre post : List α) (x : α) :
    (pre ++ x :: post).modify f pre.length = pre ++ f x :: post := by
  induction pre with
  | nil => simp
  | cons y rest ih => simp [ih]

theorem eraseIdx_append_cons {α : Type} (pre post : List α) (x : α) :
    (pre ++ x :: post).eraseIdx pre.length = pre ++ post := by
  induction pre with
  | nil => simp
  | cons y rest ih => simp [ih]

theorem GetAttributeRegisteredEventListener_eq (s : State) (t : AtomicString) :
    GetAttributeRegisteredEventListener s t =
      match firstEventHandler s.context_alive (s.entry false t) with
      | none => none
      | some index => ((s.entry false t).get? index).map (fun x => (index, x)) := by
  unfold GetAttributeRegisteredEventListener GetEventListeners
  cases hd : s.data with
  | none =>
    rw [State.entry_none s hd]
    rfl
  | some d =>
    have hentry : s.entry false t = d.event_listener_map.vectorOf t := by
      rw [State.entry_of_data s d hd]; rfl
    dsimp only
    cases hf : d.event_listener_map.Find t with
    | none =>
      have hv : s.entry false t = [] := by
        rw [hentry]; unfold EventListenerMap.vectorOf; rw [hf]; rfl
      rw [hv]
      rfl
    | some v =>
      have hv : s.entry false t = v := by
        rw [hentry]; unfold EventListenerMap.vectorOf; rw [hf]; rfl
      rw [hv]

theorem State.entry_SetCallback (s : State) (t : AtomicString) (index : Nat)
    (l : EventListener) (d : EventTargetData) (hd : s.data = some d) :
    (s.SetCallback t index l).entry false t =
      (s.entry false t).modify (fun r => { r with callback := l }) index := by
  unfold State.SetCallback
  rw [hd]
  simp [State.entry, vectorOf_setVector_same]

theorem addEventListener_of_new_callback (s : State) (t : AtomicString) (l : EventListener)
    (hno : ∀ x ∈ s.entry false t, x.callback ≠ l) :
    (addEventListener s t (some l)).1 = true ∧
    (addEventListener s t (some l)).2.entry false t =
      s.entry false t ++ [RegisteredEventListener.Create l AddEventListenerOptions.Create] ∧
    (addEventListener s t (some l)).2.context_alive = s.context_alive := by
  have hc : decide (AddEventListenerOptions.Create.capture = some true) = false := rfl
  have hm : indexOfMatch (s.entry false t) l (AddEventListenerOptions.Create.capture.getD false) =
      none := indexOfMatch_eq_none_of_callback _ _ _ hno
  unfold addEventListener
  rw [AddEventListenerInternal_eq, hc, hm]
  rw [if_neg (by simp)]
  split
  · exact ⟨rfl, State.withListener_entry_same s false t _, rfl⟩
  · exact ⟨rfl, State.withListener_entry_same s false t _, rfl⟩

theorem removeEventListener_at (s : State) (t : AtomicString)
    (pre post : EventListenerVector) (rl : RegisteredEventListener)
    (hV : s.entry false t = pre ++ rl :: post) (hpre : ∀ x ∈ pre, x.callback ≠ rl.callback)
    (hrl : rl.use_capture = false) :
    (removeEventListener s t (some rl.callback)).2.entry false t = pre ++ post ∧
    (removeEventListener s t (some rl.callback)).2.context_alive = s.context_alive := by
  have hc : EventListenerOptions.Create.capture.getD false = false := rfl
  have hm : indexOfMatch (s.entry false t) rl.callback false = some pre.length := by
    rw [hV]
    apply indexOfMatch_append _ _ _ _ _ hpre
    simp [RegisteredEventListener.Matches, hrl]
  have hentry : (s.withoutListener t pre.length).entry false t = pre ++ post := by
    rw [State.entry_withoutListener_same, hV, eraseIdx_append_cons]
  unfold removeEventListener
  rw [RemoveEventListenerInternal_eq, hc, hm]
  dsimp only
  split
  · exact ⟨hentry, (State.withoutListener_rest s t pre.length).2⟩
  · exact ⟨hentry, (State.withoutListener_rest s t pre.length).2⟩

theorem GetAttributeEventListener_of_first (s : State) (t : AtomicString)
    (halive : s.context_alive = true) (pre post : EventListenerVector)
    (rl : RegisteredEventListener) (hV : s.entry false t = pre ++ rl :: post)
    (hpre : ∀ x ∈ pre, x.callback.is_event_handler = false)
    (hrl : rl.callback.is_event_handler = true) :
    GetAttributeRegisteredEventListener s t = some (pre.length, rl) ∧
    GetAttributeEventListener s t = some rl.callback := by
  have h : GetAttributeRegisteredEventListener s t = some (pre.length, rl) := by
    have hget : (pre ++ rl :: post).get? pre.length = some rl := by
      rw [List.get?_eq_getElem?, List.getElem?_append_right (Nat.le_refl _)]
      simp
    rw [GetAttributeRegisteredEventListener_eq, halive, hV,
      firstEventHandler_append pre post rl hpre hrl]
    dsimp only
    rw [hget]
    rfl
  refine ⟨h, ?_⟩
  unfold GetAttributeEventListener
  rw [h]
  rfl

theorem GetAttributeEventListener_of_no_handler (s : State) (t : AtomicString)
    (h : ∀ x ∈ s.entry false t, x.callback.is_event_handler = false) :
    GetAttributeRegisteredEventListener s t = none ∧ GetAttributeEventListener s t = none := by
  have h1 : GetAttributeRegisteredEventListener s t = none := by
    rw [GetAttributeRegisteredEventListener_eq, firstEventHandler_of_no_handler _ _ h]
  refine ⟨h1, ?_⟩
  unfold GetAttributeEventListener
  rw [h1]
  rfl

theorem State.SetCallback_context_alive (s : State) (t : AtomicString) (index : Nat)
    (l : EventListener) : (s.SetCallback t index l).context_alive = s.context_alive := by
  unfold State.SetCallback
  cases s.data <;> rfl

theorem filter_handlers_of_none (V : EventListenerVector)
    (h : ∀ x ∈ V, x.callback.is_event_handler = false) :
    V.filter (fun x => x.callback.is_event_handler) = [] := by
  rw [List.filter_eq_nil_iff]
  intro x hx
  rw [h x hx]
  simp

/-- What the three cases of `SetAttributeEventListener` and
`GetAttributeEventListener` come to on a target with a live context: with no
event handler in the sequence, and with a first event handler at the end of
`pre`. -/
theorem SetAttributeEventListener_cases (s : State) (t : AtomicString)
    (halive : s.context_alive = true) :
    ((∀ x ∈ s.entry false t, x.callback.is_event_handler = false) ∧
      GetAttributeRegisteredEventListener s t = none ∧
      SetAttributeEventListener s t none = (false, s) ∧
      ∀ l, SetAttributeEventListener s t (some l) = addEventListener s t (some l)) ∨
    (∃ pre rl post, s.entry false t = pre ++ rl :: post ∧
      (∀ x ∈ pre, x.callback.is_event_handler = false) ∧
      rl.callback.is_event_handler = true ∧
      GetAttributeRegisteredEventListener s t = some (pre.length, rl) ∧
      SetAttributeEventListener s t none =
        (false, (removeEventListener s t (some rl.callback)).2) ∧
      ∀ l, SetAttributeEventListener s t (some l) = (true, s.SetCallback t pre.length l)) := by
  cases hfirst : firstEventHandler true (s.entry false t) with
  | none =>
    have hno := firstEventHandler_none _ hfirst
    have hg := (GetAttributeEventListener_of_no_handler s t hno).1
    refine Or.inl ⟨hno, hg, ?_, ?_⟩
    · unfold SetAttributeEventListener
      rw [hg]
    · intro l
      unfold SetAttributeEventListener
      rw [hg]
  | some i =>
    obtain ⟨pre, rl, post, hV, _, hpre, hrl⟩ := firstEventHandler_some _ i hfirst
    have hg := (GetAttributeEventListener_of_first s t halive pre post rl hV hpre hrl).1
    refine Or.inr ⟨pre, rl, post, hV, hpre, hrl, hg, ?_, ?_⟩
    · unfold SetAttributeEventListener
      rw [hg]
    · intro l
      unfold SetAttributeEventListener
      rw [hg]

theorem no_handler_after_first (pre post : EventListenerVector) (rl : RegisteredEventListener)
    (hpre : ∀ x ∈ pre, x.callback.is_event_handler = false)
    (hrl : rl.callback.is_event_handler = true)
    (hone : ((pre ++ rl :: post).filter (fun x => x.callback.is_event_handler)).length ≤ 1) :
    ∀ x ∈ post, x.callback.is_event_handler = false := by
  rw [List.filter_append, filter_handlers_of_none pre hpre, List.nil_append,
    List.filter_cons_of_pos (by simpa using hrl), List.length_cons] at hone
  have hnil : post.filter (fun x => x.callback.is_event_handler) = [] :=
    List.eq_nil_of_length_eq_zero (by omega)
  rw [List.filter_eq_nil_iff] at hnil
  intro x hx
  simpa using hnil x hx

/-- C27, counterexample: with two event handlers registered for "x" as plain
listeners, `SetAttributeEventListener("x", L)` leaves two event handlers in the
sequence, and after `SetAttributeEventListener("x", null)`
`GetAttributeEventListener("x")` still returns a listener; and on a target
whose executing context is gone `GetAttributeEventListener("x")` returns no
listener after `SetAttributeEventListener("x", L)`. -/
theorem attribute_listener_round_trip_fails :
    Sample.handlerL.is_event_handler = true ∧
    ((SetAttributeEventListener Sample.twoHandlers "x"
      (some Sample.handlerL)).2.eventHandlers "x").length = 2 ∧
    GetAttributeEventListener (SetAttributeEventListener Sample.twoHandlers "x" none).2 "x" =
      some Sample.handlerK ∧
    GetAttributeEventListener
      (SetAttributeEventListener Sample.twoListenersDetached "x" (some Sample.handlerL)).2 "x" =
      none := by
  decide

/-- C27, amended: the attribute-listener round trip, on a target whose executing
context is alive and whose non-capturing sequence for the type holds at most
one event handler (and non-capturing listeners only, as `AddEventListenerInternal`
fills it).  After `SetAttributeEventListener(type, L)` with an event-handler
listener `L`, `GetAttributeEventListener(type)` returns `L` and the sequence
holds exactly one event handler; an existing handler is replaced in place, the
call returning true and the sequence changing at the handler's position only,
in the callback; without one `L` is appended.  `SetAttributeEventListener(type,
null)` returns false and `GetAttributeEventListener(type)` returns no listener
afterwards. -/
theorem attribute_listener_round_trip (s : State) (event_type : AtomicString)
    (listener : EventListener) (halive : s.context_alive = true)
    (hhandler : listener.is_event_handler = true)
    (hone : (s.eventHandlers event_type).length ≤ 1)
    (hreg : ∀ x ∈ s.entry false event_type, x.use_capture = false) :
    GetAttributeEventListener (SetAttributeEventListener s event_type (some listener)).2
      event_type = some listener ∧
    ((SetAttributeEventListener s event_type (some listener)).2.eventHandlers
      event_type).length = 1 ∧
    (∀ index registered,
      GetAttributeRegisteredEventListener s event_type = some (index, registered) →
      (SetAttributeEventListener s event_type (some listener)).1 = true ∧
      (SetAttributeEventListener s event_type (some listener)).2.entry false event_type =
        (s.entry false event_type).modify (fun r => { r with callback := listener }) index) ∧
    (GetAttributeRegisteredEventListener s event_type = none →
      (SetAttributeEventListener s event_type (some listener)).2.entry false event_type =
        s.entry false event_type ++
          [RegisteredEventListener.Create listener AddEventListenerOptions.Create]) ∧
    (SetAttributeEventListener s event_type none).1 = false ∧
    GetAttributeEventListener (SetAttributeEventListener s event_type none).2 event_type =
      none := by
  rcases SetAttributeEventListener_cases s event_type halive with
    ⟨hno, hg, hnull, hset⟩ | ⟨pre, rl, post, hV, hpre, hrl, hg, hnull, hset⟩
  · have hne : ∀ x ∈ s.entry false event_type, x.callback ≠ listener := by
      intro x hx hxl
      have := hno x hx
      rw [hxl, hhandler] at this
      cases this
    obtain ⟨_, hentry, hal⟩ := addEventListener_of_new_callback s event_type listener hne
    rw [hset listener, hnull]
    refine ⟨?_, ?_, ?_, fun _ => hentry, rfl, ?_⟩
    · exact (GetAttributeEventListener_of_first _ event_type (hal.trans halive)
        (s.entry false event_type) [] _ hentry hno hhandler).2
    · unfold State.eventHandlers
      rw [hentry, List.filter_append, filter_handlers_of_none _ hno, List.nil_append,
        List.filter_cons_of_pos (by simpa using hhandler)]
      rfl
    · intro index registered h
      rw [hg] at h
      cases h
    · exact (GetAttributeEventListener_of_no_handler s event_type hno).2
  · have hpost := no_handler_after_first pre post rl hpre hrl (by
      have := hone
      unfold State.eventHandlers at this
      rw [hV] at this
      exact this)
    obtain ⟨d, hd⟩ : ∃ d, s.data = some d := by
      cases hd : s.data with
      | none =>
        rw [State.entry_none s hd] at hV
        cases pre <;> cases hV
      | some d => exact ⟨d, rfl⟩
    have hentry : (s.SetCallback event_type pre.length listener).entry false event_type =
        pre ++ { rl with callback := listener } :: post := by
      rw [State.entry_SetCallback s event_type pre.length listener d hd, hV,
        modify_append_cons]
    rw [hset listener, hnull]
    refine ⟨?_, ?_, ?_, ?_, rfl, ?_⟩
    · exact (GetAttributeEventListener_of_first _ event_type
        ((State.SetCallback_context_alive s event_type pre.length listener).trans halive)
        pre post _ hentry hpre hhandler).2
    · unfold State.eventHandlers
      rw [hentry, List.filter_append, filter_handlers_of_none _ hpre, List.nil_append,
        List.filter_cons_of_pos (by simpa using hhandler), filter_handlers_of_none _ hpost]
      rfl
    · intro index registered h
      rw [hg] at h
      cases h
      exact ⟨rfl, State.entry_SetCallback s event_type pre.length listener d hd⟩
    · intro h
      rw [hg] at h
      cases h
    · have hne : ∀ x ∈ pre, x.callback ≠ rl.callback := by
        intro x hx hxl
        have := hpre x hx
        rw [hxl, hrl] at this
        cases this
      have hcap : rl.use_capture = false := hreg rl (by rw [hV]; simp)
      obtain ⟨hentry2, _⟩ := removeEventListener_at s event_type pre post rl hV hne hcap
      apply (GetAttributeEventListener_of_no_handler _ event_type _).2
      intro x hx
      rw [hentry2] at hx
      rcases List.mem_append.mp hx with hx | hx
      · exact hpre x hx
      · exact hpost x hx

/-- C27, witness of the amended statement: the target holds A, the attribute
listener H and B for "x"; setting the attribute listener L replaces H at its
position, and setting null removes it. -/
theorem attribute_listener_round_trip_witness :
    Sample.withAttributeListener.context_alive = true ∧
    Sample.handlerL.is_event_handler = true ∧
    (Sample.withAttributeListener.eventHandlers "x").length ≤ 1 ∧
    (∀ x ∈ Sample.withAttributeListener.entry false "x", x.use_capture = false) ∧
    Sample.withAttributeListener.registered false "x" =
      [Sample.listenerA, Sample.handlerH, Sample.listenerB] ∧
    (SetAttributeEventListener Sample.withAttributeListener "x"
      (some Sample.handlerL)).2.registered false "x" =
      [Sample.listenerA, Sample.handlerL, Sample.listenerB] ∧
    GetAttributeEventListener (SetAttributeEventListener Sample.withAttributeListener "x"
      (some Sample.handlerL)).2 "x" = some Sample.handlerL ∧
    GetAttributeEventListener
      (SetAttributeEventListener Sample.withAttributeListener "x" none).2 "x" = none :=
  ⟨rfl, rfl, by decide, by decide, by decide, by decide,
    (attribute_listener_round_trip Sample.withAttributeListener "x" Sample.handlerL rfl rfl
      (by decide) (by decide)).1,
    (attribute_listener_round_trip Sample.withAttributeListener "x" Sample.handlerL rfl rfl
      (by decide) (by decide)).2.2.2.2.2⟩

/-! ### The command buffer is append-only -/

theorem CommandsAppended_refl (s : State) : CommandsAppended s s :=
  ⟨rfl, [], (List.append_nil _).symm, fun c hc => by simp at hc⟩

theorem CommandsAppended_of_eq {s s1 : State} (hb : s1.binding_object = s.binding_object)
    (hc : s1.commands = s.commands) : CommandsAppended s s1 :=
  ⟨hb, [], by rw [hc, List.append_nil], fun c hc => by simp at hc⟩

theorem CommandsAppended_trans {s s1 s2 : State} (h1 : CommandsAppended s s1)
    (h2 : CommandsAppended s1 s2) : CommandsAppended s s2 := by
  obtain ⟨hb1, m1, hm1, hc1⟩ := h1
  obtain ⟨hb2, m2, hm2, hc2⟩ := h2
  refine ⟨hb2.trans hb1, m1 ++ m2, by rw [hm2, hm1, List.append_assoc], ?_⟩
  intro c hc
  rcases List.mem_append.mp hc with hc | hc
  · exact hc1 c hc
  · rw [← hb1]; exact hc2 c hc

theorem CommandsAppended_addCommand (s : State) (k : IsolateCommand) (a : AtomicString)
    (p : CommandPayload) (hk : k = IsolateCommand.kAddEvent ∨ k = IsolateCommand.kRemoveEvent) :
    CommandsAppended s (s.addCommand k a p) := by
  refine ⟨rfl, [{ type := k, args := a, target := s.binding_object, payload := p }], rfl, ?_⟩
  intro c hc
  rw [List.mem_singleton] at hc
  rw [hc]
  exact ⟨hk, rfl⟩

theorem CommandsAppended_sent (s : State) (k : IsolateCommand) (a : AtomicString)
    (p : CommandPayload) (hk : k = IsolateCommand.kAddEvent ∨ k = IsolateCommand.kRemoveEvent) :
    CommandsAppended s (s.sent k a p) := by
  cases halive : s.context_alive with
  | true =>
    refine ⟨rfl, [{ type := k, args := a, target := s.binding_object, payload := p }], ?_, ?_⟩
    · show (if s.context_alive = true then _ else _) = _
      rw [halive]
      rfl
    · intro c hc
      rw [List.mem_singleton] at hc
      rw [hc]
      exact ⟨hk, rfl⟩
  | false =>
    refine ⟨rfl, [], ?_, ?_⟩
    · show (if s.context_alive = true then _ else _) = _
      rw [halive, List.append_nil]
      rfl
    · intro c hc
      cases hc

theorem State.withoutListener_commands (s : State) (t : AtomicString) (index : Nat) :
    (s.withoutListener t index).commands = s.commands ∧
    (s.withoutListener t index).binding_object = s.binding_object := by
  unfold State.withoutListener
  cases s.data <;> exact ⟨rfl, rfl⟩

theorem State.setIterator_commands (s : State) (pos i : Nat) :
    (s.setIterator pos i).commands = s.commands ∧
    (s.setIterator pos i).binding_object = s.binding_object := by
  unfold State.setIterator
  cases s.data <;> exact ⟨rfl, rfl⟩

theorem State.pushIterator_commands (s : State) (it : FiringEventIterator) :
    (s.pushIterator it).commands = s.commands ∧
    (s.pushIterator it).binding_object = s.binding_object := by
  unfold State.pushIterator
  cases s.data <;> exact ⟨rfl, rfl⟩

theorem State.popIterator_commands (s : State) :
    s.popIterator.commands = s.commands ∧ s.popIterator.binding_object = s.binding_object := by
  unfold State.popIterator
  cases s.data <;> exact ⟨rfl, rfl⟩

theorem State.reportPending_commands (s : State) :
    s.reportPending.commands = s.commands ∧
    s.reportPending.binding_object = s.binding_object := by
  unfold State.reportPending
  cases s.exception_state <;> exact ⟨rfl, rfl⟩

theorem State.SetCallback_commands (s : State) (t : AtomicString) (index : Nat)
    (l : EventListener) :
    (s.SetCallback t index l).commands = s.commands ∧
    (s.SetCallback t index l).binding_object = s.binding_object := by
  unfold State.SetCallback
  cases s.data <;> exact ⟨rfl, rfl⟩

theorem CommandsAppended_add (s : State) (t : AtomicString) (l : Option EventListener)
    (o : AddEventListenerOptions) : CommandsAppended s (AddEventListenerInternal s t l o).2 := by
  cases l with
  | none => exact CommandsAppended_refl s
  | some l =>
    rw [AddEventListenerInternal_eq]
    split
    · exact CommandsAppended_of_eq rfl rfl
    · split
      · exact CommandsAppended_trans (CommandsAppended_of_eq rfl rfl)
          (CommandsAppended_sent _ _ _ _ (Or.inl rfl))
      · exact CommandsAppended_of_eq rfl rfl

theorem CommandsAppended_remove (s : State) (t : AtomicString) (l : Option EventListener)
    (o : EventListenerOptions) : CommandsAppended s (RemoveEventListenerInternal s t l o).2 := by
  cases l with
  | none => exact CommandsAppended_refl s
  | some l =>
    rw [RemoveEventListenerInternal_eq]
    cases indexOfMatch (s.entry false t) l (o.capture.getD false) with
    | none => exact CommandsAppended_refl s
    | some index =>
      have h := CommandsAppended_of_eq (State.withoutListener_commands s t index).2
        (State.withoutListener_commands s t index).1
      dsimp only
      split
      · exact CommandsAppended_trans h (CommandsAppended_sent _ _ _ _ (Or.inr rfl))
      · exact h

theorem CommandsAppended_runActions (nested : State → Event → DispatchOutcome)
    (hn : ∀ s e, CommandsAppended s (nested s e).state) :
    ∀ (acts : List Action) (s : State) (e : Event),
      CommandsAppended s (runActions nested acts s e).1 := by
  intro acts
  induction acts with
  | nil => intro s e; exact CommandsAppended_refl s
  | cons a rest ih =>
    intro s e
    cases a with
    | addEventListener t l o =>
      rw [runActions]
      exact CommandsAppended_trans (CommandsAppended_add s t (some l) _) (ih _ _)
    | removeEventListener t l c =>
      rw [runActions]
      exact CommandsAppended_trans (CommandsAppended_remove s t (some l) _) (ih _ _)
    | stopPropagation => rw [runActions]; exact ih _ _
    | stopImmediatePropagation => rw [runActions]; exact ih _ _
    | preventDefault => rw [runActions]; exact ih _ _
    | dispatchEvent e1 =>
      rw [runActions]
      split
      · exact hn s e1
      · exact CommandsAppended_trans (hn s e1) (ih _ _)
    | dispatchCurrent =>
      rw [runActions]
      split
      · exact hn s e
      · exact CommandsAppended_trans (hn s e) (ih _ _)
    | raiseError => exact CommandsAppended_refl s

theorem CommandsAppended_fireOne (script : Script) (nested : State → Event → DispatchOutcome)
    (hn : ∀ s e, CommandsAppended s (nested s e).state) (s : State) (e : Event)
    (rl : RegisteredEventListener) : CommandsAppended s (fireOne script nested s e rl).1 := by
  unfold fireOne
  dsimp only
  have h2 : ∀ s2 : State, CommandsAppended s s2 →
      CommandsAppended s (Invoke script nested rl.callback (s2.logInvoke rl)
        (e.SetHandlingPassive (EventPassiveMode rl))).1 := by
    intro s2 hs2
    have hrun := CommandsAppended_runActions nested hn (script rl.callback) (s2.logInvoke rl)
      (e.SetHandlingPassive (EventPassiveMode rl))
    have hlog : CommandsAppended s2 (s2.logInvoke rl) := CommandsAppended_of_eq rfl rfl
    rcases Invoke_state script nested rl.callback (s2.logInvoke rl)
      (e.SetHandlingPassive (EventPassiveMode rl)) with heq | heq
    · rw [heq]; exact CommandsAppended_trans hs2 (CommandsAppended_trans hlog hrun)
    · rw [heq]
      exact CommandsAppended_trans hs2
        (CommandsAppended_trans hlog (CommandsAppended_trans hrun (CommandsAppended_of_eq rfl rfl)))
  split
  · exact h2 _ (CommandsAppended_remove s _ _ _)
  · exact h2 s (CommandsAppended_refl s)

theorem CommandsAppended_fireLoop (script : Script) (nested : State → Event → DispatchOutcome)
    (hn : ∀ s e, CommandsAppended s (nested s e).state) (isCapture : Bool) (pos k : Nat)
    (s : State) (e : Event) (f : Bool) :
    CommandsAppended s (fireLoop script nested isCapture pos k s e f).1 := by
  refine fireLoop_preserves script nested isCapture pos
    (fun s1 _ => CommandsAppended s s1) ?_ ?_ ?_ ?_ k s e f (CommandsAppended_refl s)
  · intro s1 _ h; exact CommandsAppended_trans h (CommandsAppended_of_eq rfl rfl)
  · intro s1 _ h; exact CommandsAppended_trans h (CommandsAppended_of_eq rfl rfl)
  · intro s1 _ i h
    exact CommandsAppended_trans h
      (CommandsAppended_of_eq (State.setIterator_commands s1 pos i).2
        (State.setIterator_commands s1 pos i).1)
  · intro s1 e1 rl h
    exact CommandsAppended_trans h (CommandsAppended_fireOne script nested hn s1 e1 rl)

theorem CommandsAppended_FireEventListenersEntry (script : Script)
    (nested : State → Event → DispatchOutcome)
    (hn : ∀ s e, CommandsAppended s (nested s e).state) (s : State) (e : Event)
    (isCapture : Bool) :
    CommandsAppended s (FireEventListenersEntry script nested s e isCapture).1 := by
  unfold FireEventListenersEntry
  split
  · exact CommandsAppended_refl s
  · dsimp only
    exact CommandsAppended_trans
      (CommandsAppended_trans
        (CommandsAppended_of_eq (State.pushIterator_commands s _).2
          (State.pushIterator_commands s _).1)
        (CommandsAppended_fireLoop script nested hn isCapture _ _ _ e false))
      (CommandsAppended_of_eq (State.popIterator_commands _).2 (State.popIterator_commands _).1)

theorem CommandsAppended_FireEventListenersBubble (script : Script)
    (nested : State → Event → DispatchOutcome)
    (hn : ∀ s e, CommandsAppended s (nested s e).state) (s : State) (e : Event) :
    CommandsAppended s (FireEventListenersBubble script nested s e).2.1 := by
  unfold FireEventListenersBubble
  split
  · exact CommandsAppended_refl s
  · dsimp only
    split
    · exact CommandsAppended_FireEventListenersEntry script nested hn s e false
    · exact CommandsAppended_refl s

theorem CommandsAppended_FireEventListeners (script : Script)
    (nested : State → Event → DispatchOutcome)
    (hn : ∀ s e, CommandsAppended s (nested s e).state) (s : State) (e : Event)
    (isCapture : Bool) :
    CommandsAppended s (FireEventListeners script nested s e isCapture).2.1 := by
  unfold FireEventListeners
  split
  · exact CommandsAppended_refl s
  · dsimp only
    split
    · exact CommandsAppended_FireEventListenersEntry script nested hn s e isCapture
    · exact CommandsAppended_refl s

theorem CommandsAppended_dispatchEvent (script : Script)
    (nested : State → Event → DispatchOutcome)
    (hn : ∀ s e, CommandsAppended s (nested s e).state) (s : State) (e : Event) :
    CommandsAppended s (dispatchEvent script nested s e).state := by
  unfold dispatchEvent
  split
  · exact CommandsAppended_refl s
  · split
    · exact CommandsAppended_refl s
    · split
      · exact CommandsAppended_refl s
      · exact CommandsAppended_FireEventListenersBubble script nested hn
          { s with exception_state := none } _

theorem CommandsAppended_nestedDispatch (script : Script) (depth : Nat) (s : State)
    (e : Event) : CommandsAppended s (nestedDispatch script depth s e).state := by
  induction depth generalizing s e with
  | zero => exact CommandsAppended_of_eq rfl rfl
  | succ n ih =>
    rw [nestedDispatch]
    exact CommandsAppended_dispatchEvent script _ (fun s1 e1 => ih s1 e1) s e

theorem CommandsAppended_SetAttributeEventListener (s : State) (t : AtomicString)
    (l : Option EventListener) : CommandsAppended s (SetAttributeEventListener s t l).2 := by
  unfold SetAttributeEventListener
  dsimp only
  cases l with
  | none =>
    dsimp only
    split
    · exact CommandsAppended_remove s t _ _
    · exact CommandsAppended_refl s
  | some l =>
    dsimp only
    split
    · exact CommandsAppended_of_eq (State.SetCallback_commands s t _ l).2
        (State.SetCallback_commands s t _ l).1
    · exact CommandsAppended_add s t (some l) _

theorem CommandsAppended_HandleDispatchEventFromDart (script : Script) (depth : Nat)
    (s : State) (argv : List NativeValue) (outcome : HostDispatchOutcome)
    (h : HandleDispatchEventFromDart script (nestedDispatch script depth) s argv =
      Except.ok outcome) : CommandsAppended s outcome.state := by
  unfold HandleDispatchEventFromDart at h
  split at h
  · cases h
  · split at h
    · split at h
      · rename_i isCapture event_type raw_event _ _ _
        cases h
        have hpass := CommandsAppended_FireEventListeners script _
          (CommandsAppended_nestedDispatch script depth) { s with exception_state := none }
          (hostEvent event_type raw_event) isCapture
        exact CommandsAppended_trans hpass
          (CommandsAppended_of_eq (State.reportPending_commands _).2
            (State.reportPending_commands _).1)
      · cases h
    · cases h

theorem CommandsAppended_call (script : Script) (depth : Nat) (s : State) (call : TargetCall) :
    CommandsAppended s (s.call script depth call) := by
  cases call with
  | addEventListener t l o => exact CommandsAppended_add s t l _
  | removeEventListener t l c => exact CommandsAppended_remove s t l _
  | setAttributeEventListener t l => exact CommandsAppended_SetAttributeEventListener s t l
  | dispatchEvent e =>
    exact CommandsAppended_dispatchEvent script _ (CommandsAppended_nestedDispatch script depth)
      s e
  | handleDispatchEventFromDart argv =>
    rw [State.call]
    split
    · rename_i outcome h
      exact CommandsAppended_HandleDispatchEventFromDart script depth s argv outcome h
    · exact CommandsAppended_refl s

theorem CommandsAppended_calls (script : Script) (depth : Nat) (calls : List TargetCall) :
    ∀ s : State, CommandsAppended s (s.calls script depth calls) := by
  induction calls with
  | nil => intro s; exact CommandsAppended_refl s
  | cons call rest ih =>
    intro s
    rw [State.calls]
    exact CommandsAppended_trans (CommandsAppended_call script depth s call) (ih _)

/-- C22: the command buffer is append-only and ordered by call.  Every call on a
target, be it `addEventListener`, `removeEventListener`,
`SetAttributeEventListener`, `dispatchEvent` or a dispatch by the host, with
callbacks that add, remove and dispatch themselves to any depth, leaves the
commands buffered before it in place and appends only add-listener and
remove-listener commands of that target; the constructor of a target made by
script appends its create-target command; so after every sequence of calls on
such a target the buffer is the one found at construction, then the
create-target command, then add-listener and remove-listener commands of the
target.  When the binding object of the new target is referenced by no earlier
command, every add-listener and remove-listener command that references it
stands after its create-target command. -/
theorem command_buffer_is_append_only (script : Script) (depth : Nat) (s : State)
    (call : TargetCall) (calls : List TargetCall) (commands : List IsolateCommandItem)
    (constructor_name : AtomicString) (bindingObject : Nat) :
    (∃ more, (s.call script depth call).commands = s.commands ++ more ∧
      ∀ c ∈ more, (c.type = IsolateCommand.kAddEvent ∨ c.type = IsolateCommand.kRemoveEvent) ∧
        c.target = s.binding_object) ∧
    (EventTarget.Create commands constructor_name bindingObject).commands =
      commands ++ [{ type := IsolateCommand.kCreateEventTarget, args := constructor_name
                     target := bindingObject, payload := CommandPayload.null }] ∧
    (∃ more,
      ((EventTarget.Create commands constructor_name bindingObject).calls script depth
        calls).commands =
        commands ++ { type := IsolateCommand.kCreateEventTarget, args := constructor_name
                      target := bindingObject, payload := CommandPayload.null } :: more ∧
      ∀ c ∈ more, (c.type = IsolateCommand.kAddEvent ∨ c.type = IsolateCommand.kRemoveEvent) ∧
        c.target = bindingObject) ∧
    ((∀ c ∈ commands, c.target ≠ bindingObject) →
      ∀ (i : Nat) (c : IsolateCommandItem),
        ((EventTarget.Create commands constructor_name bindingObject).calls script depth
          calls).commands.get? i = some c →
        c.target = bindingObject →
        (c.type = IsolateCommand.kAddEvent ∨ c.type = IsolateCommand.kRemoveEvent) →
        commands.length < i) := by
  have h3 : ∃ more,
      ((EventTarget.Create commands constructor_name bindingObject).calls script depth
        calls).commands =
        commands ++ { type := IsolateCommand.kCreateEventTarget, args := constructor_name
                      target := bindingObject, payload := CommandPayload.null } :: more ∧
      ∀ c ∈ more, (c.type = IsolateCommand.kAddEvent ∨ c.type = IsolateCommand.kRemoveEvent) ∧
        c.target = bindingObject := by
    obtain ⟨_, more, hm, hc⟩ := CommandsAppended_calls script depth calls
      (EventTarget.Create commands constructor_name bindingObject)
    refine ⟨more, ?_, hc⟩
    rw [hm]
    show (commands ++ [_]) ++ more = _
    rw [List.append_assoc]
    rfl
  refine ⟨(CommandsAppended_call script depth s call).2, rfl, h3, ?_⟩
  intro hnew i c hget htarget htype
  obtain ⟨more, hm, _⟩ := h3
  rw [hm, List.get?_eq_getElem?] at hget
  by_cases hlt : i < commands.length
  · rw [List.getElem?_append_left hlt] at hget
    exact absurd htarget (hnew c (List.getElem?_mem hget))
  · by_cases heq : i = commands.length
    · rw [heq, List.getElem?_append_right (Nat.le_refl _)] at hget
      simp at hget
      rw [← hget] at htype
      rcases htype with h | h <;> cases h
    · omega

/-- C22, witness: a target made by script in a context whose buffer holds the
create-target command of another target; A is registered for "x", "x" is
dispatched, with callbacks that add, dispatch and remove, and A is removed. -/
theorem command_buffer_is_append_only_witness :
    (∀ c ∈ Sample.earlierCommands, c.target ≠ 7) ∧
    ((EventTarget.Create Sample.earlierCommands "EventTarget" 7).calls Sample.busy 2
      Sample.someCalls).commands.length = 7 ∧
    ∀ (i : Nat) (c : IsolateCommandItem),
      ((EventTarget.Create Sample.earlierCommands "EventTarget" 7).calls Sample.busy 2
        Sample.someCalls).commands.get? i = some c →
      c.target = 7 →
      (c.type = IsolateCommand.kAddEvent ∨ c.type = IsolateCommand.kRemoveEvent) →
      Sample.earlierCommands.length < i :=
  ⟨by decide, by decide,
    (command_buffer_is_append_only Sample.busy 2 Sample.target
      (TargetCall.dispatchEvent (Event.Create "x" false)) Sample.someCalls Sample.earlierCommands
      "EventTarget" 7).2.2.2 (by decide)⟩

/-! ### The firing loop stays within the sequence -/

theorem runActions_keeps_type (nested : State → Event → DispatchOutcome)
    (hn : ∀ s e, (nested s e).event.type = e.type) :
    ∀ (acts : List Action) (s : State) (e : Event),
      (runActions nested acts s e).2.1.type = e.type := by
  intro acts
  induction acts with
  | nil => intro s e; rfl
  | cons a rest ih =>
    intro s e
    cases a with
    | addEventListener t l o => rw [runActions]; exact ih _ _
    | removeEventListener t l c => rw [runActions]; exact ih _ _
    | stopPropagation => rw [runActions, ih]; rfl
    | stopImmediatePropagation => rw [runActions, ih]; rfl
    | preventDefault =>
      rw [runActions, ih]
      unfold Event.preventDefault
      split <;> rfl
    | dispatchEvent e1 =>
      rw [runActions]
      split
      · rfl
      · exact ih _ _
    | dispatchCurrent =>
      rw [runActions]
      split
      · exact hn _ _
      · rw [ih]; exact hn _ _
    | raiseError => rfl

theorem fireOne_keeps_type (script : Script) (nested : State → Event → DispatchOutcome)
    (hn : ∀ s e, (nested s e).event.type = e.type)
    (s : State) (e : Event) (rl : RegisteredEventListener) :
    (fireOne script nested s e rl).2.type = e.type := by
  unfold fireOne
  dsimp only [Event.SetHandlingPassive]
  rw [Invoke_event, runActions_keeps_type nested hn]

theorem fireLoop_keeps_type (script : Script) (nested : State → Event → DispatchOutcome)
    (hn : ∀ s e, (nested s e).event.type = e.type)
    (isCapture : Bool) (pos k : Nat) (s : State) (e : Event) (f : Bool) :
    (fireLoop script nested isCapture pos k s e f).2.1.type = e.type := by
  refine fireLoop_preserves script nested isCapture pos
    (fun _ e1 => e1.type = e.type) ?_ ?_ ?_ ?_ k s e f rfl
  · intro _ _ h; exact h
  · intro _ _ h; exact h
  · intro _ _ _ h; exact h
  · intro s1 e1 rl h
    exact (fireOne_keeps_type script nested hn s1 e1 rl).trans h

theorem FireEventListenersEntry_keeps_type (script : Script)
    (nested : State → Event → DispatchOutcome)
    (hn : ∀ s e, (nested s e).event.type = e.type)
    (s : State) (e : Event) (isCapture : Bool) :
    (FireEventListenersEntry script nested s e isCapture).2.1.type =
      e.type := by
  unfold FireEventListenersEntry
  split
  · rfl
  · exact fireLoop_keeps_type script nested hn _ _ _ _ _ _

theorem FireEventListenersBubble_keeps_type (script : Script)
    (nested : State → Event → DispatchOutcome)
    (hn : ∀ s e, (nested s e).event.type = e.type)
    (s : State) (e : Event) :
    (FireEventListenersBubble script nested s e).2.2.type = e.type := by
  unfold FireEventListenersBubble
  split
  · rfl
  · dsimp only [Event.DoneDispatchingEventAtCurrentTarget]
    rw [ite_self]
    split
    · exact FireEventListenersEntry_keeps_type script nested hn _ _ _
    · rfl

theorem dispatchEvent_keeps_type (script : Script) (nested : State → Event → DispatchOutcome)
    (hn : ∀ s e, (nested s e).event.type = e.type)
    (s : State) (e : Event) :
    (dispatchEvent script nested s e).event.type = e.type := by
  unfold dispatchEvent
  split
  · rfl
  · split
    · rfl
    · split
      · rfl
      · dsimp only [DispatchEventInternal, Event.SetEventPhase]
        rw [FireEventListenersBubble_keeps_type script nested hn]
        rfl

theorem nestedDispatch_keeps_type (script : Script) (depth : Nat) (s : State) (e : Event) :
    (nestedDispatch script depth s e).event.type = e.type := by
  induction depth generalizing s e with
  | zero => rfl
  | succ n ih =>
    rw [nestedDispatch]
    exact dispatchEvent_keeps_type script _ (fun s1 e1 => ih s1 e1) s e

theorem Safe_of_data {cs : List Bool} {r0 : Bool} {s s2 : State} (h : Safe cs r0 s)
    (hd : s2.data = s.data) (hr : s2.out_of_range = s.out_of_range) : Safe cs r0 s2 := by
  have hi : s2.iterators = s.iterators := by unfold State.iterators; rw [hd]
  have he : ∀ c t, s2.entry c t = s.entry c t := by
    intro c t; unfold State.entry; rw [hd]
  refine ⟨⟨by rw [hi]; exact h.1.1, ?_⟩, hr.trans h.2⟩
  intro p it c hit hc
  rw [hi] at hit
  rw [he]
  exact h.1.2 p it c hit hc

theorem adjustIterator_within (t : AtomicString) (index : Nat) (it : FiringEventIterator)
    (h : it.iterator ≤ it.end_) :
    (adjustIterator t index it).iterator ≤ (adjustIterator t index it).end_ ∧
    (it.event_type = t → index < it.end_ → (adjustIterator t index it).end_ + 1 = it.end_) ∧
    (it.event_type = t → it.end_ ≤ index → (adjustIterator t index it).end_ = it.end_) := by
  unfold adjustIterator
  refine ⟨?_, ?_, ?_⟩
  · split
    · exact h
    · split
      · exact h
      · dsimp only
        split <;> omega
  · intro ht hlt
    rw [if_neg (by simp [ht]), if_neg (by omega)]
    dsimp only
    omega
  · intro ht hle
    rw [if_neg (by simp [ht]), if_pos (by omega)]

theorem Safe_withoutListener {cs : List Bool} {r0 : Bool} {s : State} (h : Safe cs r0 s)
    (t : AtomicString) (index : Nat) (hindex : index < (s.entry false t).length) :
    Safe cs r0 (s.withoutListener t index) := by
  refine ⟨⟨?_, ?_⟩, (State.out_of_range_withoutListener s t index).trans h.2⟩
  · rw [State.iterators_withoutListener, List.length_map]
    exact h.1.1
  · intro p it1 c hit hc
    rw [State.iterators_withoutListener, List.get?_eq_getElem?, List.getElem?_map] at hit
    cases hp : s.iterators[p]? with
    | none => rw [hp] at hit; cases hit
    | some it =>
      rw [hp] at hit
      simp only [Option.map_some', Option.some.injEq] at hit
      subst hit
      obtain ⟨h1, h2⟩ := h.1.2 p it c (by rw [List.get?_eq_getElem?]; exact hp) hc
      obtain ⟨a1, a2, a3⟩ := adjustIterator_within t index it h1
      refine ⟨a1, ?_⟩
      rw [adjustIterator_event_type]
      have hle := adjustIterator_end_le t index it
      cases c with
      | true =>
        rw [State.entry_withoutListener_capture]
        omega
      | false =>
        by_cases ht : it.event_type = t
        · rw [ht, State.entry_withoutListener_same, List.length_eraseIdx, if_pos hindex]
          rw [ht] at h2
          by_cases hlt : index < it.end_
          · have := a2 ht hlt
            omega
          · have := a3 ht (by omega)
            omega
        · rw [State.entry_withoutListener_ne _ _ _ _ ht]
          omega

theorem Safe_remove {cs : List Bool} {r0 : Bool} {s : State} (h : Safe cs r0 s)
    (t : AtomicString) (l : Option EventListener) (o : EventListenerOptions) :
    Safe cs r0 (RemoveEventListenerInternal s t l o).2 := by
  cases l with
  | none => exact h
  | some l =>
    rw [RemoveEventListenerInternal_eq]
    cases hi : indexOfMatch (s.entry false t) l (o.capture.getD false) with
    | none => exact h
    | some index =>
      have hw := Safe_withoutListener h t index (indexOfMatch_lt _ _ _ _ hi)
      dsimp only
      split
      · exact Safe_of_data hw rfl rfl
      · exact hw

theorem Safe_withListener {cs : List Bool} {r0 : Bool} {s : State} (h : Safe cs r0 s)
    (c1 : Bool) (t : AtomicString) (rl : RegisteredEventListener) :
    Safe cs r0 (s.withListener c1 t rl) := by
  refine ⟨⟨?_, ?_⟩, h.2⟩
  · rw [State.iterators_withListener]
    exact h.1.1
  · intro p it c hit hc
    rw [State.iterators_withListener] at hit
    obtain ⟨h1, h2⟩ := h.1.2 p it c hit hc
    refine ⟨h1, ?_⟩
    by_cases hsame : c = c1 ∧ it.event_type = t
    · rw [hsame.1, hsame.2, State.withListener_entry_same, List.length_append]
      rw [hsame.1, hsame.2] at h2
      omega
    · rw [State.entry_withListener_ne _ _ _ _ _ _ hsame]
      exact h2

theorem Safe_add {cs : List Bool} {r0 : Bool} {s : State} (h : Safe cs r0 s)
    (t : AtomicString) (l : Option EventListener) (o : AddEventListenerOptions) :
    Safe cs r0 (AddEventListenerInternal s t l o).2 := by
  cases l with
  | none => exact h
  | some l =>
    rw [AddEventListenerInternal_eq]
    split
    · refine ⟨⟨?_, ?_⟩, h.2⟩
      · show s.ensured.iterators.length = _
        rw [State.iterators_ensured]
        exact h.1.1
      · intro p it c hit hc
        have hit1 : s.ensured.iterators.get? p = some it := hit
        rw [State.iterators_ensured] at hit1
        show _ ∧ it.end_ ≤ (s.ensured.entry c it.event_type).length
        rw [State.entry_ensured]
        exact h.1.2 p it c hit1 hc
    · split
      · exact Safe_of_data (Safe_withListener h _ t _) rfl rfl
      · exact Safe_withListener h _ t _

theorem Safe_runActions (nested : State → Event → DispatchOutcome)
    (hn : ∀ cs r0 s e, Safe cs r0 s → Safe cs r0 (nested s e).state) (cs : List Bool)
    (r0 : Bool) :
    ∀ (acts : List Action) (s : State) (e : Event), Safe cs r0 s →
      Safe cs r0 (runActions nested acts s e).1 := by
  intro acts
  induction acts with
  | nil => intro s e h; exact h
  | cons a rest ih =>
    intro s e h
    cases a with
    | addEventListener t l o =>
      rw [runActions]
      exact ih _ _ (Safe_add h t (some l) _)
    | removeEventListener t l c =>
      rw [runActions]
      exact ih _ _ (Safe_remove h t (some l) _)
    | stopPropagation => rw [runActions]; exact ih _ _ h
    | stopImmediatePropagation => rw [runActions]; exact ih _ _ h
    | preventDefault => rw [runActions]; exact ih _ _ h
    | dispatchEvent e1 =>
      rw [runActions]
      split
      · exact hn cs r0 s e1 h
      · exact ih _ _ (hn cs r0 s e1 h)
    | dispatchCurrent =>
      rw [runActions]
      split
      · exact hn cs r0 s e h
      · exact ih _ _ (hn cs r0 s e h)
    | raiseError => exact h

theorem Safe_fireOne (script : Script) (nested : State → Event → DispatchOutcome)
    (hn : ∀ cs r0 s e, Safe cs r0 s → Safe cs r0 (nested s e).state) (cs : List Bool)
    (r0 : Bool) (s : State) (e : Event) (rl : RegisteredEventListener) (h : Safe cs r0 s) :
    Safe cs r0 (fireOne script nested s e rl).1 := by
  unfold fireOne
  dsimp only
  have h2 : ∀ s2 : State, Safe cs r0 s2 →
      Safe cs r0 (Invoke script nested rl.callback (s2.logInvoke rl)
        (e.SetHandlingPassive (EventPassiveMode rl))).1 := by
    intro s2 hs2
    have hlog : Safe cs r0 (s2.logInvoke rl) := Safe_of_data hs2 rfl rfl
    have hrun := Safe_runActions nested hn cs r0 (script rl.callback) (s2.logInvoke rl)
      (e.SetHandlingPassive (EventPassiveMode rl)) hlog
    rcases Invoke_state script nested rl.callback (s2.logInvoke rl)
      (e.SetHandlingPassive (EventPassiveMode rl)) with heq | heq
    · rw [heq]; exact hrun
    · rw [heq]; exact Safe_of_data hrun rfl rfl
  split
  · exact h2 _ (Safe_remove h _ _ _)
  · exact h2 s h

theorem Safe_setIterator {cs : List Bool} {r0 : Bool} {s : State} (h : Safe cs r0 s)
    (pos : Nat) (it : FiringEventIterator) (hit : s.iterators.get? pos = some it)
    (hlt : it.iterator < it.end_) : Safe cs r0 (s.setIterator pos (it.iterator + 1)) := by
  refine ⟨⟨?_, ?_⟩, (State.out_of_range_setIterator s pos _).trans h.2⟩
  · rw [State.iterators_length_setIterator]
    exact h.1.1
  · intro p it1 c hit1 hc
    rw [State.entry_setIterator]
    by_cases hp : p = pos
    · subst hp
      rw [State.iterators_setIterator, hit] at hit1
      simp only [Option.map_some', Option.some.injEq] at hit1
      subst hit1
      obtain ⟨_, h2⟩ := h.1.2 p it c hit hc
      exact ⟨hlt, h2⟩
    · rw [State.iterators_setIterator_ne s pos _ p hp] at hit1
      exact h.1.2 p it1 c hit1 hc

/-- The firing loop keeps every pass in progress within its sequence and never
reads past the end of the sequence it walks. -/
theorem Safe_fireLoop (script : Script) (nested : State → Event → DispatchOutcome)
    (hn : ∀ cs r0 s e, Safe cs r0 s → Safe cs r0 (nested s e).state)
    (hty : ∀ s e, (nested s e).event.type = e.type)
    (hk : ∀ s e, IteratorsKept s (nested s e).state)
    (isCapture : Bool) (pos : Nat) (cs : List Bool) (r0 : Bool)
    (hcs : cs.get? pos = some isCapture) (t : AtomicString) :
    ∀ (k : Nat) (s : State) (e : Event) (f : Bool), Safe cs r0 s → e.type = t →
      (∀ it, s.iterators.get? pos = some it → it.event_type = t) →
      Safe cs r0 (fireLoop script nested isCapture pos k s e f).1 := by
  intro k
  induction k with
  | zero =>
    intro s e f h _ _
    rw [fireLoop]
    cases s.iterators.get? pos with
    | none => exact h
    | some it =>
      dsimp only
      split
      · exact Safe_of_data h rfl rfl
      · exact h
  | succ k ih =>
    intro s e f h hte hti
    rw [fireLoop]
    cases hit : s.iterators.get? pos with
    | none => exact h
    | some it =>
      dsimp only
      by_cases h1 : it.iterator < it.end_
      · rw [if_pos h1]
        by_cases h2 : e.ImmediatePropagationStopped = true
        · rw [if_pos h2]; exact h
        · rw [if_neg h2]
          have hbound := (h.1.2 pos it isCapture hit hcs).2
          rw [hti it hit, ← hte] at hbound
          have hs1 := Safe_setIterator h pos it hit h1
          have hit1 : (s.setIterator pos (it.iterator + 1)).iterators.get? pos =
              some { it with iterator := it.iterator + 1 } := by
            rw [State.iterators_setIterator, hit]
            rfl
          have hti1 : ∀ it1, (s.setIterator pos (it.iterator + 1)).iterators.get? pos =
              some it1 → it1.event_type = t := by
            intro it1 h3
            rw [hit1] at h3
            cases h3
            exact hti it hit
          cases hg : (s.entry isCapture e.type).get? it.iterator with
          | none =>
            rw [List.get?_eq_none] at hg
            omega
          | some rl =>
            dsimp only
            by_cases h3 : (!rl.ShouldFire e) = true
            · rw [if_pos h3]
              exact ih _ _ _ hs1 hte hti1
            · rw [if_neg h3]
              refine ih _ _ _ (Safe_fireOne script nested hn cs r0 _ e rl hs1)
                ((fireOne_keeps_type script nested hty _ e rl).trans hte) ?_
              intro it2 h4
              obtain ⟨it3, h5, h6, _, _⟩ :=
                (IteratorsKept.of_fireOne script nested hk
                  (s.setIterator pos (it.iterator + 1)) e rl (pos + 1)).2 pos _
                  (Nat.lt_succ_self pos) hit1
              rw [h5] at h4
              cases h4
              exact h6.trans (hti it hit)
      · rw [if_neg h1]; exact h

theorem Safe_pushIterator {cs : List Bool} {r0 : Bool} {s : State} (h : Safe cs r0 s)
    (d : EventTargetData) (hd : s.data = some d) (t : AtomicString) (c0 : Bool) :
    Safe (cs ++ [c0]) r0
      (s.pushIterator { event_type := t, iterator := 0, end_ := (s.entry c0 t).length }) := by
  refine ⟨⟨?_, ?_⟩, (State.out_of_range_pushIterator s _).trans h.2⟩
  · rw [State.iterators_pushIterator s d hd, List.length_append, List.length_append, h.1.1]
    rfl
  · intro p it c hit hc
    rw [State.iterators_pushIterator s d hd, List.get?_eq_getElem?] at hit
    rw [List.get?_eq_getElem?] at hc
    rw [State.entry_pushIterator]
    by_cases hp : p < s.iterators.length
    · rw [List.getElem?_append_left hp] at hit
      rw [List.getElem?_append_left (by rw [← h.1.1]; exact hp)] at hc
      exact h.1.2 p it c (by rw [List.get?_eq_getElem?]; exact hit)
        (by rw [List.get?_eq_getElem?]; exact hc)
    · have hp1 : s.iterators.length ≤ p := by omega
      rw [List.getElem?_append_right hp1] at hit
      rw [List.getElem?_append_right (by rw [← h.1.1]; exact hp1)] at hc
      have hp2 : p - s.iterators.length = 0 := by
        by_contra hne
        rw [List.getElem?_eq_none (by simp; omega)] at hit
        cases hit
      rw [hp2] at hit
      rw [← h.1.1, hp2] at hc
      simp only [List.getElem?_cons_zero, Option.some.injEq] at hit hc
      subst hit
      subst hc
      exact ⟨Nat.zero_le _, Nat.le_refl _⟩

theorem Safe_popIterator {cs : List Bool} {r0 : Bool} {c0 : Bool} {s : State}
    (h : Safe (cs ++ [c0]) r0 s) : Safe cs r0 s.popIterator := by
  have hlen : s.iterators.length = cs.length + 1 := by
    rw [h.1.1, List.length_append]
    rfl
  refine ⟨⟨?_, ?_⟩, (State.out_of_range_popIterator s).trans h.2⟩
  · rw [State.iterators_popIterator, List.length_dropLast, hlen]
    rfl
  · intro p it c hit hc
    rw [State.iterators_popIterator, List.get?_eq_getElem?, List.getElem?_dropLast] at hit
    rw [State.entry_popIterator]
    have hp : p < cs.length := by
      rw [List.get?_eq_getElem?] at hc
      by_contra hcon
      rw [List.getElem?_eq_none (by omega)] at hc
      cases hc
    rw [if_pos (by omega)] at hit
    refine h.1.2 p it c (by rw [List.get?_eq_getElem?]; exact hit) ?_
    rw [List.get?_eq_getElem?, List.getElem?_append_left hp, ← List.get?_eq_getElem?]
    exact hc

theorem Safe_FireEventListenersEntry (script : Script)
    (nested : State → Event → DispatchOutcome)
    (hn : ∀ cs r0 s e, Safe cs r0 s → Safe cs r0 (nested s e).state)
    (hty : ∀ s e, (nested s e).event.type = e.type)
    (hk : ∀ s e, IteratorsKept s (nested s e).state)
    (cs : List Bool) (r0 : Bool) (s : State) (e : Event) (isCapture : Bool)
    (h : Safe cs r0 s) :
    Safe cs r0 (FireEventListenersEntry script nested s e isCapture).1 := by
  unfold FireEventListenersEntry
  split
  · exact h
  · dsimp only
    cases hd : s.data with
    | none =>
      have hpush : s.pushIterator
          { event_type := e.type, iterator := 0, end_ := (s.entry isCapture e.type).length } =
          s := by
        unfold State.pushIterator; rw [hd]
      have hnone : s.iterators.get? s.iterators.length = none := by
        rw [List.get?_eq_none]
      rw [hpush]
      have hloop : ∀ k f, fireLoop script nested isCapture s.iterators.length k s e f =
          (s, e, f) := by
        intro k f
        cases k <;> rw [fireLoop, hnone]
      rw [hloop]
      have hpop : s.popIterator = s := by unfold State.popIterator; rw [hd]
      dsimp only
      rw [hpop]
      exact h
    | some d =>
      have hpush := Safe_pushIterator h d hd e.type isCapture
      have hget : (s.pushIterator
          { event_type := e.type, iterator := 0,
            end_ := (s.entry isCapture e.type).length }).iterators.get? s.iterators.length =
          some { event_type := e.type, iterator := 0,
                 end_ := (s.entry isCapture e.type).length } := by
        rw [State.iterators_pushIterator s d hd, List.get?_eq_getElem?,
          List.getElem?_append_right (Nat.le_refl _)]
        simp
      have hcs : (cs ++ [isCapture]).get? s.iterators.length = some isCapture := by
        rw [h.1.1, List.get?_eq_getElem?, List.getElem?_append_right (Nat.le_refl _)]
        simp
      apply Safe_popIterator
      refine Safe_fireLoop script nested hn hty hk isCapture s.iterators.length
        (cs ++ [isCapture]) r0 hcs e.type _ _ e false hpush rfl ?_
      intro it hit
      rw [hget] at hit
      cases hit
      rfl

theorem Safe_FireEventListenersBubble (script : Script)
    (nested : State → Event → DispatchOutcome)
    (hn : ∀ cs r0 s e, Safe cs r0 s → Safe cs r0 (nested s e).state)
    (hty : ∀ s e, (nested s e).event.type = e.type)
    (hk : ∀ s e, IteratorsKept s (nested s e).state)
    (cs : List Bool) (r0 : Bool) (s : State) (e : Event) (h : Safe cs r0 s) :
    Safe cs r0 (FireEventListenersBubble script nested s e).2.1 := by
  unfold FireEventListenersBubble
  split
  · exact h
  · dsimp only
    split
    · exact Safe_FireEventListenersEntry script nested hn hty hk cs r0 s e false h
    · exact h

theorem Safe_FireEventListeners (script : Script)
    (nested : State → Event → DispatchOutcome)
    (hn : ∀ cs r0 s e, Safe cs r0 s → Safe cs r0 (nested s e).state)
    (hty : ∀ s e, (nested s e).event.type = e.type)
    (hk : ∀ s e, IteratorsKept s (nested s e).state)
    (cs : List Bool) (r0 : Bool) (s : State) (e : Event) (isCapture : Bool)
    (h : Safe cs r0 s) :
    Safe cs r0 (FireEventListeners script nested s e isCapture).2.1 := by
  unfold FireEventListeners
  split
  · exact h
  · dsimp only
    split
    · exact Safe_FireEventListenersEntry script nested hn hty hk cs r0 s e isCapture h
    · exact h

theorem Safe_dispatchEvent (script : Script) (nested : State → Event → DispatchOutcome)
    (hn : ∀ cs r0 s e, Safe cs r0 s → Safe cs r0 (nested s e).state)
    (hty : ∀ s e, (nested s e).event.type = e.type)
    (hk : ∀ s e, IteratorsKept s (nested s e).state)
    (cs : List Bool) (r0 : Bool) (s : State) (e : Event) (h : Safe cs r0 s) :
    Safe cs r0 (dispatchEvent script nested s e).state := by
  unfold dispatchEvent
  split
  · exact h
  · split
    · exact h
    · split
      · exact h
      · exact Safe_FireEventListenersBubble script nested hn hty hk cs r0
          { s with exception_state := none } _ h

theorem Safe_nestedDispatch (script : Script) (depth : Nat) :
    ∀ (cs : List Bool) (r0 : Bool) (s : State) (e : Event), Safe cs r0 s →
      Safe cs r0 (nestedDispatch script depth s e).state := by
  induction depth with
  | zero =>
    intro cs r0 s e h
    exact Safe_of_data h rfl rfl
  | succ n ih =>
    intro cs r0 s e h
    rw [nestedDispatch]
    exact Safe_dispatchEvent script _ ih (nestedDispatch_keeps_type script n)
      (IteratorsKept.nestedDispatch script n) cs r0 s e h

theorem AllWithin_of_no_pass (s : State) (h : s.iterators = []) : AllWithin [] s := by
  refine ⟨by rw [h]; rfl, ?_⟩
  intro p it c hit _
  rw [h] at hit
  cases hit

theorem adjustIterator_exact (t : AtomicString) (index : Nat) (it : FiringEventIterator) :
    ((adjustIterator t index it).end_ : Int) =
      (if t = it.event_type ∧ index < it.end_ then (it.end_ : Int) - 1 else (it.end_ : Int)) ∧
    ((adjustIterator t index it).iterator : Int) =
      (if t = it.event_type ∧ index < it.end_ ∧ index < it.iterator then (it.iterator : Int) - 1
       else (it.iterator : Int)) := by
  unfold adjustIterator
  by_cases h1 : t = it.event_type
  · by_cases h2 : index < it.end_
    · have c1 : ¬ (t ≠ it.event_type) := by simp [h1]
      have c2 : ¬ (index ≥ it.end_) := by omega
      by_cases h3 : index < it.iterator
      · have d1 : t = it.event_type ∧ index < it.end_ := ⟨h1, h2⟩
        have d2 : t = it.event_type ∧ index < it.end_ ∧ index < it.iterator := ⟨h1, h2, h3⟩
        simp only [if_neg c1, if_neg c2, if_pos d1, if_pos d2, if_pos h3]
        constructor <;> omega
      · have d1 : t = it.event_type ∧ index < it.end_ := ⟨h1, h2⟩
        have d2 : ¬ (t = it.event_type ∧ index < it.end_ ∧ index < it.iterator) :=
          fun h => h3 h.2.2
        simp only [if_neg c1, if_neg c2, if_pos d1, if_neg d2, if_neg h3]
        constructor
        · omega
        · trivial
    · have c1 : ¬ (t ≠ it.event_type) := by simp [h1]
      have c2 : index ≥ it.end_ := by omega
      have d1 : ¬ (t = it.event_type ∧ index < it.end_) := fun h => h2 h.2
      have d2 : ¬ (t = it.event_type ∧ index < it.end_ ∧ index < it.iterator) :=
        fun h => h2 h.2.1
      simp only [if_neg c1, if_pos c2, if_neg d1, if_neg d2]
      exact ⟨trivial, trivial⟩
  · have c1 : t ≠ it.event_type := h1
    have d1 : ¬ (t = it.event_type ∧ index < it.end_) := fun h => h1 h.1
    have d2 : ¬ (t = it.event_type ∧ index < it.end_ ∧ index < it.iterator) :=
      fun h => h1 h.1
    simp only [if_pos c1, if_neg d1, if_neg d2]
    exact ⟨trivial, trivial⟩

/-- C25: the firing loop stays within the sequence.  Let every pass in progress
have its cursor at or before its end and its end within the sequence it walks
(as is the case when no pass is in progress).  Then a pass started now, with
callbacks that add and remove listeners and dispatch further events to any
depth, never reads the sequence at or past its current length, in none of the
entry points; it starts with cursor 0 and end within the sequence; moving the
cursor past a listener and every listener invocation keep, for this pass and
for every enclosing one, the cursor at or before the end (the assertion
`i <= size`) and the end within the sequence; and when the pass is over the
enclosing passes are still so.  The decrements `RemoveEventListenerInternal`
applies to cursor and end are exact: they never go below zero. -/
theorem firing_loop_stays_in_range (script : Script) (depth : Nat) (cs : List Bool)
    (s : State) (event : Event) (isCapture : Bool) (h : AllWithin cs s) :
    (FireEventListenersEntry script (nestedDispatch script depth) s event
      isCapture).1.out_of_range = s.out_of_range ∧
    (FireEventListeners script (nestedDispatch script depth) s event
      isCapture).2.1.out_of_range = s.out_of_range ∧
    (FireEventListenersBubble script (nestedDispatch script depth) s
      event).2.1.out_of_range = s.out_of_range ∧
    (dispatchEvent script (nestedDispatch script depth) s event).state.out_of_range =
      s.out_of_range ∧
    AllWithin cs
      (FireEventListenersEntry script (nestedDispatch script depth) s event isCapture).1 ∧
    (∀ d, s.data = some d →
      AllWithin (cs ++ [isCapture])
        (s.pushIterator
          { event_type := event.type, iterator := 0
            end_ := (s.entry isCapture event.type).length })) ∧
    (∀ (s1 : State) (it : FiringEventIterator), AllWithin (cs ++ [isCapture]) s1 →
      s1.iterators.get? s.iterators.length = some it → it.iterator < it.end_ →
      AllWithin (cs ++ [isCapture]) (s1.setIterator s.iterators.length (it.iterator + 1))) ∧
    (∀ (s1 : State) (e1 : Event) (rl : RegisteredEventListener),
      AllWithin (cs ++ [isCapture]) s1 →
      AllWithin (cs ++ [isCapture])
        (fireOne script (nestedDispatch script depth) s1 e1 rl).1) ∧
    (∀ (t : AtomicString) (index : Nat) (it : FiringEventIterator),
      ((adjustIterator t index it).end_ : Int) =
        (if t = it.event_type ∧ index < it.end_ then (it.end_ : Int) - 1
         else (it.end_ : Int)) ∧
      ((adjustIterator t index it).iterator : Int) =
        (if t = it.event_type ∧ index < it.end_ ∧ index < it.iterator then
          (it.iterator : Int) - 1
         else (it.iterator : Int))) := by
  have hs : Safe cs s.out_of_range s := ⟨h, rfl⟩
  have hn := Safe_nestedDispatch script depth
  have hty := nestedDispatch_keeps_type script depth
  have hk := IteratorsKept.nestedDispatch script depth
  have hentry := Safe_FireEventListenersEntry script _ hn hty hk cs _ s event isCapture hs
  refine ⟨hentry.2,
    (Safe_FireEventListeners script _ hn hty hk cs _ s event isCapture hs).2,
    (Safe_FireEventListenersBubble script _ hn hty hk cs _ s event hs).2,
    (Safe_dispatchEvent script _ hn hty hk cs _ s event hs).2, hentry.1, ?_, ?_, ?_,
    adjustIterator_exact⟩
  · intro d hd
    exact (Safe_pushIterator hs d hd event.type isCapture).1
  · intro s1 it h1 hit hlt
    exact (Safe_setIterator (show Safe (cs ++ [isCapture]) s1.out_of_range s1 from ⟨h1, rfl⟩)
      _ it hit hlt).1
  · intro s1 e1 rl h1
    exact (Safe_fireOne script _ hn (cs ++ [isCapture]) s1.out_of_range s1 e1 rl ⟨h1, rfl⟩).1

/-- C25, witness: no pass is in progress on the target with the capturing
listeners A and B and the non-capturing listener C for "x"; in the capturing
pass in which A removes C, the sequence is never read past its end. -/
theorem firing_loop_stays_in_range_witness :
    AllWithin [] Sample.crossRegistry ∧
    (FireEventListenersEntry Sample.removesOtherRegistry
      (nestedDispatch Sample.removesOtherRegistry 1) Sample.crossRegistry
      (Sample.hostEvent "x") true).1.out_of_range = false ∧
    AllWithin []
      (FireEventListenersEntry Sample.removesOtherRegistry
        (nestedDispatch Sample.removesOtherRegistry 1) Sample.crossRegistry
        (Sample.hostEvent "x") true).1 :=
  ⟨AllWithin_of_no_pass _ rfl,
    (firing_loop_stays_in_range Sample.removesOtherRegistry 1 [] Sample.crossRegistry
      (Sample.hostEvent "x") true (AllWithin_of_no_pass _ rfl)).1,
    (firing_loop_stays_in_range Sample.removesOtherRegistry 1 [] Sample.crossRegistry
      (Sample.hostEvent "x") true (AllWithin_of_no_pass _ rfl)).2.2.2.2.1⟩

end mercury
